import Mathlib

/-!
Warrior combat core: damage execution and attribute hook

Shallow embedding of

* `UGE_ExecCalc_DamageTaken::Execute_Implementation`
  (`Private/AbilitySystem/GE_ExecCalc/GE_ExecCalc_DamageTaken.cpp`),
* `UWarriorAttributeSet` and its `PostGameplayEffectExecute` hook
  (`Private/AbilitySystem/WarriorAttributeSet.cpp`),
* `UWarriorFunctionLibrary::AddGameplayTagToActorIfNone` and
  `RemoveGameplayTagFromActorIfFound` (`Private/WarriorFunctionLibrary.cpp`),
* `AWarriorSurvivalGameMode` (`Private/GameModes/WarriorSurvivalGameMode.cpp`
  and `Public/GameModes/WarriorSurvivalGameMode.h`),
* the effect application entry points of `UWarriorGameplayAbility`
  (`Private/AbilitySystem/Abilities/WarriorGameplayAbility.cpp`) and of
  `UWarriorFunctionLibrary`,
* `UWarriorFunctionLibrary::ComputeHitReactDirection`
  (`Private/WarriorFunctionLibrary.cpp`) and
  `UWarriorHeroGameplayAbility::GetAbilityRemainingCooldownByTag`
  (`Private/AbilitySystem/Abilities/WarriorHeroGameplayAbility.cpp`).

Conventions of the embedding.

* `float` values are read as exact rationals (`ℚ`): every statement below is a
  statement in exact arithmetic, rounding is not modelled.  Lean's `x / 0 = 0`
  is not what IEEE division does, so statements that depend on the value of a
  quotient carry the hypothesis that the divisor is non-zero.
* A fatal `check` / `checkf` is an `Except.error`.
* The gameplay-tag count container of the target's ability system component is
  a list of tags, one occurrence per reference held.
* `int32` counters are integers; their overflow is undefined behaviour in C++
  and is not modelled.
* The random values and the outcomes of `SpawnActor` are read from lists held
  in the world, so that a statement over all lists is a statement over all
  draws and all spawn outcomes.
-/

namespace Warrior

/-! ## Gameplay tags (`WarriorGameplayTags.h`) -/

/-- The native gameplay tags read or written by the embedded functions; every
other tag of the project is `Other id`. -/
inductive GameplayTag where
  | Shared_SetByCaller_BaseDamage
  | Player_SetByCaller_AttackType_Light
  | Player_SetByCaller_AttackType_Heavy
  | Player_Status_Rage_Full
  | Player_Status_Rage_None
  | Shared_Status_Dead
  | Other (id : Nat)
  deriving DecidableEq, Repr

/-! ## `UGE_ExecCalc_DamageTaken` -/

/-- The attributes of `UWarriorAttributeSet` (`WarriorAttributeSet.h`). -/
inductive EAttribute where
  | CurrentHealth
  | MaxHealth
  | CurrentRage
  | MaxRage
  | AttackPower
  | DefensePower
  | DamageTaken
  deriving DecidableEq, Repr

/-- Engine enum `EGameplayModOp`: only `Override` is produced by the execution, the other
operations are listed so that the modifier really records which one is used. -/
inductive EGameplayModOp where
  | Additive
  | Multiplicitive
  | Division
  | Override
  deriving DecidableEq, Repr

/-- Engine struct `FGameplayModifierEvaluatedData(Attribute, ModifierOp, Magnitude)`. -/
structure FGameplayModifierEvaluatedData where
  Attribute : EAttribute
  ModifierOp : EGameplayModOp
  Magnitude : ℚ
  deriving DecidableEq

/-- The C++ conversion `float → int32` of `UsedLightAttackComboCount =
TagMagnitude.Value`: truncation toward zero (values outside the `int32` range
are undefined behaviour in C++ and are not modelled). -/
def truncToInt32 (x : ℚ) : Int := Int.tdiv x.num x.den

/-- The three locals filled by the loop over `SetByCallerTagMagnitudes`
(lines 157-159 give their initial values). -/
structure SetByCallerLocals where
  BaseDamage : ℚ
  UsedLightAttackComboCount : Int
  UsedHeavyAttackComboCount : Int
  deriving DecidableEq

/-- Initial values `BaseDamage = 0.f`, both combo counts `0`. -/
def SetByCallerLocals.init : SetByCallerLocals :=
  { BaseDamage := 0, UsedLightAttackComboCount := 0, UsedHeavyAttackComboCount := 0 }

/-- One iteration of the loop of lines 163-196: an `if` on the base-damage
tag, then an `if / else if` on the light and heavy attack-type tags. -/
def readSetByCaller (acc : SetByCallerLocals) (TagMagnitude : GameplayTag × ℚ) :
    SetByCallerLocals :=
  let acc1 :=
    if TagMagnitude.1 = GameplayTag.Shared_SetByCaller_BaseDamage then
      { acc with BaseDamage := TagMagnitude.2 }
    else acc
  if TagMagnitude.1 = GameplayTag.Player_SetByCaller_AttackType_Light then
    { acc1 with UsedLightAttackComboCount := truncToInt32 TagMagnitude.2 }
  else if TagMagnitude.1 = GameplayTag.Player_SetByCaller_AttackType_Heavy then
    { acc1 with UsedHeavyAttackComboCount := truncToInt32 TagMagnitude.2 }
  else acc1

/-- The whole loop over `EffectSpec.SetByCallerTagMagnitudes`, in iteration
order. -/
def scanSetByCaller (SetByCallerTagMagnitudes : List (GameplayTag × ℚ)) :
    SetByCallerLocals :=
  SetByCallerTagMagnitudes.foldl readSetByCaller SetByCallerLocals.init

/-- Lines 207-235: the two independent `if` statements that scale
`BaseDamage`, followed by `BaseDamage * SourceAttackPower / TargetDefensePower`. -/
def scaleAndDivide (SourceAttackPower TargetDefensePower BaseDamage : ℚ)
    (UsedLightAttackComboCount UsedHeavyAttackComboCount : Int) : ℚ :=
  let BaseDamage1 :=
    if UsedLightAttackComboCount ≠ 0 then
      BaseDamage * (((UsedLightAttackComboCount - 1 : Int) : ℚ) * 0.05 + 1)
    else BaseDamage
  let BaseDamage2 :=
    if UsedHeavyAttackComboCount ≠ 0 then
      BaseDamage1 * (((UsedHeavyAttackComboCount - 1 : Int) : ℚ) * 0.15 + 1)
    else BaseDamage1
  BaseDamage2 * SourceAttackPower / TargetDefensePower

/-- The local `FinalDamageDone` of `Execute_Implementation` (line 235) as a
function of the captured attack power, the captured defense power and the
set-by-caller magnitudes. -/
def FinalDamageDone (SourceAttackPower TargetDefensePower : ℚ)
    (SetByCallerTagMagnitudes : List (GameplayTag × ℚ)) : ℚ :=
  let l := scanSetByCaller SetByCallerTagMagnitudes
  scaleAndDivide SourceAttackPower TargetDefensePower l.BaseDamage
    l.UsedLightAttackComboCount l.UsedHeavyAttackComboCount

/-- Function `UGE_ExecCalc_DamageTaken::Execute_Implementation`: the execution output
is the list of output modifiers; the call appends to the output it is given
(lines 242-248). -/
def Execute_Implementation (SourceAttackPower TargetDefensePower : ℚ)
    (SetByCallerTagMagnitudes : List (GameplayTag × ℚ))
    (OutExecutionOutput : List FGameplayModifierEvaluatedData) :
    List FGameplayModifierEvaluatedData :=
  let FinalDamage := FinalDamageDone SourceAttackPower TargetDefensePower SetByCallerTagMagnitudes
  if FinalDamage > 0 then
    OutExecutionOutput ++
      [{ Attribute := EAttribute.DamageTaken, ModifierOp := EGameplayModOp.Override,
         Magnitude := FinalDamage }]
  else OutExecutionOutput

/-! ## Gameplay-tag helpers of `UWarriorFunctionLibrary` -/

/-- The tag count container of an ability system component: one list entry
per reference held on a tag (the loose tags are reference counted, see the
comment above `AddGameplayTagToActorIfNone` in `WarriorFunctionLibrary.cpp`). -/
abbrev TagContainer := List GameplayTag

/-- Engine `HasMatchingGameplayTag`: the count of the tag is positive.  The
tags used here (`Shared.Status.Dead`, `Player.Status.Rage.Full`,
`Player.Status.Rage.None`) have no child tag in `WarriorGameplayTags.cpp`, so
matching is exact. -/
def HasMatchingGameplayTag (Tags : TagContainer) (Tag : GameplayTag) : Bool :=
  decide (0 < Tags.count Tag)

/-- Engine `AddLooseGameplayTag`: one more reference on the tag. -/
def AddLooseGameplayTag (Tags : TagContainer) (Tag : GameplayTag) : TagContainer :=
  Tag :: Tags

/-- Engine `RemoveLooseGameplayTag`: one reference less on the tag. -/
def RemoveLooseGameplayTag (Tags : TagContainer) (Tag : GameplayTag) : TagContainer :=
  Tags.erase Tag

/-- Function `UWarriorFunctionLibrary::AddGameplayTagToActorIfNone`, on the tag
container of the actor's ability system component. -/
def AddGameplayTagToActorIfNone (Tags : TagContainer) (TagToAdd : GameplayTag) :
    TagContainer :=
  if HasMatchingGameplayTag Tags TagToAdd = false then AddLooseGameplayTag Tags TagToAdd
  else Tags

/-- Function `UWarriorFunctionLibrary::RemoveGameplayTagFromActorIfFound`. -/
def RemoveGameplayTagFromActorIfFound (Tags : TagContainer) (TagToRemove : GameplayTag) :
    TagContainer :=
  if HasMatchingGameplayTag Tags TagToRemove then RemoveLooseGameplayTag Tags TagToRemove
  else Tags

/-! ## `UWarriorAttributeSet` -/

/-- What `IPawnUIInterface` answers for an avatar: whether `GetPawnUIComponent`
and `GetHeroUIComponent` return a non-null component. -/
structure IPawnUIInterface where
  PawnUIComponent : Bool
  HeroUIComponent : Bool
  deriving DecidableEq, Repr

/-- Class `AWarriorBaseCharacter`: `GetPawnUIComponent` returns `nullptr`, and
`GetHeroUIComponent` is the interface default (`nullptr`). -/
def AWarriorBaseCharacter.PawnUI : IPawnUIInterface :=
  { PawnUIComponent := false, HeroUIComponent := false }

/-- Class `AWarriorEnemyCharacter`: `GetPawnUIComponent` returns its enemy UI
component, `GetHeroUIComponent` is the interface default (`nullptr`). -/
def AWarriorEnemyCharacter.PawnUI : IPawnUIInterface :=
  { PawnUIComponent := true, HeroUIComponent := false }

/-- Class `AWarriorHeroCharacter`: both getters return its hero UI component. -/
def AWarriorHeroCharacter.PawnUI : IPawnUIInterface :=
  { PawnUIComponent := true, HeroUIComponent := true }

/-- A delegate broadcast made by the hook, with the fraction it carries. -/
inductive UIBroadcast where
  | OnCurrentHealthChanged (Percent : ℚ)
  | OnCurrentRageChanged (Percent : ℚ)
  deriving DecidableEq

/-- The fatal checks of `PostGameplayEffectExecute` (lines 82 and 86). -/
inductive FatalCheck where
  | DidNotImplementIPawnUIInterface
  | PawnUIComponentIsNullptr
  deriving DecidableEq, Repr

/-- The attribute values of `UWarriorAttributeSet` together with its private
`CachedPawnUIInterface` (`none` is an invalid weak pointer). -/
structure UWarriorAttributeSet where
  CurrentHealth : ℚ
  MaxHealth : ℚ
  CurrentRage : ℚ
  MaxRage : ℚ
  AttackPower : ℚ
  DefensePower : ℚ
  DamageTaken : ℚ
  CachedPawnUIInterface : Option IPawnUIInterface
  deriving DecidableEq

/-- The constructor `UWarriorAttributeSet::UWarriorAttributeSet()`. -/
def UWarriorAttributeSet.ctor : UWarriorAttributeSet :=
  { CurrentHealth := 1, MaxHealth := 1, CurrentRage := 1, MaxRage := 1,
    AttackPower := 1, DefensePower := 1, DamageTaken := 0,
    CachedPawnUIInterface := none }

/-- Everything the hook reads or writes: the attribute set, the tag container
of the target's ability system component and the broadcasts made so far
(oldest first). -/
structure Combatant where
  Attributes : UWarriorAttributeSet
  Tags : TagContainer
  Broadcasts : List UIBroadcast
  deriving DecidableEq

/-- Engine `FMath::Clamp(X, Min, Max)`, which is `Max(Min(X, Max), Min)`. -/
def Clamp (X Min Max : ℚ) : ℚ := max (min X Max) Min

/-- Lines 89-98, the `CurrentHealth` branch. -/
def healthBranch (c : Combatant) : Combatant :=
  let NewCurrentHealth := Clamp c.Attributes.CurrentHealth 0 c.Attributes.MaxHealth
  { c with
    Attributes := { c.Attributes with CurrentHealth := NewCurrentHealth }
    Broadcasts := c.Broadcasts ++
      [UIBroadcast.OnCurrentHealthChanged (NewCurrentHealth / c.Attributes.MaxHealth)] }

/-- Lines 101-131, the `CurrentRage` branch; `ui` is the cached interface. -/
def rageBranch (ui : IPawnUIInterface) (c : Combatant) : Combatant :=
  let NewCurrentRage := Clamp c.Attributes.CurrentRage 0 c.Attributes.MaxRage
  let Tags1 :=
    if NewCurrentRage = c.Attributes.MaxRage then
      AddGameplayTagToActorIfNone c.Tags GameplayTag.Player_Status_Rage_Full
    else if NewCurrentRage = 0 then
      AddGameplayTagToActorIfNone c.Tags GameplayTag.Player_Status_Rage_None
    else
      RemoveGameplayTagFromActorIfFound
        (RemoveGameplayTagFromActorIfFound c.Tags GameplayTag.Player_Status_Rage_Full)
        GameplayTag.Player_Status_Rage_None
  { Attributes := { c.Attributes with CurrentRage := NewCurrentRage }
    Tags := Tags1
    Broadcasts :=
      if ui.HeroUIComponent then
        c.Broadcasts ++
          [UIBroadcast.OnCurrentRageChanged (NewCurrentRage / c.Attributes.MaxRage)]
      else c.Broadcasts }

/-- Lines 134-182, the `DamageTaken` branch. -/
def damageBranch (c : Combatant) : Combatant :=
  let OldHealth := c.Attributes.CurrentHealth
  let DamageDone := c.Attributes.DamageTaken
  let NewCurrenHealth := Clamp (OldHealth - DamageDone) 0 c.Attributes.MaxHealth
  { Attributes := { c.Attributes with CurrentHealth := NewCurrenHealth }
    Tags :=
      if NewCurrenHealth ≤ 0 then
        AddGameplayTagToActorIfNone c.Tags GameplayTag.Shared_Status_Dead
      else c.Tags
    Broadcasts := c.Broadcasts ++
      [UIBroadcast.OnCurrentHealthChanged (NewCurrenHealth / c.Attributes.MaxHealth)] }

/-- Lines 77-80: the cached interface when the weak pointer is valid, else the
result of casting the avatar actor to `IPawnUIInterface` (`none` when the
avatar does not implement it). -/
def resolvePawnUI (Avatar : Option IPawnUIInterface) (a : UWarriorAttributeSet) :
    Option IPawnUIInterface :=
  match a.CachedPawnUIInterface with
  | some ui => some ui
  | none => Avatar

/-- Lines 88-182: the three consecutive `if` statements on the modified
attribute, run once both fatal checks have passed. -/
def attributeBranches (ui : IPawnUIInterface) (Attribute : EAttribute) (c0 : Combatant) :
    Combatant :=
  let c1 := if Attribute = EAttribute.CurrentHealth then healthBranch c0 else c0
  let c2 := if Attribute = EAttribute.CurrentRage then rageBranch ui c1 else c1
  if Attribute = EAttribute.DamageTaken then damageBranch c2 else c2

/-- Function `UWarriorAttributeSet::PostGameplayEffectExecute`.  `Avatar` is
the result of casting `Data.Target.GetAvatarActor()` to `IPawnUIInterface`,
`Attribute` is `Data.EvaluatedData.Attribute`.  The target is taken to be a
`UWarriorAbilitySystemComponent` with a live avatar, as on every character of
the project. -/
def PostGameplayEffectExecute (Avatar : Option IPawnUIInterface) (Attribute : EAttribute)
    (c : Combatant) : Except FatalCheck Combatant :=
  match resolvePawnUI Avatar c.Attributes with
  | none => Except.error FatalCheck.DidNotImplementIPawnUIInterface
  | some ui =>
    if ui.PawnUIComponent = false then Except.error FatalCheck.PawnUIComponentIsNullptr
    else
      Except.ok (attributeBranches ui Attribute
        { c with Attributes := { c.Attributes with CachedPawnUIInterface := some ui } })

/-- The engine writes the evaluated value into the attribute before it calls
the hook. -/
def UWarriorAttributeSet.setValue (a : UWarriorAttributeSet) (Attribute : EAttribute)
    (Value : ℚ) : UWarriorAttributeSet :=
  match Attribute with
  | EAttribute.CurrentHealth => { a with CurrentHealth := Value }
  | EAttribute.MaxHealth => { a with MaxHealth := Value }
  | EAttribute.CurrentRage => { a with CurrentRage := Value }
  | EAttribute.MaxRage => { a with MaxRage := Value }
  | EAttribute.AttackPower => { a with AttackPower := Value }
  | EAttribute.DefensePower => { a with DefensePower := Value }
  | EAttribute.DamageTaken => { a with DamageTaken := Value }

/-- One executed modifier: the raw value is written, then the hook runs. -/
def executeModifier (Avatar : Option IPawnUIInterface) (c : Combatant)
    (m : EAttribute × ℚ) : Except FatalCheck Combatant :=
  PostGameplayEffectExecute Avatar m.1
    { c with Attributes := c.Attributes.setValue m.1 m.2 }

/-- A sequence of executed modifiers, stopping at the first fatal check. -/
def executeModifiers (Avatar : Option IPawnUIInterface) :
    Combatant → List (EAttribute × ℚ) → Except FatalCheck Combatant
  | c, [] => Except.ok c
  | c, m :: ms =>
    match executeModifier Avatar c m with
    | Except.ok c1 => executeModifiers Avatar c1 ms
    | Except.error e => Except.error e

/-- The hook applied `k` times in a row to the `DamageTaken` attribute, the
attribute keeping its value between the calls. -/
def repeatDamageTaken (Avatar : Option IPawnUIInterface) :
    Nat → Combatant → Except FatalCheck Combatant
  | 0, c => Except.ok c
  | k + 1, c =>
    match PostGameplayEffectExecute Avatar EAttribute.DamageTaken c with
    | Except.ok c1 => repeatDamageTaken Avatar k c1
    | Except.error e => Except.error e

/-- The clamping invariant of the vitals. -/
def VitalsInRange (a : UWarriorAttributeSet) : Prop :=
  0 ≤ a.CurrentHealth ∧ a.CurrentHealth ≤ a.MaxHealth ∧
  0 ≤ a.CurrentRage ∧ a.CurrentRage ≤ a.MaxRage

instance (a : UWarriorAttributeSet) : Decidable (VitalsInRange a) := by
  unfold VitalsInRange; infer_instance

/-- The three attributes the hook reacts to. -/
def IsVital (Attribute : EAttribute) : Prop :=
  Attribute = EAttribute.CurrentHealth ∨ Attribute = EAttribute.CurrentRage ∨
  Attribute = EAttribute.DamageTaken

instance (Attribute : EAttribute) : Decidable (IsVital Attribute) := by
  unfold IsVital; infer_instance

/-- A freshly constructed attribute set on a combatant without tags. -/
def Combatant.fresh : Combatant :=
  { Attributes := UWarriorAttributeSet.ctor, Tags := [], Broadcasts := [] }

/-! ## `AWarriorSurvivalGameMode` -/

/-- Engine enum `EWarriorSurvivalGameModeState` as declared in
`WarriorSurvivalGameMode.h`. -/
inductive EWarriorSurvivalGameModeState where
  | WaitSpawnNewWave
  | SpawningNewWave
  | InProgress
  | WaveCompleted
  | AllWavesDone
  | PlayerDied
  deriving DecidableEq, Repr

/-- Struct `FWarriorEnemyWaveSpawnerInfo`: a soft class reference (`none` when
`IsNull()`), and the bounds of the per-spawn count. -/
structure FWarriorEnemyWaveSpawnerInfo where
  SoftEnemyClassToSpawn : Option Nat
  MinPerSpawnCount : Int
  MaxPerSpawnCount : Int
  deriving DecidableEq, Repr

/-- Struct `FWarriorEnemyWaveSpawnerTableRow`. -/
structure FWarriorEnemyWaveSpawnerTableRow where
  EnemyWaveSpawnerDefinitions : List FWarriorEnemyWaveSpawnerInfo
  TotalEnemyToSpawnThisWave : Int
  deriving DecidableEq, Repr

/-- A row name of the data table: either `Wave<n>`, the only names
`GetCurrentWaveSpawnerTableRow` asks for, or any other name. -/
inductive RowName where
  | Wave (n : Int)
  | Other (id : Nat)
  deriving DecidableEq, Repr

/-- The data table `EnemyWaveSpawnerDataTable`: rows in table order. -/
abbrev UDataTable := List (RowName × FWarriorEnemyWaveSpawnerTableRow)

/-- Engine `FindRow`: the row stored under the name, `none` when there is
none. -/
def FindRow (Table : UDataTable) (Name : RowName) : Option FWarriorEnemyWaveSpawnerTableRow :=
  (Table.find? (fun r => decide (r.1 = Name))).map Prod.snd

/-- What the game mode sees of the world around it: the number of
`ATargetPoint` actors in the level, the values the random generator will
return for the coming `RandRange(MinPerSpawnCount, MaxPerSpawnCount)` calls,
the outcomes of the coming `SpawnActor` calls (`true` when an enemy is
returned), the classes of the enemies spawned so far and the soft class
references whose asynchronous load has been requested.  The random target
point and the random reachable location only place the enemy and are not
modelled. -/
structure UWorld where
  LevelTargetPoints : Nat
  RandomDraws : List Nat
  SpawnOutcomes : List Bool
  SpawnedEnemyClasses : List Nat
  RequestedLoads : List Nat
  deriving DecidableEq, Repr

/-- The fatal checks of the survival game mode: `checkf` of `BeginPlay`
(line 29), of `GetCurrentWaveSpawnerTableRow` (line 142), of
`TrySpawnWaveEnemies` (line 154) and the `FindChecked` of line 170. -/
inductive SurvivalFatal where
  | DataTableNotAssigned
  | CouldNotFindRow
  | NoTargetPointsFound
  | EnemyClassNotPreloaded
  deriving DecidableEq, Repr

/-- The member variables of `AWarriorSurvivalGameMode`, the broadcasts made on
`OnSurvivalGameModeStateChanged` (oldest first) and the world.  The
`TargetPointArray` is kept as its length.  The data table is non-null:
`BeginPlay` halts on a null table before any other function runs. -/
structure AWarriorSurvivalGameMode where
  CurrentSurvivalGameModeState : EWarriorSurvivalGameModeState
  EnemyWaveSpawnerDataTable : UDataTable
  TotalWavesToSpawn : Int
  CurrentWaveCount : Int
  CurrentSpawnedEnemiesCounter : Int
  TotalSpawnedEnemiesThisWaveCounter : Int
  TargetPointArray : Nat
  TimePassedSinceStart : ℚ
  SpawnNewWaveWaitTime : ℚ
  SpawnEnemiesDelayTime : ℚ
  WaveCompletedWaitTime : ℚ
  PreLoadedEnemyClassMap : List Nat
  StateChangedBroadcasts : List EWarriorSurvivalGameModeState
  World : UWorld
  deriving DecidableEq

/-- Function `AWarriorSurvivalGameMode::SetCurrentSurvivalGameModeState`. -/
def SetCurrentSurvivalGameModeState (g : AWarriorSurvivalGameMode)
    (InState : EWarriorSurvivalGameModeState) : AWarriorSurvivalGameMode :=
  { g with
    CurrentSurvivalGameModeState := InState
    StateChangedBroadcasts := g.StateChangedBroadcasts ++ [InState] }

/-- Function `AWarriorSurvivalGameMode::HasFinishedAllWaves`. -/
def HasFinishedAllWaves (g : AWarriorSurvivalGameMode) : Bool :=
  decide (g.CurrentWaveCount > g.TotalWavesToSpawn)

/-- Function `AWarriorSurvivalGameMode::GetCurrentWaveSpawnerTableRow`: the
row named `Wave<CurrentWaveCount>`, or the fatal check of line 142. -/
def GetCurrentWaveSpawnerTableRow (g : AWarriorSurvivalGameMode) :
    Except SurvivalFatal FWarriorEnemyWaveSpawnerTableRow :=
  match FindRow g.EnemyWaveSpawnerDataTable (RowName.Wave g.CurrentWaveCount) with
  | some FoundRow => Except.ok FoundRow
  | none => Except.error SurvivalFatal.CouldNotFindRow

/-- Function `AWarriorSurvivalGameMode::ShouldKeepSpawnEnemies`. -/
def ShouldKeepSpawnEnemies (g : AWarriorSurvivalGameMode) : Except SurvivalFatal Bool :=
  match GetCurrentWaveSpawnerTableRow g with
  | Except.ok Row =>
    Except.ok (decide (g.TotalSpawnedEnemiesThisWaveCounter < Row.TotalEnemyToSpawnThisWave))
  | Except.error e => Except.error e

/-- Engine `FMath::RandRange(Min, Max)` on `int32`: `Min + RandHelper(Range)`
with `Range = Max - Min + 1`, where `RandHelper` returns a value in
`[0, Range - 1]` for a positive range and `0` otherwise; `r` is the raw
random value. -/
def RandRange (r : Nat) (Min Max : Int) : Int :=
  if 0 < Max - Min + 1 then Min + (r : Int) % (Max - Min + 1) else Min

/-- The next value of the random generator (`0` once the list is used up). -/
def nextDraw (g : AWarriorSurvivalGameMode) : Nat × AWarriorSurvivalGameMode :=
  match g.World.RandomDraws with
  | [] => (0, g)
  | r :: rest => (r, { g with World := { g.World with RandomDraws := rest } })

/-- The outcome of the next `SpawnActor` call (an enemy is returned once the
list is used up). -/
def nextSpawnOutcome (g : AWarriorSurvivalGameMode) : Bool × AWarriorSurvivalGameMode :=
  match g.World.SpawnOutcomes with
  | [] => (true, g)
  | b :: rest => (b, { g with World := { g.World with SpawnOutcomes := rest } })

/-- Lines 174-192, one spawn attempt: when `SpawnActor` returns an enemy,
`EnemiesSpawnedThisTime` and `TotalSpawnedEnemiesThisWaveCounter` are both
incremented. -/
def spawnAttempt (LoadedEnemyClass : Nat) (g : AWarriorSurvivalGameMode)
    (EnemiesSpawnedThisTime : Nat) : AWarriorSurvivalGameMode × Nat :=
  let outcome := nextSpawnOutcome g
  if outcome.1 then
    ({ outcome.2 with
        TotalSpawnedEnemiesThisWaveCounter :=
          outcome.2.TotalSpawnedEnemiesThisWaveCounter + 1
        World := { outcome.2.World with
          SpawnedEnemyClasses := outcome.2.World.SpawnedEnemyClasses ++ [LoadedEnemyClass] } },
      EnemiesSpawnedThisTime + 1)
  else (outcome.2, EnemiesSpawnedThisTime)

/-- Lines 172-199, the inner loop of `TrySpawnWaveEnemies` with `k`
iterations left: a spawn attempt, then the `ShouldKeepSpawnEnemies` test.  The
result is the flag `true` when the function returned from inside the loop, the
game mode and `EnemiesSpawnedThisTime`. -/
def spawnLoop (LoadedEnemyClass : Nat) :
    Nat → AWarriorSurvivalGameMode → Nat →
      Except SurvivalFatal (Bool × AWarriorSurvivalGameMode × Nat)
  | 0, g, EnemiesSpawnedThisTime => Except.ok (false, g, EnemiesSpawnedThisTime)
  | k + 1, g, EnemiesSpawnedThisTime =>
    match ShouldKeepSpawnEnemies (spawnAttempt LoadedEnemyClass g EnemiesSpawnedThisTime).1 with
    | Except.error e => Except.error e
    | Except.ok false =>
      Except.ok (true, (spawnAttempt LoadedEnemyClass g EnemiesSpawnedThisTime).1,
        (spawnAttempt LoadedEnemyClass g EnemiesSpawnedThisTime).2)
    | Except.ok true =>
      spawnLoop LoadedEnemyClass k (spawnAttempt LoadedEnemyClass g EnemiesSpawnedThisTime).1
        (spawnAttempt LoadedEnemyClass g EnemiesSpawnedThisTime).2

/-- Lines 161-200, the loop over the spawner definitions of the row. -/
def spawnDefinitions :
    List FWarriorEnemyWaveSpawnerInfo → AWarriorSurvivalGameMode → Nat →
      Except SurvivalFatal (Bool × AWarriorSurvivalGameMode × Nat)
  | [], g, EnemiesSpawnedThisTime => Except.ok (false, g, EnemiesSpawnedThisTime)
  | SpawnerInfo :: rest, g, EnemiesSpawnedThisTime =>
    match SpawnerInfo.SoftEnemyClassToSpawn with
    | none => spawnDefinitions rest g EnemiesSpawnedThisTime
    | some SoftClass =>
      let draw := nextDraw g
      let NumToSpawn :=
        RandRange draw.1 SpawnerInfo.MinPerSpawnCount SpawnerInfo.MaxPerSpawnCount
      if SoftClass ∈ draw.2.PreLoadedEnemyClassMap then
        match spawnLoop SoftClass NumToSpawn.toNat draw.2 EnemiesSpawnedThisTime with
        | Except.error e => Except.error e
        | Except.ok (true, g2, n2) => Except.ok (true, g2, n2)
        | Except.ok (false, g2, n2) => spawnDefinitions rest g2 n2
      else Except.error SurvivalFatal.EnemyClassNotPreloaded

/-- Lines 149-152: an empty `TargetPointArray` is filled with the target points
of the level. -/
def fillTargetPointArray (g : AWarriorSurvivalGameMode) : AWarriorSurvivalGameMode :=
  if g.TargetPointArray = 0 then { g with TargetPointArray := g.World.LevelTargetPoints }
  else g

/-- Function `AWarriorSurvivalGameMode::TrySpawnWaveEnemies`: the returned
`EnemiesSpawnedThisTime` and the game mode after the call. -/
def TrySpawnWaveEnemies (g : AWarriorSurvivalGameMode) :
    Except SurvivalFatal (Int × AWarriorSurvivalGameMode) :=
  let g1 := fillTargetPointArray g
  if g1.TargetPointArray = 0 then Except.error SurvivalFatal.NoTargetPointsFound
  else
    match GetCurrentWaveSpawnerTableRow g1 with
    | Except.error e => Except.error e
    | Except.ok Row =>
      match spawnDefinitions Row.EnemyWaveSpawnerDefinitions g1 0 with
      | Except.error e => Except.error e
      | Except.ok (_, g2, EnemiesSpawnedThisTime) =>
        Except.ok ((EnemiesSpawnedThisTime : Int), g2)

/-- Function `AWarriorSurvivalGameMode::PreloadNextWaveEnemies`: the map is
emptied and an asynchronous load is requested for every non-null class of the
row of the current wave. -/
def PreloadNextWaveEnemies (g : AWarriorSurvivalGameMode) :
    Except SurvivalFatal AWarriorSurvivalGameMode :=
  if HasFinishedAllWaves g then Except.ok g
  else
    let g1 := { g with PreLoadedEnemyClassMap := [] }
    match GetCurrentWaveSpawnerTableRow g1 with
    | Except.error e => Except.error e
    | Except.ok Row =>
      Except.ok { g1 with
        World := { g1.World with
          RequestedLoads := g1.World.RequestedLoads ++
            Row.EnemyWaveSpawnerDefinitions.filterMap
              (fun SpawnerInfo => SpawnerInfo.SoftEnemyClassToSpawn) } }

/-- The completion delegate of lines 122-130 for the soft class `SoftClass`:
`Resolved` tells whether `SoftEnemyClassToSpawn.Get()` returns a class. -/
def OnEnemyClassLoaded (g : AWarriorSurvivalGameMode) (SoftClass : Nat) (Resolved : Bool) :
    AWarriorSurvivalGameMode :=
  if Resolved then
    { g with PreLoadedEnemyClassMap :=
        if SoftClass ∈ g.PreLoadedEnemyClassMap then g.PreLoadedEnemyClassMap
        else g.PreLoadedEnemyClassMap ++ [SoftClass] }
  else g

/-- Lines 42-52 of `Tick`, the `WaitSpawnNewWave` block. -/
def tickWaitSpawnNewWave (g : AWarriorSurvivalGameMode) (DeltaTime : ℚ) :
    AWarriorSurvivalGameMode :=
  if g.CurrentSurvivalGameModeState = EWarriorSurvivalGameModeState.WaitSpawnNewWave then
    let g1 := { g with TimePassedSinceStart := g.TimePassedSinceStart + DeltaTime }
    if g1.TimePassedSinceStart ≥ g1.SpawnNewWaveWaitTime then
      SetCurrentSurvivalGameModeState { g1 with TimePassedSinceStart := 0 }
        EWarriorSurvivalGameModeState.SpawningNewWave
    else g1
  else g

/-- Lines 54-66 of `Tick`, the `SpawningNewWave` block. -/
def tickSpawningNewWave (g : AWarriorSurvivalGameMode) (DeltaTime : ℚ) :
    Except SurvivalFatal AWarriorSurvivalGameMode :=
  if g.CurrentSurvivalGameModeState = EWarriorSurvivalGameModeState.SpawningNewWave then
    let g1 := { g with TimePassedSinceStart := g.TimePassedSinceStart + DeltaTime }
    if g1.TimePassedSinceStart ≥ g1.SpawnEnemiesDelayTime then
      match TrySpawnWaveEnemies g1 with
      | Except.error e => Except.error e
      | Except.ok (Spawned, g2) =>
        Except.ok (SetCurrentSurvivalGameModeState
          { g2 with
            CurrentSpawnedEnemiesCounter := g2.CurrentSpawnedEnemiesCounter + Spawned
            TimePassedSinceStart := 0 }
          EWarriorSurvivalGameModeState.InProgress)
    else Except.ok g1
  else Except.ok g

/-- Lines 68-88 of `Tick`, the `WaveCompleted` block. -/
def tickWaveCompleted (g : AWarriorSurvivalGameMode) (DeltaTime : ℚ) :
    Except SurvivalFatal AWarriorSurvivalGameMode :=
  if g.CurrentSurvivalGameModeState = EWarriorSurvivalGameModeState.WaveCompleted then
    let g1 := { g with TimePassedSinceStart := g.TimePassedSinceStart + DeltaTime }
    if g1.TimePassedSinceStart ≥ g1.SpawnNewWaveWaitTime then
      let g2 := { g1 with TimePassedSinceStart := 0, CurrentWaveCount := g1.CurrentWaveCount + 1 }
      if HasFinishedAllWaves g2 then
        Except.ok (SetCurrentSurvivalGameModeState g2 EWarriorSurvivalGameModeState.AllWavesDone)
      else
        PreloadNextWaveEnemies
          (SetCurrentSurvivalGameModeState g2 EWarriorSurvivalGameModeState.WaitSpawnNewWave)
    else Except.ok g1
  else Except.ok g

/-- Function `AWarriorSurvivalGameMode::Tick`: the three `if` blocks, one after
the other. -/
def Tick (g : AWarriorSurvivalGameMode) (DeltaTime : ℚ) :
    Except SurvivalFatal AWarriorSurvivalGameMode :=
  match tickSpawningNewWave (tickWaitSpawnNewWave g DeltaTime) DeltaTime with
  | Except.error e => Except.error e
  | Except.ok g2 => tickWaveCompleted g2 DeltaTime

/-- Function `AWarriorSurvivalGameMode::OnEnemyDestroyed`. -/
def OnEnemyDestroyed (g : AWarriorSurvivalGameMode) :
    Except SurvivalFatal AWarriorSurvivalGameMode :=
  let g1 := { g with CurrentSpawnedEnemiesCounter := g.CurrentSpawnedEnemiesCounter - 1 }
  match ShouldKeepSpawnEnemies g1 with
  | Except.error e => Except.error e
  | Except.ok true =>
    match TrySpawnWaveEnemies g1 with
    | Except.error e => Except.error e
    | Except.ok (Spawned, g2) =>
      Except.ok { g2 with
        CurrentSpawnedEnemiesCounter := g2.CurrentSpawnedEnemiesCounter + Spawned }
  | Except.ok false =>
    if g1.CurrentSpawnedEnemiesCounter ≤ 0 then
      Except.ok (SetCurrentSurvivalGameModeState
        { g1 with TotalSpawnedEnemiesThisWaveCounter := 0, CurrentSpawnedEnemiesCounter := 0 }
        EWarriorSurvivalGameModeState.WaveCompleted)
    else Except.ok g1

/-- Function `AWarriorSurvivalGameMode::RegisterSpawnedEnemy`: one increment
per non-null enemy of the array (`none` is a null pointer). -/
def RegisterSpawnedEnemy (g : AWarriorSurvivalGameMode) (InEnemyToRegister : List (Option Nat)) :
    AWarriorSurvivalGameMode :=
  InEnemyToRegister.foldl
    (fun acc SpawnedEnemy =>
      match SpawnedEnemy with
      | some _ =>
        { acc with CurrentSpawnedEnemiesCounter := acc.CurrentSpawnedEnemiesCounter + 1 }
      | none => acc)
    g

/-- The class defaults of `AWarriorSurvivalGameMode` (the in-class
initialisers of the header, zero for the other members) with the data table,
the two editable wait times and the world filled in. -/
def AWarriorSurvivalGameMode.defaults (Table : UDataTable) (World : UWorld) :
    AWarriorSurvivalGameMode :=
  { CurrentSurvivalGameModeState := EWarriorSurvivalGameModeState.WaitSpawnNewWave
    EnemyWaveSpawnerDataTable := Table
    TotalWavesToSpawn := 0
    CurrentWaveCount := 1
    CurrentSpawnedEnemiesCounter := 0
    TotalSpawnedEnemiesThisWaveCounter := 0
    TargetPointArray := 0
    TimePassedSinceStart := 0
    SpawnNewWaveWaitTime := 5
    SpawnEnemiesDelayTime := 2.4
    WaveCompletedWaitTime := 5
    PreLoadedEnemyClassMap := []
    StateChangedBroadcasts := []
    World := World }

/-- Function `AWarriorSurvivalGameMode::BeginPlay`, on the class defaults:
`Table` is the data table assigned in the blueprint (`none` when it was
forgotten). -/
def BeginPlay (Table : Option UDataTable) (World : UWorld) :
    Except SurvivalFatal AWarriorSurvivalGameMode :=
  match Table with
  | none => Except.error SurvivalFatal.DataTableNotAssigned
  | some t =>
    let g := SetCurrentSurvivalGameModeState (AWarriorSurvivalGameMode.defaults t World)
      EWarriorSurvivalGameModeState.WaitSpawnNewWave
    PreloadNextWaveEnemies { g with TotalWavesToSpawn := (t.length : Int) }

/-- The calls the game mode receives after `BeginPlay`. -/
inductive GameModeCall where
  | Tick (DeltaTime : ℚ)
  | OnEnemyDestroyed
  | RegisterSpawnedEnemy (InEnemyToRegister : List (Option Nat))
  | OnEnemyClassLoaded (SoftClass : Nat) (Resolved : Bool)

/-- One call on the game mode. -/
def callGameMode (g : AWarriorSurvivalGameMode) : GameModeCall →
    Except SurvivalFatal AWarriorSurvivalGameMode
  | GameModeCall.Tick DeltaTime => Tick g DeltaTime
  | GameModeCall.OnEnemyDestroyed => OnEnemyDestroyed g
  | GameModeCall.RegisterSpawnedEnemy l => Except.ok (RegisterSpawnedEnemy g l)
  | GameModeCall.OnEnemyClassLoaded c r => Except.ok (OnEnemyClassLoaded g c r)

/-- A sequence of calls, stopping at the first fatal check. -/
def callsGameMode : AWarriorSurvivalGameMode → List GameModeCall →
    Except SurvivalFatal AWarriorSurvivalGameMode
  | g, [] => Except.ok g
  | g, c :: cs =>
    match callGameMode g c with
    | Except.ok g1 => callsGameMode g1 cs
    | Except.error e => Except.error e

/-- The state changes listed by the wave scheduler table: each state to its
successor, `WaveCompleted` to either `WaitSpawnNewWave` or `AllWavesDone`. -/
def SequentialChange (a b : EWarriorSurvivalGameModeState) : Prop :=
  (a = EWarriorSurvivalGameModeState.WaitSpawnNewWave ∧
    b = EWarriorSurvivalGameModeState.SpawningNewWave) ∨
  (a = EWarriorSurvivalGameModeState.SpawningNewWave ∧
    b = EWarriorSurvivalGameModeState.InProgress) ∨
  (a = EWarriorSurvivalGameModeState.InProgress ∧
    b = EWarriorSurvivalGameModeState.WaveCompleted) ∨
  (a = EWarriorSurvivalGameModeState.WaveCompleted ∧
    b = EWarriorSurvivalGameModeState.WaitSpawnNewWave) ∨
  (a = EWarriorSurvivalGameModeState.WaveCompleted ∧
    b = EWarriorSurvivalGameModeState.AllWavesDone)

instance (a b : EWarriorSurvivalGameModeState) : Decidable (SequentialChange a b) := by
  unfold SequentialChange; infer_instance

/-- Everything `TrySpawnWaveEnemies` leaves alone: between `g` and `g1` only
`TotalSpawnedEnemiesThisWaveCounter`, `TargetPointArray`, the unread random
values and spawn outcomes and the list of spawned enemies may differ. -/
structure SameExceptSpawning (g g1 : AWarriorSurvivalGameMode) : Prop where
  state : g1.CurrentSurvivalGameModeState = g.CurrentSurvivalGameModeState
  table : g1.EnemyWaveSpawnerDataTable = g.EnemyWaveSpawnerDataTable
  totalWaves : g1.TotalWavesToSpawn = g.TotalWavesToSpawn
  waveCount : g1.CurrentWaveCount = g.CurrentWaveCount
  current : g1.CurrentSpawnedEnemiesCounter = g.CurrentSpawnedEnemiesCounter
  time : g1.TimePassedSinceStart = g.TimePassedSinceStart
  spawnWait : g1.SpawnNewWaveWaitTime = g.SpawnNewWaveWaitTime
  spawnDelay : g1.SpawnEnemiesDelayTime = g.SpawnEnemiesDelayTime
  completedWait : g1.WaveCompletedWaitTime = g.WaveCompletedWaitTime
  preloaded : g1.PreLoadedEnemyClassMap = g.PreLoadedEnemyClassMap
  broadcasts : g1.StateChangedBroadcasts = g.StateChangedBroadcasts
  levelPoints : g1.World.LevelTargetPoints = g.World.LevelTargetPoints
  requested : g1.World.RequestedLoads = g.World.RequestedLoads

/-- The state changes made between `g` and `g1`: `new` lists the states
broadcast in between, each reached from the one before it by a listed change,
the first one from the state of `g`, and the last one being the state of
`g1`. -/
def StateTrace (g g1 : AWarriorSurvivalGameMode)
    (new : List EWarriorSurvivalGameModeState) : Prop :=
  g1.StateChangedBroadcasts = g.StateChangedBroadcasts ++ new ∧
  List.Chain SequentialChange g.CurrentSurvivalGameModeState new ∧
  g1.CurrentSurvivalGameModeState = new.getLastD g.CurrentSurvivalGameModeState

/-- The gate of the wave completion, on the counters as they are when
`OnEnemyDestroyed` is entered: the quota of the row of the current wave is
met, and the live count is at most `0` once decremented. -/
def WaveCompletionGate (g : AWarriorSurvivalGameMode) : Prop :=
  ∃ Row, GetCurrentWaveSpawnerTableRow g = Except.ok Row ∧
    g.TotalSpawnedEnemiesThisWaveCounter ≥ Row.TotalEnemyToSpawnThisWave ∧
    g.CurrentSpawnedEnemiesCounter - 1 ≤ 0

/-- Along the run of `calls` from `g`, every `OnEnemyDestroyed` call is made
while the state is `InProgress`. -/
def DestroyedOnlyInProgress : AWarriorSurvivalGameMode → List GameModeCall → Prop
  | _, [] => True
  | g, c :: cs =>
    (match c with
      | GameModeCall.OnEnemyDestroyed =>
        g.CurrentSurvivalGameModeState = EWarriorSurvivalGameModeState.InProgress
      | _ => True) ∧
    (match callGameMode g c with
      | Except.ok g1 => DestroyedOnlyInProgress g1 cs
      | Except.error _ => True)

/-- A one-wave data table used in the worked examples: row `Wave1` has one
spawner entry (class 7, min 1, max 3, the defaults of the header) and the
given quota. -/
def sampleTable (Quota : Int) : UDataTable :=
  [(RowName.Wave 1,
    { EnemyWaveSpawnerDefinitions :=
        [{ SoftEnemyClassToSpawn := some 7, MinPerSpawnCount := 1, MaxPerSpawnCount := 3 }],
      TotalEnemyToSpawnThisWave := Quota })]

/-- The game mode of the worked examples: the class defaults on `sampleTable`,
one target point in the level, class 7 preloaded, and the given coming random
values and spawn outcomes. -/
def sampleGameMode (Quota : Int) (Draws : List Nat) (Outcomes : List Bool) :
    AWarriorSurvivalGameMode :=
  { AWarriorSurvivalGameMode.defaults (sampleTable Quota)
      { LevelTargetPoints := 1, RandomDraws := Draws, SpawnOutcomes := Outcomes,
        SpawnedEnemyClasses := [], RequestedLoads := [] } with
    TotalWavesToSpawn := 1
    PreLoadedEnemyClassMap := [7] }

/-! ## Effect application entry points -/

/-- The magnitude stored under a tag in the set-by-caller map, if any. -/
def findSetByCaller (SetByCallerTagMagnitudes : List (GameplayTag × ℚ)) (Tag : GameplayTag) :
    Option ℚ :=
  (SetByCallerTagMagnitudes.find? (fun p => decide (p.1 = Tag))).map Prod.snd

/-- The set-by-caller magnitude of a tag, `0` when the tag is not in the map
(the locals of the execution start at `0`). -/
def SetByCallerMagnitude (SetByCallerTagMagnitudes : List (GameplayTag × ℚ))
    (Tag : GameplayTag) : ℚ :=
  (findSetByCaller SetByCallerTagMagnitudes Tag).getD 0

/-! ## Hit-react direction and cooldown query -/

/-- The four gameplay tags `Shared.Status.HitReact.Front`, `.Left`, `.Right`
and `.Back` returned by `ComputeHitReactDirection`. -/
inductive HitReactTag where
  | Shared_Status_HitReact_Front
  | Shared_Status_HitReact_Left
  | Shared_Status_HitReact_Right
  | Shared_Status_HitReact_Back
  deriving DecidableEq, Repr

/-- The five `return` statements of `ComputeHitReactDirection`, in source
order; the last one is the fallback after the `if / else if` chain. -/
inductive HitReactReturn where
  | Front
  | Left
  | Back
  | Right
  | Fallback
  deriving DecidableEq, Repr

/-- The tag returned by each `return` statement (the fallback returns
`Shared_Status_HitReact_Front`). -/
def HitReactReturn.tag : HitReactReturn → HitReactTag
  | HitReactReturn.Front => HitReactTag.Shared_Status_HitReact_Front
  | HitReactReturn.Left => HitReactTag.Shared_Status_HitReact_Left
  | HitReactReturn.Back => HitReactTag.Shared_Status_HitReact_Back
  | HitReactReturn.Right => HitReactTag.Shared_Status_HitReact_Right
  | HitReactReturn.Fallback => HitReactTag.Shared_Status_HitReact_Front

/-- The `if / else if` chain of `ComputeHitReactDirection` on the signed angle
`OutAngleDifference`, with the conditions as written in the source. -/
def hitReactReturn (OutAngleDifference : ℚ) : HitReactReturn :=
  if OutAngleDifference ≥ -45 ∧ OutAngleDifference ≤ 45 then HitReactReturn.Front
  else if OutAngleDifference < 45 ∧ OutAngleDifference ≥ -135 then HitReactReturn.Left
  else if OutAngleDifference < -135 ∨ OutAngleDifference > 135 then HitReactReturn.Back
  else if OutAngleDifference > 45 ∧ OutAngleDifference ≤ 135 then HitReactReturn.Right
  else HitReactReturn.Fallback

/-- The sign step of `ComputeHitReactDirection`: the angle of `DegAcos` is
negated when the `Z` component of the cross product is negative. -/
def signedAngle (AngleDifference CrossResultZ : ℚ) : ℚ :=
  if CrossResultZ < 0 then AngleDifference * -1 else AngleDifference

/-- Function `UWarriorFunctionLibrary::ComputeHitReactDirection`, from the
angle returned by `DegAcos` and the `Z` component of the cross product on (the
vector arithmetic that produces the two is not modelled): the returned tag and
the out-parameter `OutAngleDifference`.  `ActorsValid` is the condition of the
leading `check(InAttacker && InVictim)`. -/
def ComputeHitReactDirection (ActorsValid : Bool) (AngleDifference CrossResultZ : ℚ) :
    Option (HitReactTag × ℚ) :=
  if ActorsValid then
    some ((hitReactReturn (signedAngle AngleDifference CrossResultZ)).tag,
      signedAngle AngleDifference CrossResultZ)
  else none

/-- Function `UWarriorHeroGameplayAbility::GetAbilityRemainingCooldownByTag`.
`TagValid` is the condition of the leading `check(InCooldownTag.IsValid())`,
`TimeRemainingAndDuration` is what the ability system component returns for
the cooldown query, `TotalCooldown` and `RemainingCooldown` are the values the
caller passes in through the two reference parameters.  The result is the
returned boolean and the two parameters after the call, `none` when the check
fails. -/
def GetAbilityRemainingCooldownByTag (TagValid : Bool)
    (TimeRemainingAndDuration : List (ℚ × ℚ)) (TotalCooldown RemainingCooldown : ℚ) :
    Option (Bool × ℚ × ℚ) :=
  if TagValid then
    match TimeRemainingAndDuration with
    | [] => some (decide (RemainingCooldown > 0), TotalCooldown, RemainingCooldown)
    | First :: _ => some (decide (First.1 > 0), First.2, First.1)
  else none

/-! ## Helpers for the statements on the survival game mode -/

/-- A sequence of `Tick` calls with the given delta times. -/
def ticksGameMode (g : AWarriorSurvivalGameMode) (DeltaTimes : List ℚ) :
    Except SurvivalFatal AWarriorSurvivalGameMode :=
  callsGameMode g (DeltaTimes.map GameModeCall.Tick)

/-- The completion delegates of a list of loads, in completion order: each
entry is a soft class with the flag telling whether it resolved. -/
def completeLoads (g : AWarriorSurvivalGameMode) (Completed : List (Nat × Bool)) :
    AWarriorSurvivalGameMode :=
  Completed.foldl (fun acc p => OnEnemyClassLoaded acc p.1 p.2) g

/-- The non-null soft classes of a row, in row order. -/
def rowClasses (Row : FWarriorEnemyWaveSpawnerTableRow) : List Nat :=
  Row.EnemyWaveSpawnerDefinitions.filterMap (fun SpawnerInfo => SpawnerInfo.SoftEnemyClassToSpawn)

/-- The number of non-null enemies passed to `RegisterSpawnedEnemy` in a
sequence of calls. -/
def registeredEnemies : List GameModeCall → Int
  | [] => 0
  | GameModeCall.RegisterSpawnedEnemy l :: cs =>
    ((l.filter Option.isSome).length : Int) + registeredEnemies cs
  | _ :: cs => registeredEnemies cs

/-- The number of `OnEnemyDestroyed` calls in a sequence of calls. -/
def destroyedEnemies : List GameModeCall → Int
  | [] => 0
  | GameModeCall.OnEnemyDestroyed :: cs => 1 + destroyedEnemies cs
  | _ :: cs => destroyedEnemies cs

/-- The number of enemies spawned between `g` and `g1`: the growth of the list
of spawned enemies of the world. -/
def spawnedBetween (g g1 : AWarriorSurvivalGameMode) : Int :=
  (g1.World.SpawnedEnemyClasses.length : Int) - (g.World.SpawnedEnemyClasses.length : Int)

/-- The number of wave completions (counter resets) recorded so far. -/
def completionsSoFar (g : AWarriorSurvivalGameMode) : Nat :=
  g.StateChangedBroadcasts.count EWarriorSurvivalGameModeState.WaveCompleted

/-! ## Theorems: damage execution -/

/-- Unfolding of `FinalDamageDone` into the scan of the set-by-caller map
followed by the scaling and the division. -/
theorem FinalDamageDone_eq (a d : ℚ) (mags : List (GameplayTag × ℚ)) :
    FinalDamageDone a d mags =
      scaleAndDivide a d (scanSetByCaller mags).BaseDamage
        (scanSetByCaller mags).UsedLightAttackComboCount
        (scanSetByCaller mags).UsedHeavyAttackComboCount := rfl

/-- Claim C1: for attack power `a`, defense power `d ≠ 0` and a set-by-caller
map whose scan yields base damage `b`, the final damage is
`b * ((n - 1) * 0.05 + 1) * a / d` when only the Light combo count `n` is
non-zero, `b * ((n - 1) * 0.15 + 1) * a / d` when only the Heavy combo count
`n` is non-zero, and `b * a / d` when both counts are `0` or unset; the two
worked examples give 44 and 46. -/
theorem C1_combo_damage_formula (a d b : ℚ) (n : Int) (mags : List (GameplayTag × ℚ))
    (hd : d ≠ 0) (hb : (scanSetByCaller mags).BaseDamage = b) :
    ((scanSetByCaller mags).UsedLightAttackComboCount = n → n ≠ 0 →
        (scanSetByCaller mags).UsedHeavyAttackComboCount = 0 →
        FinalDamageDone a d mags = b * (((n : ℚ) - 1) * 0.05 + 1) * a / d) ∧
    ((scanSetByCaller mags).UsedHeavyAttackComboCount = n → n ≠ 0 →
        (scanSetByCaller mags).UsedLightAttackComboCount = 0 →
        FinalDamageDone a d mags = b * (((n : ℚ) - 1) * 0.15 + 1) * a / d) ∧
    ((scanSetByCaller mags).UsedLightAttackComboCount = 0 →
        (scanSetByCaller mags).UsedHeavyAttackComboCount = 0 →
        FinalDamageDone a d mags = b * a / d) ∧
    FinalDamageDone 10 5
        [(GameplayTag.Shared_SetByCaller_BaseDamage, 20),
         (GameplayTag.Player_SetByCaller_AttackType_Light, 3)] = 44 ∧
    FinalDamageDone 10 5
        [(GameplayTag.Shared_SetByCaller_BaseDamage, 20),
         (GameplayTag.Player_SetByCaller_AttackType_Heavy, 2)] = 46 := by
  have _ := hd
  refine ⟨?_, ?_, ?_, ?_, ?_⟩
  · intro hl hn hh
    rw [FinalDamageDone_eq, hb, hl, hh]
    simp [scaleAndDivide, hn]
  · intro hh hn hl
    rw [FinalDamageDone_eq, hb, hl, hh]
    simp [scaleAndDivide, hn]
  · intro hl hh
    rw [FinalDamageDone_eq, hb, hl, hh]
    simp [scaleAndDivide]
  · simp [FinalDamageDone, scanSetByCaller, readSetByCaller, SetByCallerLocals.init,
      scaleAndDivide, truncToInt32]
    norm_num
  · simp [FinalDamageDone, scanSetByCaller, readSetByCaller, SetByCallerLocals.init,
      scaleAndDivide, truncToInt32]
    norm_num

/-- Witness of C1 at the first worked example (`a = 10`, `d = 5`, `b = 20`,
Light, `n = 3`). -/
theorem C1_combo_damage_formula_witness :
    (5 : ℚ) ≠ 0 ∧
    FinalDamageDone 10 5
        [(GameplayTag.Shared_SetByCaller_BaseDamage, 20),
         (GameplayTag.Player_SetByCaller_AttackType_Light, 3)]
      = 20 * ((((3 : Int) : ℚ) - 1) * 0.05 + 1) * 10 / 5 :=
  ⟨by norm_num,
   (C1_combo_damage_formula 10 5 20 3
      [(GameplayTag.Shared_SetByCaller_BaseDamage, 20),
       (GameplayTag.Player_SetByCaller_AttackType_Light, 3)]
      (by norm_num)
      (by simp [scanSetByCaller, readSetByCaller, SetByCallerLocals.init])).1
      (by simp [scanSetByCaller, readSetByCaller, SetByCallerLocals.init, truncToInt32])
      (by decide)
      (by simp [scanSetByCaller, readSetByCaller, SetByCallerLocals.init])⟩

/-- Claim C2 fails on the code: with base damage 20, Light count 3 and Heavy
count 2 in one request (`a = 10`, `d = 5`) both multipliers are applied, the
result is `253 / 5` and not the Light-only value, and changing the Heavy count
changes the result. -/
theorem C2_both_counts_counterexample :
    (scanSetByCaller
        [(GameplayTag.Shared_SetByCaller_BaseDamage, 20),
         (GameplayTag.Player_SetByCaller_AttackType_Light, 3),
         (GameplayTag.Player_SetByCaller_AttackType_Heavy, 2)]
      = { BaseDamage := 20, UsedLightAttackComboCount := 3, UsedHeavyAttackComboCount := 2 }) ∧
    FinalDamageDone 10 5
        [(GameplayTag.Shared_SetByCaller_BaseDamage, 20),
         (GameplayTag.Player_SetByCaller_AttackType_Light, 3),
         (GameplayTag.Player_SetByCaller_AttackType_Heavy, 2)]
      ≠ 20 * (((3 : ℚ) - 1) * 0.05 + 1) * 10 / 5 ∧
    FinalDamageDone 10 5
        [(GameplayTag.Shared_SetByCaller_BaseDamage, 20),
         (GameplayTag.Player_SetByCaller_AttackType_Light, 3),
         (GameplayTag.Player_SetByCaller_AttackType_Heavy, 2)]
      ≠ FinalDamageDone 10 5
        [(GameplayTag.Shared_SetByCaller_BaseDamage, 20),
         (GameplayTag.Player_SetByCaller_AttackType_Light, 3),
         (GameplayTag.Player_SetByCaller_AttackType_Heavy, 4)] := by
  refine ⟨?_, ?_, ?_⟩
  · simp [scanSetByCaller, readSetByCaller, SetByCallerLocals.init, truncToInt32]
  · simp [FinalDamageDone, scanSetByCaller, readSetByCaller, SetByCallerLocals.init,
      scaleAndDivide, truncToInt32]
    norm_num
  · simp [FinalDamageDone, scanSetByCaller, readSetByCaller, SetByCallerLocals.init,
      scaleAndDivide, truncToInt32]
    norm_num

/-- Claim C2 as amended: when both the Light count `nLight` and the Heavy
count `nHeavy` are non-zero in one request, both multipliers are applied, Light
first: the final damage is
`b * ((nLight - 1) * 0.05 + 1) * ((nHeavy - 1) * 0.15 + 1) * a / d`. -/
theorem C2_both_multipliers_applied (a d b : ℚ) (nLight nHeavy : Int)
    (mags : List (GameplayTag × ℚ)) (hd : d ≠ 0)
    (hb : (scanSetByCaller mags).BaseDamage = b)
    (hl : (scanSetByCaller mags).UsedLightAttackComboCount = nLight)
    (hh : (scanSetByCaller mags).UsedHeavyAttackComboCount = nHeavy)
    (hnl : nLight ≠ 0) (hnh : nHeavy ≠ 0) :
    FinalDamageDone a d mags
      = b * (((nLight : ℚ) - 1) * 0.05 + 1) * (((nHeavy : ℚ) - 1) * 0.15 + 1) * a / d := by
  have _ := hd
  rw [FinalDamageDone_eq, hb, hl, hh]
  simp [scaleAndDivide, hnl, hnh]

/-- Witness of the amended C2 at `a = 10`, `d = 5`, `b = 20`, Light 3,
Heavy 2. -/
theorem C2_both_multipliers_applied_witness :
    FinalDamageDone 10 5
        [(GameplayTag.Shared_SetByCaller_BaseDamage, 20),
         (GameplayTag.Player_SetByCaller_AttackType_Light, 3),
         (GameplayTag.Player_SetByCaller_AttackType_Heavy, 2)]
      = 20 * ((((3 : Int) : ℚ) - 1) * 0.05 + 1) * ((((2 : Int) : ℚ) - 1) * 0.15 + 1) * 10 / 5 :=
  C2_both_multipliers_applied 10 5 20 3 2
    [(GameplayTag.Shared_SetByCaller_BaseDamage, 20),
     (GameplayTag.Player_SetByCaller_AttackType_Light, 3),
     (GameplayTag.Player_SetByCaller_AttackType_Heavy, 2)]
    (by norm_num)
    (by simp [scanSetByCaller, readSetByCaller, SetByCallerLocals.init])
    (by simp [scanSetByCaller, readSetByCaller, SetByCallerLocals.init, truncToInt32])
    (by simp [scanSetByCaller, readSetByCaller, SetByCallerLocals.init, truncToInt32])
    (by decide) (by decide)

/-- Claim C3: the execution appends at most one modifier to the output; it
appends exactly the `Override` of `DamageTaken` with magnitude `FinalDamageDone`
if and only if `FinalDamageDone > 0`, leaves the output as it was if and only
if `FinalDamageDone ≤ 0`, and every modifier it emits has a strictly positive
magnitude. -/
theorem C3_modifier_iff_positive (a d : ℚ) (mags : List (GameplayTag × ℚ))
    (out : List FGameplayModifierEvaluatedData) :
    (Execute_Implementation a d mags out).length ≤ out.length + 1 ∧
    (0 < FinalDamageDone a d mags ↔
      Execute_Implementation a d mags out =
        out ++ [{ Attribute := EAttribute.DamageTaken, ModifierOp := EGameplayModOp.Override,
                  Magnitude := FinalDamageDone a d mags }]) ∧
    (FinalDamageDone a d mags ≤ 0 ↔ Execute_Implementation a d mags out = out) ∧
    (FinalDamageDone a d mags ≤ 0 ↔ Execute_Implementation a d mags [] = []) ∧
    (∀ m ∈ Execute_Implementation a d mags [],
      0 < m.Magnitude ∧ m.Attribute = EAttribute.DamageTaken ∧
      m.ModifierOp = EGameplayModOp.Override) := by
  unfold Execute_Implementation
  by_cases h : 0 < FinalDamageDone a d mags
  · have h' : ¬ FinalDamageDone a d mags ≤ 0 := not_le.mpr h
    simp [h, h']
  · have h' : FinalDamageDone a d mags ≤ 0 := not_lt.mp h
    simp [h, h']

/-- Witness of C3 at the first worked example: the output is the single
`Override` of `DamageTaken` by 44, and its magnitude is positive. -/
theorem C3_modifier_iff_positive_witness :
    Execute_Implementation 10 5
        [(GameplayTag.Shared_SetByCaller_BaseDamage, 20),
         (GameplayTag.Player_SetByCaller_AttackType_Light, 3)] []
      = [{ Attribute := EAttribute.DamageTaken, ModifierOp := EGameplayModOp.Override,
           Magnitude := 44 }] ∧
    (0 : ℚ) < (FGameplayModifierEvaluatedData.mk EAttribute.DamageTaken
      EGameplayModOp.Override 44).Magnitude := by
  have hrun : Execute_Implementation 10 5
        [(GameplayTag.Shared_SetByCaller_BaseDamage, 20),
         (GameplayTag.Player_SetByCaller_AttackType_Light, 3)] []
      = [{ Attribute := EAttribute.DamageTaken, ModifierOp := EGameplayModOp.Override,
           Magnitude := 44 }] := by
    simp [Execute_Implementation, FinalDamageDone, scanSetByCaller, readSetByCaller,
      SetByCallerLocals.init, scaleAndDivide, truncToInt32]
    norm_num
  exact ⟨hrun,
    ((C3_modifier_iff_positive 10 5
      [(GameplayTag.Shared_SetByCaller_BaseDamage, 20),
       (GameplayTag.Player_SetByCaller_AttackType_Light, 3)] []).2.2.2.2
      (FGameplayModifierEvaluatedData.mk EAttribute.DamageTaken EGameplayModOp.Override 44)
      (by rw [hrun]; exact List.mem_singleton.mpr rfl)).1⟩

/-- The combo multiplier applied by one of the two `if` statements: `1` for a
count of `0` (the branch is skipped), `(n - 1) * step + 1` otherwise. -/
theorem scaleAndDivide_light (a d b : ℚ) (n : Int) :
    scaleAndDivide a d b n 0
      = (if n = 0 then 1 else ((n : ℚ) - 1) * 0.05 + 1) * (b * a / d) := by
  by_cases h : n = 0
  · simp [scaleAndDivide, h]
  · simp only [scaleAndDivide, ne_eq, h, not_false_eq_true, if_true, not_true_eq_false,
      if_false]
    push_cast
    ring

/-- The Heavy counterpart of `scaleAndDivide_light`. -/
theorem scaleAndDivide_heavy (a d b : ℚ) (n : Int) :
    scaleAndDivide a d b 0 n
      = (if n = 0 then 1 else ((n : ℚ) - 1) * 0.15 + 1) * (b * a / d) := by
  by_cases h : n = 0
  · simp [scaleAndDivide, h]
  · simp only [scaleAndDivide, ne_eq, h, not_false_eq_true, if_true, not_true_eq_false,
      if_false]
    push_cast
    ring

/-- The multiplier `if n = 0 then 1 else (n - 1) * step + 1` is monotone on
`0 ≤ m < n` for a positive step, strictly so as soon as `2 ≤ n`. -/
theorem comboMultiplier_mono (step : ℚ) (hs : 0 < step) (m n : Int) (hm : 0 ≤ m)
    (hmn : m < n) :
    (2 ≤ n → (if m = 0 then (1 : ℚ) else ((m : ℚ) - 1) * step + 1)
        < (if n = 0 then (1 : ℚ) else ((n : ℚ) - 1) * step + 1)) ∧
    (n = 1 → (if m = 0 then (1 : ℚ) else ((m : ℚ) - 1) * step + 1)
        = (if n = 0 then (1 : ℚ) else ((n : ℚ) - 1) * step + 1)) := by
  have hn0 : n ≠ 0 := by omega
  constructor
  · intro h2
    have h2q : (2 : ℚ) ≤ (n : ℚ) := by exact_mod_cast h2
    by_cases h : m = 0
    · simp only [h, hn0, if_true, if_false]
      nlinarith
    · simp only [h, hn0, if_false]
      have hq : (m : ℚ) < (n : ℚ) := by exact_mod_cast hmn
      nlinarith
  · intro h1
    have hm0 : m = 0 := by omega
    simp [hm0, h1]

/-- Claim C4 fails on the code: with `a = d = b = 1` the combo counts `0` and
`1` give the same final damage, for Light and for Heavy, so the damage for
count `1` is not strictly greater than the damage for count `0`. -/
theorem C4_strict_monotone_counterexample :
    ¬ (FinalDamageDone 1 1
          [(GameplayTag.Shared_SetByCaller_BaseDamage, 1),
           (GameplayTag.Player_SetByCaller_AttackType_Light, 0)]
        < FinalDamageDone 1 1
          [(GameplayTag.Shared_SetByCaller_BaseDamage, 1),
           (GameplayTag.Player_SetByCaller_AttackType_Light, 1)]) ∧
    ¬ (FinalDamageDone 1 1
          [(GameplayTag.Shared_SetByCaller_BaseDamage, 1),
           (GameplayTag.Player_SetByCaller_AttackType_Heavy, 0)]
        < FinalDamageDone 1 1
          [(GameplayTag.Shared_SetByCaller_BaseDamage, 1),
           (GameplayTag.Player_SetByCaller_AttackType_Heavy, 1)]) ∧
    ¬ (scaleAndDivide 1 1 1 0 0 < scaleAndDivide 1 1 1 1 0) ∧
    ¬ (scaleAndDivide 1 1 1 0 0 < scaleAndDivide 1 1 1 0 1) := by
  refine ⟨?_, ?_, ?_, ?_⟩ <;>
    simp [FinalDamageDone, scanSetByCaller, readSetByCaller, SetByCallerLocals.init,
      scaleAndDivide, truncToInt32]

/-- Claim C4 as amended: for a fixed attack type, base damage, attack power
and defense power all positive, and combo counts `0 ≤ m < n`, the final damage
for `n` is strictly greater than the one for `m` whenever `n ≥ 2`; the
remaining pair `m = 0`, `n = 1` gives equal damage (count `0` skips the
scaling and count `1` scales by `1`). -/
theorem C4_combo_monotone (a d b : ℚ) (m n : Int) (ha : 0 < a) (hd : 0 < d) (hb : 0 < b)
    (hm : 0 ≤ m) (hmn : m < n) :
    (2 ≤ n → scaleAndDivide a d b m 0 < scaleAndDivide a d b n 0 ∧
             scaleAndDivide a d b 0 m < scaleAndDivide a d b 0 n) ∧
    (n = 1 → scaleAndDivide a d b m 0 = scaleAndDivide a d b n 0 ∧
             scaleAndDivide a d b 0 m = scaleAndDivide a d b 0 n) := by
  have hk : 0 < b * a / d := div_pos (mul_pos hb ha) hd
  have hL := comboMultiplier_mono 0.05 (by norm_num) m n hm hmn
  have hH := comboMultiplier_mono 0.15 (by norm_num) m n hm hmn
  simp only [scaleAndDivide_light, scaleAndDivide_heavy]
  constructor
  · intro h2
    exact ⟨mul_lt_mul_of_pos_right (hL.1 h2) hk, mul_lt_mul_of_pos_right (hH.1 h2) hk⟩
  · intro h1
    exact ⟨by rw [hL.2 h1], by rw [hH.2 h1]⟩

/-- Witness of the amended C4 at `a = 10`, `d = 5`, `b = 20`, `m = 1`,
`n = 3`, Light: the damage grows from 40 to 44. -/
theorem C4_combo_monotone_witness :
    scaleAndDivide 10 5 20 1 0 < scaleAndDivide 10 5 20 3 0 :=
  ((C4_combo_monotone 10 5 20 1 3 (by norm_num) (by norm_num) (by norm_num)
      (by decide) (by decide)).1 (by decide)).1


/-! ## Theorems: attribute hook -/

/-- The clamp to `[0, Max]` is never negative. -/
theorem Clamp_nonneg (X Max : ℚ) : 0 ≤ Clamp X 0 Max := le_max_right _ _

/-- The clamp to `[0, Max]` stays below a non-negative `Max`. -/
theorem Clamp_le_max (X Max : ℚ) (h : 0 ≤ Max) : Clamp X 0 Max ≤ Max :=
  max_le (min_le_right _ _) h

/-- With a valid interface that has a pawn UI component, the hook passes both
fatal checks and returns the result of the attribute branches. -/
theorem PostGameplayEffectExecute_ok (Avatar : Option IPawnUIInterface) (ui : IPawnUIInterface)
    (Attribute : EAttribute) (c : Combatant)
    (hui : resolvePawnUI Avatar c.Attributes = some ui) (hcomp : ui.PawnUIComponent = true) :
    PostGameplayEffectExecute Avatar Attribute c =
      Except.ok (attributeBranches ui Attribute
        { c with Attributes := { c.Attributes with CachedPawnUIInterface := some ui } }) := by
  simp [PostGameplayEffectExecute, hui, hcomp]

/-- Once the hook has run, the interface is cached, so the next call resolves
to the same interface. -/
theorem resolvePawnUI_attributeBranches (Avatar : Option IPawnUIInterface)
    (ui : IPawnUIInterface) (Attribute : EAttribute) (c : Combatant)
    (hc : c.Attributes.CachedPawnUIInterface = some ui) :
    resolvePawnUI Avatar (attributeBranches ui Attribute c).Attributes = some ui := by
  cases Attribute <;>
    simp [attributeBranches, healthBranch, rageBranch, damageBranch, resolvePawnUI, hc]

/-- Writing a raw value into an attribute does not touch the cached interface. -/
theorem resolvePawnUI_setValue (Avatar : Option IPawnUIInterface) (a : UWarriorAttributeSet)
    (Attribute : EAttribute) (Value : ℚ) :
    resolvePawnUI Avatar (a.setValue Attribute Value) = resolvePawnUI Avatar a := by
  cases Attribute <;> rfl

/-- One executed modifier on a vital attribute keeps the vitals in range, keeps
both maxima, and keeps the interface resolvable. -/
theorem executeModifier_vital (Avatar : Option IPawnUIInterface) (ui : IPawnUIInterface)
    (c : Combatant) (m : EAttribute × ℚ)
    (hui : resolvePawnUI Avatar c.Attributes = some ui) (hcomp : ui.PawnUIComponent = true)
    (hinv : VitalsInRange c.Attributes) (hm : IsVital m.1) :
    ∃ c1, executeModifier Avatar c m = Except.ok c1 ∧
      resolvePawnUI Avatar c1.Attributes = some ui ∧ VitalsInRange c1.Attributes ∧
      c1.Attributes.MaxHealth = c.Attributes.MaxHealth ∧
      c1.Attributes.MaxRage = c.Attributes.MaxRage := by
  obtain ⟨attr, raw⟩ := m
  obtain ⟨h0, h1, h2, h3⟩ := hinv
  have hH : 0 ≤ c.Attributes.MaxHealth := le_trans h0 h1
  have hR : 0 ≤ c.Attributes.MaxRage := le_trans h2 h3
  have hui1 : resolvePawnUI Avatar (c.Attributes.setValue attr raw) = some ui := by
    rw [resolvePawnUI_setValue]; exact hui
  refine ⟨_, PostGameplayEffectExecute_ok Avatar ui attr _ hui1 hcomp,
    resolvePawnUI_attributeBranches Avatar ui attr _ rfl, ?_⟩
  rcases hm with h | h | h <;> simp only at h <;> subst h
  · simp only [attributeBranches, healthBranch, UWarriorAttributeSet.setValue, VitalsInRange,
      if_true, reduceCtorEq, if_false]
    exact ⟨⟨Clamp_nonneg _ _, Clamp_le_max _ _ hH, h2, h3⟩, trivial, trivial⟩
  · simp only [attributeBranches, rageBranch, UWarriorAttributeSet.setValue, VitalsInRange,
      if_true, reduceCtorEq, if_false]
    exact ⟨⟨h0, h1, Clamp_nonneg _ _, Clamp_le_max _ _ hR⟩, trivial, trivial⟩
  · simp only [attributeBranches, damageBranch, UWarriorAttributeSet.setValue, VitalsInRange,
      if_true, reduceCtorEq, if_false]
    exact ⟨⟨Clamp_nonneg _ _, Clamp_le_max _ _ hH, h2, h3⟩, trivial, trivial⟩

/-- A whole sequence of executed modifiers on vital attributes returns a
combatant whose vitals are in range. -/
theorem executeModifiers_vital (Avatar : Option IPawnUIInterface) (ui : IPawnUIInterface)
    (calls : List (EAttribute × ℚ)) :
    ∀ c : Combatant, resolvePawnUI Avatar c.Attributes = some ui → ui.PawnUIComponent = true →
      VitalsInRange c.Attributes → (∀ m ∈ calls, IsVital m.1) →
      ∃ c1, executeModifiers Avatar c calls = Except.ok c1 ∧ VitalsInRange c1.Attributes ∧
        c1.Attributes.MaxHealth = c.Attributes.MaxHealth ∧
        c1.Attributes.MaxRage = c.Attributes.MaxRage := by
  induction calls with
  | nil => intro c _ _ hinv _; exact ⟨c, rfl, hinv, rfl, rfl⟩
  | cons m ms ih =>
    intro c hui hcomp hinv hall
    obtain ⟨c1, hrun, hui1, hinv1, hmh, hmr⟩ :=
      executeModifier_vital Avatar ui c m hui hcomp hinv (hall m (List.mem_cons_self _ _))
    obtain ⟨c2, hrun2, hinv2, hmh2, hmr2⟩ :=
      ih c1 hui1 hcomp hinv1 (fun x hx => hall x (List.mem_cons_of_mem _ hx))
    refine ⟨c2, ?_, hinv2, hmh2.trans hmh, hmr2.trans hmr⟩
    simp only [executeModifiers, hrun]
    exact hrun2

/-- Claim C5: the constructor state (health 1/1, rage 1/1) has its vitals in
range, and from every state with vitals in range, after each call of every
sequence of executed modifiers on `CurrentHealth`, `CurrentRage` or
`DamageTaken` with arbitrary raw values, the hook has returned and
`0 ≤ currentHealth ≤ maxHealth` and `0 ≤ currentRage ≤ maxRage` hold, the two
maxima being unchanged. -/
theorem C5_clamping_invariant (Avatar : Option IPawnUIInterface) (ui : IPawnUIInterface)
    (c : Combatant) (calls : List (EAttribute × ℚ))
    (hui : resolvePawnUI Avatar c.Attributes = some ui) (hcomp : ui.PawnUIComponent = true)
    (hinv : VitalsInRange c.Attributes) (hcalls : ∀ m ∈ calls, IsVital m.1) :
    VitalsInRange UWarriorAttributeSet.ctor ∧
    ∀ k : Nat, ∃ c1, executeModifiers Avatar c (calls.take k) = Except.ok c1 ∧
      (0 ≤ c1.Attributes.CurrentHealth ∧ c1.Attributes.CurrentHealth ≤ c1.Attributes.MaxHealth ∧
       0 ≤ c1.Attributes.CurrentRage ∧ c1.Attributes.CurrentRage ≤ c1.Attributes.MaxRage) ∧
      c1.Attributes.MaxHealth = c.Attributes.MaxHealth ∧
      c1.Attributes.MaxRage = c.Attributes.MaxRage := by
  refine ⟨by simp [VitalsInRange, UWarriorAttributeSet.ctor], fun k => ?_⟩
  exact executeModifiers_vital Avatar ui (calls.take k) c hui hcomp hinv
    (fun m hm => hcalls m (List.mem_of_mem_take hm))

/-- Witness of C5: a hero with a freshly constructed attribute set receives a
damage of 5, a rage value of 7 and a health value of -3; after the three calls
the vitals are in range. -/
theorem C5_clamping_invariant_witness :
    VitalsInRange Combatant.fresh.Attributes ∧
    ∃ c1, executeModifiers (some AWarriorHeroCharacter.PawnUI) Combatant.fresh
        ([(EAttribute.DamageTaken, 5), (EAttribute.CurrentRage, 7),
          (EAttribute.CurrentHealth, -3)].take 3) = Except.ok c1 ∧
      (0 ≤ c1.Attributes.CurrentHealth ∧ c1.Attributes.CurrentHealth ≤ c1.Attributes.MaxHealth ∧
       0 ≤ c1.Attributes.CurrentRage ∧ c1.Attributes.CurrentRage ≤ c1.Attributes.MaxRage) ∧
      c1.Attributes.MaxHealth = Combatant.fresh.Attributes.MaxHealth ∧
      c1.Attributes.MaxRage = Combatant.fresh.Attributes.MaxRage :=
  ⟨by simp [VitalsInRange, Combatant.fresh, UWarriorAttributeSet.ctor],
   (C5_clamping_invariant (some AWarriorHeroCharacter.PawnUI) AWarriorHeroCharacter.PawnUI
      Combatant.fresh
      [(EAttribute.DamageTaken, 5), (EAttribute.CurrentRage, 7), (EAttribute.CurrentHealth, -3)]
      rfl rfl
      (by simp [VitalsInRange, Combatant.fresh, UWarriorAttributeSet.ctor])
      (by simp [IsVital])).2 3⟩

/-- After `AddGameplayTagToActorIfNone` the tag is held. -/
theorem HasMatchingGameplayTag_add (Tags : TagContainer) (Tag : GameplayTag) :
    HasMatchingGameplayTag (AddGameplayTagToActorIfNone Tags Tag) Tag = true := by
  by_cases h : Tag ∈ Tags <;>
    simp [AddGameplayTagToActorIfNone, AddLooseGameplayTag, HasMatchingGameplayTag, h]

/-- Adding a tag that is already held changes nothing. -/
theorem AddGameplayTagToActorIfNone_of_has (Tags : TagContainer) (Tag : GameplayTag)
    (h : HasMatchingGameplayTag Tags Tag = true) :
    AddGameplayTagToActorIfNone Tags Tag = Tags := by
  simp [AddGameplayTagToActorIfNone, h]

/-- Reference count of a tag after `AddGameplayTagToActorIfNone`: an absent tag
gets one reference, a held tag keeps its count. -/
theorem count_AddGameplayTagToActorIfNone (Tags : TagContainer) (Tag : GameplayTag) :
    (AddGameplayTagToActorIfNone Tags Tag).count Tag = max 1 (Tags.count Tag) := by
  by_cases h : 0 < Tags.count Tag
  · have h1 : max 1 (List.count Tag Tags) = List.count Tag Tags := max_eq_right h
    simp [AddGameplayTagToActorIfNone, HasMatchingGameplayTag, h, h1]
  · have h0 : List.count Tag Tags = 0 := by omega
    simp [AddGameplayTagToActorIfNone, HasMatchingGameplayTag, AddLooseGameplayTag, h0]

/-- Reference count of a tag after `RemoveGameplayTagFromActorIfFound` on the
same tag: one reference less. -/
theorem count_Remove_self (Tags : TagContainer) (Tag : GameplayTag) :
    (RemoveGameplayTagFromActorIfFound Tags Tag).count Tag = Tags.count Tag - 1 := by
  by_cases h : 0 < Tags.count Tag
  · simp [RemoveGameplayTagFromActorIfFound, HasMatchingGameplayTag, h, RemoveLooseGameplayTag]
  · have h0 : List.count Tag Tags = 0 := by omega
    simp [RemoveGameplayTagFromActorIfFound, HasMatchingGameplayTag, h0]

/-- Removing a tag leaves the reference count of every other tag as it was. -/
theorem count_Remove_of_ne (Tags : TagContainer) (Tag Other : GameplayTag) (hne : Other ≠ Tag) :
    (RemoveGameplayTagFromActorIfFound Tags Tag).count Other = Tags.count Other := by
  by_cases h : 0 < Tags.count Tag
  · simp [RemoveGameplayTagFromActorIfFound, HasMatchingGameplayTag, h, RemoveLooseGameplayTag,
      List.count_erase_of_ne hne]
  · simp [RemoveGameplayTagFromActorIfFound, HasMatchingGameplayTag, h]

/-- Claim C6: for every state and every damage value `d`, the executed
`DamageTaken` modifier returns with `currentHealth = clamp(oldHealth - d, 0,
maxHealth)`; the combatant holds the Dead tag afterwards whenever the new
health is `≤ 0`, and the tag container is unchanged when the new health is
`> 0`.  With `maxHealth = 100`, `currentHealth = 30` and `d = 50` the new
health is `0` and Dead is held. -/
theorem C6_damage_taken_path (Avatar : Option IPawnUIInterface) (ui : IPawnUIInterface)
    (c : Combatant) (d : ℚ)
    (hui : resolvePawnUI Avatar c.Attributes = some ui) (hcomp : ui.PawnUIComponent = true) :
    ∃ c1, executeModifier Avatar c (EAttribute.DamageTaken, d) = Except.ok c1 ∧
      c1.Attributes.CurrentHealth
        = Clamp (c.Attributes.CurrentHealth - d) 0 c.Attributes.MaxHealth ∧
      (c1.Attributes.CurrentHealth ≤ 0 →
        HasMatchingGameplayTag c1.Tags GameplayTag.Shared_Status_Dead = true) ∧
      (0 < c1.Attributes.CurrentHealth → c1.Tags = c.Tags) ∧
      (c.Attributes.MaxHealth = 100 → c.Attributes.CurrentHealth = 30 → d = 50 →
        c1.Attributes.CurrentHealth = 0 ∧
        HasMatchingGameplayTag c1.Tags GameplayTag.Shared_Status_Dead = true) := by
  have hui1 : resolvePawnUI Avatar
      (c.Attributes.setValue EAttribute.DamageTaken d) = some ui := by
    rw [resolvePawnUI_setValue]; exact hui
  refine ⟨_, PostGameplayEffectExecute_ok Avatar ui EAttribute.DamageTaken _ hui1 hcomp, ?_⟩
  simp only [attributeBranches, damageBranch, UWarriorAttributeSet.setValue, if_true,
    reduceCtorEq, if_false]
  have hdead : ∀ x : ℚ, x ≤ 0 →
      HasMatchingGameplayTag
        (if x ≤ 0 then AddGameplayTagToActorIfNone c.Tags GameplayTag.Shared_Status_Dead
          else c.Tags) GameplayTag.Shared_Status_Dead = true := by
    intro x hx
    rw [if_pos hx]
    exact HasMatchingGameplayTag_add _ _
  refine ⟨trivial, hdead _, ?_, ?_⟩
  · intro hpos
    rw [if_neg (not_le.mpr hpos)]
  · intro hM hC hd
    have h0 : Clamp (c.Attributes.CurrentHealth - d) 0 c.Attributes.MaxHealth = 0 := by
      rw [hM, hC, hd]; norm_num [Clamp]
    exact ⟨h0, hdead _ (le_of_eq h0)⟩

/-- Witness of C6 at the worked example: an enemy with `maxHealth = 100` and
`currentHealth = 30` takes 50 damage; the new health is `0` and Dead is held. -/
theorem C6_damage_taken_path_witness :
    ∃ c1, executeModifier (some AWarriorEnemyCharacter.PawnUI)
        { Attributes := { UWarriorAttributeSet.ctor with MaxHealth := 100, CurrentHealth := 30 },
          Tags := [], Broadcasts := [] } (EAttribute.DamageTaken, 50) = Except.ok c1 ∧
      c1.Attributes.CurrentHealth = 0 ∧
      HasMatchingGameplayTag c1.Tags GameplayTag.Shared_Status_Dead = true := by
  obtain ⟨c1, hrun, _, _, _, hex⟩ :=
    C6_damage_taken_path (some AWarriorEnemyCharacter.PawnUI) AWarriorEnemyCharacter.PawnUI
      { Attributes := { UWarriorAttributeSet.ctor with MaxHealth := 100, CurrentHealth := 30 },
        Tags := [], Broadcasts := [] } 50 rfl rfl
  exact ⟨c1, hrun, hex rfl rfl rfl⟩

/-- Claim C7: the executed `CurrentRage` modifier with raw value `raw` returns
with `currentRage = r = clamp(raw, 0, maxRage)`; if `r = maxRage` the actor
holds `Player.Status.Rage.Full`; if `r = 0` and `maxRage > 0` the actor holds
`Player.Status.Rage.None`; if `0 < r < maxRage` and each of the two tags was
held at most once on entry, the actor holds neither. -/
theorem C7_rage_status (Avatar : Option IPawnUIInterface) (ui : IPawnUIInterface)
    (c : Combatant) (raw : ℚ)
    (hui : resolvePawnUI Avatar c.Attributes = some ui) (hcomp : ui.PawnUIComponent = true) :
    ∃ c1, executeModifier Avatar c (EAttribute.CurrentRage, raw) = Except.ok c1 ∧
      c1.Attributes.CurrentRage = Clamp raw 0 c.Attributes.MaxRage ∧
      (Clamp raw 0 c.Attributes.MaxRage = c.Attributes.MaxRage →
        HasMatchingGameplayTag c1.Tags GameplayTag.Player_Status_Rage_Full = true) ∧
      (Clamp raw 0 c.Attributes.MaxRage = 0 → 0 < c.Attributes.MaxRage →
        HasMatchingGameplayTag c1.Tags GameplayTag.Player_Status_Rage_None = true) ∧
      (0 < Clamp raw 0 c.Attributes.MaxRage →
        Clamp raw 0 c.Attributes.MaxRage < c.Attributes.MaxRage →
        c.Tags.count GameplayTag.Player_Status_Rage_Full ≤ 1 →
        c.Tags.count GameplayTag.Player_Status_Rage_None ≤ 1 →
        HasMatchingGameplayTag c1.Tags GameplayTag.Player_Status_Rage_Full = false ∧
        HasMatchingGameplayTag c1.Tags GameplayTag.Player_Status_Rage_None = false) := by
  have hui1 : resolvePawnUI Avatar
      (c.Attributes.setValue EAttribute.CurrentRage raw) = some ui := by
    rw [resolvePawnUI_setValue]; exact hui
  refine ⟨_, PostGameplayEffectExecute_ok Avatar ui EAttribute.CurrentRage _ hui1 hcomp, ?_⟩
  simp only [attributeBranches, rageBranch, UWarriorAttributeSet.setValue, if_true,
    reduceCtorEq, if_false]
  refine ⟨trivial, ?_, ?_, ?_⟩
  · intro hfull
    rw [if_pos hfull]
    exact HasMatchingGameplayTag_add _ _
  · intro hzero hmax
    have hne : ¬ Clamp raw 0 c.Attributes.MaxRage = c.Attributes.MaxRage := by
      rw [hzero]; exact ne_of_lt hmax
    rw [if_neg hne, if_pos hzero]
    exact HasMatchingGameplayTag_add _ _
  · intro hpos hlt hF hN
    rw [if_neg (ne_of_lt hlt), if_neg (ne_of_gt hpos)]
    have hne : GameplayTag.Player_Status_Rage_Full ≠ GameplayTag.Player_Status_Rage_None := by
      decide
    constructor
    · simp only [HasMatchingGameplayTag, decide_eq_false_iff_not, not_lt, Nat.le_zero_eq]
      rw [count_Remove_of_ne _ _ _ hne, count_Remove_self]
      omega
    · simp only [HasMatchingGameplayTag, decide_eq_false_iff_not, not_lt, Nat.le_zero_eq]
      rw [count_Remove_self, count_Remove_of_ne _ _ _ hne.symm]
      omega

/-- Witness of C7: a hero with `maxRage = 100` holding the Full tag once gets
the raw rage value 40; the stored rage is 40 and neither rage tag is held. -/
theorem C7_rage_status_witness :
    ∃ c1, executeModifier (some AWarriorHeroCharacter.PawnUI)
        { Attributes := { UWarriorAttributeSet.ctor with MaxRage := 100 },
          Tags := [GameplayTag.Player_Status_Rage_Full], Broadcasts := [] }
        (EAttribute.CurrentRage, 40) = Except.ok c1 ∧
      c1.Attributes.CurrentRage = 40 ∧
      HasMatchingGameplayTag c1.Tags GameplayTag.Player_Status_Rage_Full = false ∧
      HasMatchingGameplayTag c1.Tags GameplayTag.Player_Status_Rage_None = false := by
  obtain ⟨c1, hrun, hval, _, _, hpart⟩ :=
    C7_rage_status (some AWarriorHeroCharacter.PawnUI) AWarriorHeroCharacter.PawnUI
      { Attributes := { UWarriorAttributeSet.ctor with MaxRage := 100 },
        Tags := [GameplayTag.Player_Status_Rage_Full], Broadcasts := [] } 40 rfl rfl
  have hclamp : Clamp 40 0 (100 : ℚ) = 40 := by norm_num [Clamp]
  refine ⟨c1, hrun, hval.trans hclamp, ?_⟩
  exact hpart (by rw [hclamp]; norm_num) (by rw [hclamp]; norm_num) (by decide) (by decide)

/-- Evaluation for claim C8: a hero with `maxRage = 100` and no tag receives
the raw rage value 0 and then the raw rage value 100.  After the second call
the stored rage equals `maxRage` and the actor holds both
`Player.Status.Rage.Full` and `Player.Status.Rage.None`; in the opposite
direction (100, then 0) the stored rage is 0 and both tags are held as well. -/
theorem C8_rage_tags_both_held :
    (∃ c1, executeModifiers (some AWarriorHeroCharacter.PawnUI)
        { Attributes := { UWarriorAttributeSet.ctor with MaxRage := 100 },
          Tags := [], Broadcasts := [] }
        [(EAttribute.CurrentRage, 0), (EAttribute.CurrentRage, 100)] = Except.ok c1 ∧
      c1.Attributes.CurrentRage = c1.Attributes.MaxRage ∧
      c1.Tags = [GameplayTag.Player_Status_Rage_Full, GameplayTag.Player_Status_Rage_None] ∧
      HasMatchingGameplayTag c1.Tags GameplayTag.Player_Status_Rage_Full = true ∧
      HasMatchingGameplayTag c1.Tags GameplayTag.Player_Status_Rage_None = true) ∧
    (∃ c1, executeModifiers (some AWarriorHeroCharacter.PawnUI)
        { Attributes := { UWarriorAttributeSet.ctor with MaxRage := 100 },
          Tags := [], Broadcasts := [] }
        [(EAttribute.CurrentRage, 100), (EAttribute.CurrentRage, 0)] = Except.ok c1 ∧
      c1.Attributes.CurrentRage = 0 ∧
      c1.Tags = [GameplayTag.Player_Status_Rage_None, GameplayTag.Player_Status_Rage_Full] ∧
      HasMatchingGameplayTag c1.Tags GameplayTag.Player_Status_Rage_Full = true ∧
      HasMatchingGameplayTag c1.Tags GameplayTag.Player_Status_Rage_None = true) := by
  constructor
  · refine ⟨_, rfl, ?_⟩
    simp [attributeBranches, rageBranch, UWarriorAttributeSet.setValue,
      UWarriorAttributeSet.ctor, AWarriorHeroCharacter.PawnUI, Clamp,
      AddGameplayTagToActorIfNone, AddLooseGameplayTag, HasMatchingGameplayTag]
  · refine ⟨_, rfl, ?_⟩
    simp [attributeBranches, rageBranch, UWarriorAttributeSet.setValue,
      UWarriorAttributeSet.ctor, AWarriorHeroCharacter.PawnUI, Clamp,
      AddGameplayTagToActorIfNone, AddLooseGameplayTag, HasMatchingGameplayTag]

/-- The hook on `DamageTaken` leaves the tag container of a combatant that
already holds the Dead tag as it is. -/
theorem damageTaken_tags_of_dead (Avatar : Option IPawnUIInterface) (ui : IPawnUIInterface)
    (c : Combatant)
    (hui : resolvePawnUI Avatar c.Attributes = some ui) (hcomp : ui.PawnUIComponent = true)
    (hdead : HasMatchingGameplayTag c.Tags GameplayTag.Shared_Status_Dead = true) :
    ∃ c1, PostGameplayEffectExecute Avatar EAttribute.DamageTaken c = Except.ok c1 ∧
      resolvePawnUI Avatar c1.Attributes = some ui ∧ c1.Tags = c.Tags := by
  refine ⟨_, PostGameplayEffectExecute_ok Avatar ui EAttribute.DamageTaken c hui hcomp,
    resolvePawnUI_attributeBranches Avatar ui EAttribute.DamageTaken _ rfl, ?_⟩
  simp only [attributeBranches, damageBranch, if_true, reduceCtorEq, if_false]
  split
  · exact AddGameplayTagToActorIfNone_of_has _ _ hdead
  · rfl

/-- Repeating the hook on `DamageTaken` on a combatant that already holds the
Dead tag returns and leaves the tag container as it is. -/
theorem repeatDamageTaken_tags_of_dead (Avatar : Option IPawnUIInterface)
    (ui : IPawnUIInterface) (hcomp : ui.PawnUIComponent = true) (k : Nat) :
    ∀ c : Combatant, resolvePawnUI Avatar c.Attributes = some ui →
      HasMatchingGameplayTag c.Tags GameplayTag.Shared_Status_Dead = true →
      ∃ ck, repeatDamageTaken Avatar k c = Except.ok ck ∧ ck.Tags = c.Tags := by
  induction k with
  | zero => intro c _ _; exact ⟨c, rfl, rfl⟩
  | succ k ih =>
    intro c hui hdead
    obtain ⟨c1, hrun, hui1, htags⟩ := damageTaken_tags_of_dead Avatar ui c hui hcomp hdead
    obtain ⟨ck, hrunk, htagsk⟩ := ih c1 hui1 (by rw [htags]; exact hdead)
    refine ⟨ck, ?_, htagsk.trans htags⟩
    simp only [repeatDamageTaken, hrun]
    exact hrunk

/-- Claim C9: `AddGameplayTagToActorIfNone` is idempotent, and applying a
lethal `DamageTaken` hook `k ≥ 1` times in a row returns with exactly the tag
container obtained after the first application, which is the entry container
with Dead asserted once: a Dead tag absent on entry is held with count 1, not
`k`. -/
theorem C9_death_idempotent (Avatar : Option IPawnUIInterface) (ui : IPawnUIInterface)
    (c : Combatant) (k : Nat)
    (hui : resolvePawnUI Avatar c.Attributes = some ui) (hcomp : ui.PawnUIComponent = true)
    (hk : 1 ≤ k)
    (hlethal : Clamp (c.Attributes.CurrentHealth - c.Attributes.DamageTaken) 0
      c.Attributes.MaxHealth ≤ 0) :
    (∀ (Tags : TagContainer) (Tag : GameplayTag),
      AddGameplayTagToActorIfNone (AddGameplayTagToActorIfNone Tags Tag) Tag
        = AddGameplayTagToActorIfNone Tags Tag) ∧
    ∃ c1 ck, repeatDamageTaken Avatar 1 c = Except.ok c1 ∧
      repeatDamageTaken Avatar k c = Except.ok ck ∧
      ck.Tags = c1.Tags ∧
      c1.Tags = AddGameplayTagToActorIfNone c.Tags GameplayTag.Shared_Status_Dead ∧
      (HasMatchingGameplayTag c.Tags GameplayTag.Shared_Status_Dead = false →
        ck.Tags.count GameplayTag.Shared_Status_Dead = 1) ∧
      ck.Tags.count GameplayTag.Shared_Status_Dead
        = max 1 (c.Tags.count GameplayTag.Shared_Status_Dead) := by
  refine ⟨fun Tags Tag =>
    AddGameplayTagToActorIfNone_of_has _ _ (HasMatchingGameplayTag_add Tags Tag), ?_⟩
  obtain ⟨j, rfl⟩ : ∃ j, k = j + 1 := ⟨k - 1, by omega⟩
  have hfirst := PostGameplayEffectExecute_ok Avatar ui EAttribute.DamageTaken c hui hcomp
  have hui1 := resolvePawnUI_attributeBranches Avatar ui EAttribute.DamageTaken
    { c with Attributes := { c.Attributes with CachedPawnUIInterface := some ui } } rfl
  have htags1 : (attributeBranches ui EAttribute.DamageTaken
      { c with Attributes := { c.Attributes with CachedPawnUIInterface := some ui } }).Tags
      = AddGameplayTagToActorIfNone c.Tags GameplayTag.Shared_Status_Dead := by
    simp only [attributeBranches, damageBranch, if_true, reduceCtorEq, if_false]
    rw [if_pos hlethal]
  obtain ⟨ck, hrunk, htagsk⟩ :=
    repeatDamageTaken_tags_of_dead Avatar ui hcomp j _ hui1
      (by rw [htags1]; exact HasMatchingGameplayTag_add _ _)
  have hcount : ck.Tags.count GameplayTag.Shared_Status_Dead
      = max 1 (c.Tags.count GameplayTag.Shared_Status_Dead) := by
    rw [htagsk, htags1, count_AddGameplayTagToActorIfNone]
  refine ⟨_, ck, ?_, ?_, htagsk, htags1, ?_, hcount⟩
  · simp only [repeatDamageTaken, hfirst]
  · simp only [repeatDamageTaken, hfirst]
    exact hrunk
  · intro habs
    have h0 : c.Tags.count GameplayTag.Shared_Status_Dead = 0 := by
      have hnot : ¬ 0 < c.Tags.count GameplayTag.Shared_Status_Dead := by
        simpa only [HasMatchingGameplayTag, decide_eq_false_iff_not] using habs
      omega
    rw [hcount, h0]
    rfl

/-- Witness of C9: an enemy with `maxHealth = 100`, `currentHealth = 30` and
`DamageTaken = 50` runs the hook five times; the Dead tag is held once. -/
theorem C9_death_idempotent_witness :
    ∃ ck, repeatDamageTaken (some AWarriorEnemyCharacter.PawnUI) 5
        { Attributes := { UWarriorAttributeSet.ctor with
            MaxHealth := 100, CurrentHealth := 30, DamageTaken := 50 },
          Tags := [], Broadcasts := [] } = Except.ok ck ∧
      ck.Tags = [GameplayTag.Shared_Status_Dead] ∧
      ck.Tags.count GameplayTag.Shared_Status_Dead = 1 := by
  obtain ⟨_, c1, ck, _, hrunk, hsame, hone, hcount, _⟩ :=
    C9_death_idempotent (some AWarriorEnemyCharacter.PawnUI) AWarriorEnemyCharacter.PawnUI
      { Attributes := { UWarriorAttributeSet.ctor with
          MaxHealth := 100, CurrentHealth := 30, DamageTaken := 50 },
        Tags := [], Broadcasts := [] } 5 rfl rfl (by decide)
      (by norm_num [Clamp, UWarriorAttributeSet.ctor])
  exact ⟨ck, hrunk, by rw [hsame, hone]; rfl, hcount rfl⟩

/-- Claim C10 fails on the code: on an avatar that does not implement
`IPawnUIInterface` the hook halts on the first fatal check, and on a plain
`AWarriorBaseCharacter`, whose `GetPawnUIComponent` returns `nullptr`, it halts
on the second one, for the Health, Rage and DamageTaken attributes alike. -/
theorem C10_missing_ui_counterexample :
    PostGameplayEffectExecute none EAttribute.CurrentHealth Combatant.fresh
      = Except.error FatalCheck.DidNotImplementIPawnUIInterface ∧
    PostGameplayEffectExecute none EAttribute.CurrentRage Combatant.fresh
      = Except.error FatalCheck.DidNotImplementIPawnUIInterface ∧
    PostGameplayEffectExecute none EAttribute.DamageTaken Combatant.fresh
      = Except.error FatalCheck.DidNotImplementIPawnUIInterface ∧
    PostGameplayEffectExecute (some AWarriorBaseCharacter.PawnUI) EAttribute.CurrentHealth
        Combatant.fresh
      = Except.error FatalCheck.PawnUIComponentIsNullptr ∧
    PostGameplayEffectExecute (some AWarriorBaseCharacter.PawnUI) EAttribute.CurrentRage
        Combatant.fresh
      = Except.error FatalCheck.PawnUIComponentIsNullptr ∧
    PostGameplayEffectExecute (some AWarriorBaseCharacter.PawnUI) EAttribute.DamageTaken
        Combatant.fresh
      = Except.error FatalCheck.PawnUIComponentIsNullptr :=
  ⟨rfl, rfl, rfl, rfl, rfl, rfl⟩

/-- Claim C10 as amended: a missing pawn UI collaborator is fatal.  When the
avatar provides no `IPawnUIInterface` (and none is cached), or when
`GetPawnUIComponent` returns null, the hook halts on a fatal check and no
state change is returned, whatever the attribute.  Only a null
`GetHeroUIComponent` is tolerated: the Rage path then returns with the clamped
rage stored and the same tag updates as with a hero UI component, and makes no
broadcast. -/
theorem C10_missing_ui_is_fatal (Avatar : Option IPawnUIInterface) (Attribute : EAttribute)
    (c : Combatant) :
    (resolvePawnUI Avatar c.Attributes = none →
      PostGameplayEffectExecute Avatar Attribute c
        = Except.error FatalCheck.DidNotImplementIPawnUIInterface) ∧
    (∀ ui, resolvePawnUI Avatar c.Attributes = some ui → ui.PawnUIComponent = false →
      PostGameplayEffectExecute Avatar Attribute c
        = Except.error FatalCheck.PawnUIComponentIsNullptr) ∧
    (∀ ui, resolvePawnUI Avatar c.Attributes = some ui → ui.PawnUIComponent = true →
      ui.HeroUIComponent = false →
      ∃ c1, PostGameplayEffectExecute Avatar EAttribute.CurrentRage c = Except.ok c1 ∧
        c1.Attributes.CurrentRage = Clamp c.Attributes.CurrentRage 0 c.Attributes.MaxRage ∧
        c1.Tags = (rageBranch AWarriorHeroCharacter.PawnUI c).Tags ∧
        c1.Broadcasts = c.Broadcasts) := by
  refine ⟨?_, ?_, ?_⟩
  · intro h
    simp [PostGameplayEffectExecute, h]
  · intro ui h hcomp
    simp [PostGameplayEffectExecute, h, hcomp]
  · intro ui h hcomp hhero
    refine ⟨_, PostGameplayEffectExecute_ok Avatar ui EAttribute.CurrentRage c h hcomp, ?_⟩
    simp [attributeBranches, rageBranch, hhero]

/-- Witness of the amended C10: an enemy (pawn UI component present, no hero
UI component) with `maxRage = 100` whose rage attribute holds 250: the hook
returns with rage 100 and without any broadcast. -/
theorem C10_missing_ui_is_fatal_witness :
    ∃ c1, PostGameplayEffectExecute (some AWarriorEnemyCharacter.PawnUI) EAttribute.CurrentRage
        { Attributes := { UWarriorAttributeSet.ctor with MaxRage := 100, CurrentRage := 250 },
          Tags := [], Broadcasts := [] } = Except.ok c1 ∧
      c1.Attributes.CurrentRage = 100 ∧ c1.Broadcasts = [] := by
  obtain ⟨c1, hrun, hval, _, hb⟩ :=
    (C10_missing_ui_is_fatal (some AWarriorEnemyCharacter.PawnUI) EAttribute.CurrentRage
      { Attributes := { UWarriorAttributeSet.ctor with MaxRage := 100, CurrentRage := 250 },
        Tags := [], Broadcasts := [] }).2.2 AWarriorEnemyCharacter.PawnUI rfl rfl rfl
  exact ⟨c1, hrun, hval.trans (by norm_num [Clamp]), hb⟩

/-! ## Theorems: survival game mode -/

/-- The frame relation of the spawning code is reflexive. -/
theorem SameExceptSpawning.refl (g : AWarriorSurvivalGameMode) : SameExceptSpawning g g :=
  ⟨rfl, rfl, rfl, rfl, rfl, rfl, rfl, rfl, rfl, rfl, rfl, rfl, rfl⟩

/-- The frame relation of the spawning code is transitive. -/
theorem SameExceptSpawning.trans {g g1 g2 : AWarriorSurvivalGameMode}
    (h1 : SameExceptSpawning g g1) (h2 : SameExceptSpawning g1 g2) :
    SameExceptSpawning g g2 :=
  ⟨h2.state.trans h1.state, h2.table.trans h1.table, h2.totalWaves.trans h1.totalWaves,
   h2.waveCount.trans h1.waveCount, h2.current.trans h1.current, h2.time.trans h1.time,
   h2.spawnWait.trans h1.spawnWait, h2.spawnDelay.trans h1.spawnDelay,
   h2.completedWait.trans h1.completedWait, h2.preloaded.trans h1.preloaded,
   h2.broadcasts.trans h1.broadcasts, h2.levelPoints.trans h1.levelPoints,
   h2.requested.trans h1.requested⟩

/-- The row lookup only reads the table and the wave count. -/
theorem GetCurrentWaveSpawnerTableRow_congr {g g1 : AWarriorSurvivalGameMode}
    (h : SameExceptSpawning g g1) :
    GetCurrentWaveSpawnerTableRow g1 = GetCurrentWaveSpawnerTableRow g := by
  simp only [GetCurrentWaveSpawnerTableRow, h.table, h.waveCount]

/-- Reading a random value leaves everything but the unread values as it is. -/
theorem nextDraw_frame (g : AWarriorSurvivalGameMode) :
    SameExceptSpawning g (nextDraw g).2 ∧
    (nextDraw g).2.TargetPointArray = g.TargetPointArray ∧
    (nextDraw g).2.TotalSpawnedEnemiesThisWaveCounter = g.TotalSpawnedEnemiesThisWaveCounter := by
  unfold nextDraw
  cases g.World.RandomDraws <;> exact ⟨⟨rfl, rfl, rfl, rfl, rfl, rfl, rfl, rfl, rfl, rfl, rfl,
    rfl, rfl⟩, rfl, rfl⟩

/-- One spawn attempt touches only the spawning part of the game mode and adds
to the wave counter exactly what it adds to `EnemiesSpawnedThisTime`, which is
`0` or `1`. -/
theorem spawnAttempt_spec (cls : Nat) (g : AWarriorSurvivalGameMode) (n : Nat) :
    SameExceptSpawning g (spawnAttempt cls g n).1 ∧
    (spawnAttempt cls g n).1.TargetPointArray = g.TargetPointArray ∧
    (spawnAttempt cls g n).1.TotalSpawnedEnemiesThisWaveCounter + (n : Int)
      = g.TotalSpawnedEnemiesThisWaveCounter + ((spawnAttempt cls g n).2 : Int) ∧
    n ≤ (spawnAttempt cls g n).2 ∧ (spawnAttempt cls g n).2 ≤ n + 1 := by
  unfold spawnAttempt nextSpawnOutcome
  cases g.World.SpawnOutcomes with
  | nil =>
    refine ⟨⟨rfl, rfl, rfl, rfl, rfl, rfl, rfl, rfl, rfl, rfl, rfl, rfl, rfl⟩, rfl, ?_, ?_, ?_⟩
    · simp only [if_true]; push_cast; ring
    · simp
    · simp
  | cons b rest =>
    cases b
    · refine ⟨⟨rfl, rfl, rfl, rfl, rfl, rfl, rfl, rfl, rfl, rfl, rfl, rfl, rfl⟩, rfl, ?_, ?_, ?_⟩
        <;> simp
    · refine ⟨⟨rfl, rfl, rfl, rfl, rfl, rfl, rfl, rfl, rfl, rfl, rfl, rfl, rfl⟩, rfl, ?_, ?_, ?_⟩
      · simp only [if_true]; push_cast; ring
      · simp
      · simp

/-- With the row of the current wave in the table, `ShouldKeepSpawnEnemies`
returns the comparison of the wave counter with the quota of that row. -/
theorem ShouldKeepSpawnEnemies_of_row {g : AWarriorSurvivalGameMode}
    {Row : FWarriorEnemyWaveSpawnerTableRow}
    (hrow : GetCurrentWaveSpawnerTableRow g = Except.ok Row) :
    ShouldKeepSpawnEnemies g = Except.ok
      (decide (g.TotalSpawnedEnemiesThisWaveCounter < Row.TotalEnemyToSpawnThisWave)) := by
  simp only [ShouldKeepSpawnEnemies, hrow]

/-- The inner spawn loop never halts once the row of the wave exists; it
touches only the spawning part of the game mode, adds to the wave counter
exactly what it adds to `EnemiesSpawnedThisTime`, keeps the counter within the
quota when entered below it, and leaves the loop normally only below the
quota. -/
theorem spawnLoop_spec (cls : Nat) (Row : FWarriorEnemyWaveSpawnerTableRow) (k : Nat) :
    ∀ (g : AWarriorSurvivalGameMode) (n : Nat),
      GetCurrentWaveSpawnerTableRow g = Except.ok Row →
      ∃ b g1 n1, spawnLoop cls k g n = Except.ok (b, g1, n1) ∧
        SameExceptSpawning g g1 ∧ g1.TargetPointArray = g.TargetPointArray ∧
        g1.TotalSpawnedEnemiesThisWaveCounter + (n : Int)
          = g.TotalSpawnedEnemiesThisWaveCounter + (n1 : Int) ∧
        (g.TotalSpawnedEnemiesThisWaveCounter < Row.TotalEnemyToSpawnThisWave →
          g1.TotalSpawnedEnemiesThisWaveCounter ≤ Row.TotalEnemyToSpawnThisWave ∧
          (b = false →
            g1.TotalSpawnedEnemiesThisWaveCounter < Row.TotalEnemyToSpawnThisWave)) := by
  induction k with
  | zero =>
    intro g n _
    exact ⟨false, g, n, rfl, SameExceptSpawning.refl g, rfl, rfl,
      fun h => ⟨le_of_lt h, fun _ => h⟩⟩
  | succ k ih =>
    intro g n hrow
    obtain ⟨hf, htp, hcnt, hle1, hle2⟩ := spawnAttempt_spec cls g n
    have hrow1 : GetCurrentWaveSpawnerTableRow (spawnAttempt cls g n).1 = Except.ok Row := by
      rw [GetCurrentWaveSpawnerTableRow_congr hf]; exact hrow
    have hle1' : (n : Int) ≤ ((spawnAttempt cls g n).2 : Int) := by exact_mod_cast hle1
    have hle2' : ((spawnAttempt cls g n).2 : Int) ≤ (n : Int) + 1 := by exact_mod_cast hle2
    by_cases hkeep : (spawnAttempt cls g n).1.TotalSpawnedEnemiesThisWaveCounter
        < Row.TotalEnemyToSpawnThisWave
    · obtain ⟨b, g1, n1, hrun, hfr, htp1, hcnt1, hq⟩ :=
        ih (spawnAttempt cls g n).1 (spawnAttempt cls g n).2 hrow1
      refine ⟨b, g1, n1, ?_, hf.trans hfr, htp1.trans htp, by omega, fun _ => hq hkeep⟩
      simp only [spawnLoop, ShouldKeepSpawnEnemies_of_row hrow1, hkeep, decide_True]
      exact hrun
    · refine ⟨true, (spawnAttempt cls g n).1, (spawnAttempt cls g n).2, ?_, hf, htp, hcnt, ?_⟩
      · simp only [spawnLoop, ShouldKeepSpawnEnemies_of_row hrow1, hkeep, decide_False]
      · intro hlt
        exact ⟨by omega, fun h => absurd h (by decide)⟩

/-- A definition with a null class is skipped. -/
theorem spawnDefinitions_cons_none (d : FWarriorEnemyWaveSpawnerInfo)
    (ds : List FWarriorEnemyWaveSpawnerInfo) (g : AWarriorSurvivalGameMode) (n : Nat)
    (hd : d.SoftEnemyClassToSpawn = none) :
    spawnDefinitions (d :: ds) g n = spawnDefinitions ds g n := by
  simp only [spawnDefinitions, hd]

/-- A definition whose class is not in `PreLoadedEnemyClassMap` halts the
loop on `FindChecked`. -/
theorem spawnDefinitions_cons_missing (d : FWarriorEnemyWaveSpawnerInfo)
    (ds : List FWarriorEnemyWaveSpawnerInfo) (g : AWarriorSurvivalGameMode) (n : Nat)
    (c : Nat) (hd : d.SoftEnemyClassToSpawn = some c) (hc : c ∉ g.PreLoadedEnemyClassMap) :
    spawnDefinitions (d :: ds) g n = Except.error SurvivalFatal.EnemyClassNotPreloaded := by
  have hc1 : c ∉ (nextDraw g).2.PreLoadedEnemyClassMap := by
    rw [(nextDraw_frame g).1.preloaded]; exact hc
  simp only [spawnDefinitions, hd, hc1, if_false]

/-- A definition whose class is preloaded runs the inner loop, then either
returns from the function or goes on with the remaining definitions. -/
theorem spawnDefinitions_cons_some (d : FWarriorEnemyWaveSpawnerInfo)
    (ds : List FWarriorEnemyWaveSpawnerInfo) (g : AWarriorSurvivalGameMode) (n : Nat)
    (c : Nat) (hd : d.SoftEnemyClassToSpawn = some c) (hc : c ∈ g.PreLoadedEnemyClassMap)
    (b : Bool) (g2 : AWarriorSurvivalGameMode) (n2 : Nat)
    (hloop : spawnLoop c
      (RandRange (nextDraw g).1 d.MinPerSpawnCount d.MaxPerSpawnCount).toNat (nextDraw g).2 n
        = Except.ok (b, g2, n2)) :
    spawnDefinitions (d :: ds) g n
      = if b = true then Except.ok (true, g2, n2) else spawnDefinitions ds g2 n2 := by
  have hc1 : c ∈ (nextDraw g).2.PreLoadedEnemyClassMap := by
    rw [(nextDraw_frame g).1.preloaded]; exact hc
  cases b <;> simp [spawnDefinitions, hd, hc1, hloop]

/-- Whenever the loop over the definitions returns, it has touched only the
spawning part of the game mode, has added to the wave counter exactly what it
added to `EnemiesSpawnedThisTime`, and has kept the counter within the quota
when entered below it. -/
theorem spawnDefinitions_ok (Row : FWarriorEnemyWaveSpawnerTableRow)
    (defs : List FWarriorEnemyWaveSpawnerInfo) :
    ∀ (g : AWarriorSurvivalGameMode) (n : Nat) (b : Bool) (g1 : AWarriorSurvivalGameMode)
      (n1 : Nat),
      GetCurrentWaveSpawnerTableRow g = Except.ok Row →
      spawnDefinitions defs g n = Except.ok (b, g1, n1) →
      SameExceptSpawning g g1 ∧ g1.TargetPointArray = g.TargetPointArray ∧
      g1.TotalSpawnedEnemiesThisWaveCounter + (n : Int)
        = g.TotalSpawnedEnemiesThisWaveCounter + (n1 : Int) ∧
      (g.TotalSpawnedEnemiesThisWaveCounter < Row.TotalEnemyToSpawnThisWave →
        g1.TotalSpawnedEnemiesThisWaveCounter ≤ Row.TotalEnemyToSpawnThisWave ∧
        (b = false →
          g1.TotalSpawnedEnemiesThisWaveCounter < Row.TotalEnemyToSpawnThisWave)) := by
  induction defs with
  | nil =>
    intro g n b g1 n1 _ hrun
    simp only [spawnDefinitions, Except.ok.injEq, Prod.mk.injEq] at hrun
    obtain ⟨hb, hg, hn⟩ := hrun
    subst hb; subst hg; subst hn
    exact ⟨SameExceptSpawning.refl g, rfl, rfl, fun h => ⟨le_of_lt h, fun _ => h⟩⟩
  | cons d ds ih =>
    intro g n b g1 n1 hrow hrun
    cases hd : d.SoftEnemyClassToSpawn with
    | none =>
      rw [spawnDefinitions_cons_none d ds g n hd] at hrun
      exact ih g n b g1 n1 hrow hrun
    | some c =>
      by_cases hc : c ∈ g.PreLoadedEnemyClassMap
      · obtain ⟨hdf, hdtp, hdt⟩ := nextDraw_frame g
        have hrow1 : GetCurrentWaveSpawnerTableRow (nextDraw g).2 = Except.ok Row := by
          rw [GetCurrentWaveSpawnerTableRow_congr hdf]; exact hrow
        obtain ⟨b2, g2, n2, hloop, hf2, htp2, hcnt2, hq2⟩ :=
          spawnLoop_spec c Row
            (RandRange (nextDraw g).1 d.MinPerSpawnCount d.MaxPerSpawnCount).toNat
            (nextDraw g).2 n hrow1
        rw [spawnDefinitions_cons_some d ds g n c hd hc b2 g2 n2 hloop] at hrun
        rw [hdt] at hcnt2 hq2
        cases b2 with
        | true =>
          simp only [if_true, Except.ok.injEq, Prod.mk.injEq] at hrun
          obtain ⟨hb, hg, hn⟩ := hrun
          subst hb; subst hg; subst hn
          exact ⟨hdf.trans hf2, htp2.trans hdtp, hcnt2,
            fun h => ⟨(hq2 h).1, fun hb => absurd hb (by decide)⟩⟩
        | false =>
          simp only [Bool.false_eq_true, if_false] at hrun
          have hrow2 : GetCurrentWaveSpawnerTableRow g2 = Except.ok Row := by
            rw [GetCurrentWaveSpawnerTableRow_congr hf2]; exact hrow1
          obtain ⟨hf3, htp3, hcnt3, hq3⟩ := ih g2 n2 b g1 n1 hrow2 hrun
          exact ⟨(hdf.trans hf2).trans hf3, htp3.trans (htp2.trans hdtp), by omega,
            fun h => hq3 ((hq2 h).2 rfl)⟩
      · rw [spawnDefinitions_cons_missing d ds g n c hd hc] at hrun
        exact absurd hrun (by simp)

/-- The loop over the definitions halts exactly when it reaches, without having
returned before, a definition whose non-null class is missing from
`PreLoadedEnemyClassMap`; the only fatal error it can raise is the one of
`FindChecked`. -/
theorem spawnDefinitions_error_iff (Row : FWarriorEnemyWaveSpawnerTableRow)
    (defs : List FWarriorEnemyWaveSpawnerInfo) :
    ∀ (g : AWarriorSurvivalGameMode) (n : Nat),
      GetCurrentWaveSpawnerTableRow g = Except.ok Row →
      ((∃ e, spawnDefinitions defs g n = Except.error e) ↔
        ∃ pre x post c g1 n1, defs = pre ++ x :: post ∧ x.SoftEnemyClassToSpawn = some c ∧
          c ∉ g.PreLoadedEnemyClassMap ∧
          spawnDefinitions pre g n = Except.ok (false, g1, n1)) ∧
      (∀ e, spawnDefinitions defs g n = Except.error e →
        e = SurvivalFatal.EnemyClassNotPreloaded) := by
  induction defs with
  | nil =>
    intro g n _
    refine ⟨⟨fun ⟨e, he⟩ => by simp [spawnDefinitions] at he, ?_⟩,
      fun e he => by simp [spawnDefinitions] at he⟩
    rintro ⟨pre, x, post, c, g1, n1, hsplit, _⟩
    exact absurd hsplit (by simp)
  | cons d ds ih =>
    intro g n hrow
    cases hd : d.SoftEnemyClassToSpawn with
    | none =>
      rw [spawnDefinitions_cons_none d ds g n hd]
      refine ⟨⟨fun herr => ?_, ?_⟩, (ih g n hrow).2⟩
      · obtain ⟨pre, x, post, c, g1, n1, hsplit, hx, hc, hpre⟩ := (ih g n hrow).1.mp herr
        refine ⟨d :: pre, x, post, c, g1, n1, by rw [hsplit]; rfl, hx, hc, ?_⟩
        rw [spawnDefinitions_cons_none d pre g n hd]; exact hpre
      · rintro ⟨pre, x, post, c, g1, n1, hsplit, hx, hc, hpre⟩
        cases pre with
        | nil =>
          simp only [List.nil_append, List.cons.injEq] at hsplit
          rw [← hsplit.1, hd] at hx
          exact absurd hx (by simp)
        | cons p pre' =>
          simp only [List.cons_append, List.cons.injEq] at hsplit
          obtain ⟨hp, hds⟩ := hsplit
          subst hp
          rw [spawnDefinitions_cons_none d pre' g n hd] at hpre
          exact (ih g n hrow).1.mpr ⟨pre', x, post, c, g1, n1, hds, hx, hc, hpre⟩
    | some c0 =>
      by_cases hc0 : c0 ∈ g.PreLoadedEnemyClassMap
      · obtain ⟨hdf, _, _⟩ := nextDraw_frame g
        have hrow1 : GetCurrentWaveSpawnerTableRow (nextDraw g).2 = Except.ok Row := by
          rw [GetCurrentWaveSpawnerTableRow_congr hdf]; exact hrow
        obtain ⟨b2, g2, n2, hloop, hf2, _, _, _⟩ :=
          spawnLoop_spec c0 Row
            (RandRange (nextDraw g).1 d.MinPerSpawnCount d.MaxPerSpawnCount).toNat
            (nextDraw g).2 n hrow1
        have hstep := fun rest =>
          spawnDefinitions_cons_some d rest g n c0 hd hc0 b2 g2 n2 hloop
        have hrow2 : GetCurrentWaveSpawnerTableRow g2 = Except.ok Row := by
          rw [GetCurrentWaveSpawnerTableRow_congr hf2]; exact hrow1
        have hmap : g2.PreLoadedEnemyClassMap = g.PreLoadedEnemyClassMap :=
          hf2.preloaded.trans hdf.preloaded
        rw [hstep ds]
        cases b2 with
        | true =>
          simp only [if_true]
          refine ⟨⟨fun ⟨e, he⟩ => by simp at he, ?_⟩, fun e he => by simp at he⟩
          rintro ⟨pre, x, post, c, g1, n1, hsplit, hx, hc, hpre⟩
          cases pre with
          | nil =>
            simp only [List.nil_append, List.cons.injEq] at hsplit
            rw [← hsplit.1, hd] at hx
            simp only [Option.some.injEq] at hx
            exact absurd (hx ▸ hc0) hc
          | cons p pre' =>
            simp only [List.cons_append, List.cons.injEq] at hsplit
            obtain ⟨hp, _⟩ := hsplit
            subst hp
            rw [hstep pre'] at hpre
            simp at hpre
        | false =>
          simp only [Bool.false_eq_true, if_false]
          refine ⟨⟨fun herr => ?_, ?_⟩, (ih g2 n2 hrow2).2⟩
          · obtain ⟨pre, x, post, c, g1, n1, hsplit, hx, hc, hpre⟩ :=
              (ih g2 n2 hrow2).1.mp herr
            refine ⟨d :: pre, x, post, c, g1, n1, by rw [hsplit]; rfl, hx, hmap ▸ hc, ?_⟩
            rw [hstep pre]; simpa using hpre
          · rintro ⟨pre, x, post, c, g1, n1, hsplit, hx, hc, hpre⟩
            cases pre with
            | nil =>
              simp only [List.nil_append, List.cons.injEq] at hsplit
              rw [← hsplit.1, hd] at hx
              simp only [Option.some.injEq] at hx
              exact absurd (hx ▸ hc0) hc
            | cons p pre' =>
              simp only [List.cons_append, List.cons.injEq] at hsplit
              obtain ⟨hp, hds⟩ := hsplit
              subst hp
              rw [hstep pre'] at hpre
              simp only [Bool.false_eq_true, if_false] at hpre
              exact (ih g2 n2 hrow2).1.mpr
                ⟨pre', x, post, c, g1, n1, hds, hx, hmap.symm ▸ hc, hpre⟩
      · rw [spawnDefinitions_cons_missing d ds g n c0 hd hc0]
        refine ⟨⟨fun _ => ⟨[], d, ds, c0, g, n, rfl, hd, hc0, rfl⟩, fun _ => ⟨_, rfl⟩⟩, ?_⟩
        intro e he
        simp only [Except.error.injEq] at he
        exact he.symm

/-- Filling the target point array touches nothing else. -/
theorem fillTargetPointArray_frame (g : AWarriorSurvivalGameMode) :
    SameExceptSpawning g (fillTargetPointArray g) ∧
    (fillTargetPointArray g).TotalSpawnedEnemiesThisWaveCounter
      = g.TotalSpawnedEnemiesThisWaveCounter ∧
    (fillTargetPointArray g).World = g.World := by
  unfold fillTargetPointArray
  split <;> exact ⟨⟨rfl, rfl, rfl, rfl, rfl, rfl, rfl, rfl, rfl, rfl, rfl, rfl, rfl⟩, rfl, rfl⟩

/-- The target point array is empty after the fill exactly when it was empty
and the level has no target point. -/
theorem fillTargetPointArray_eq_zero (g : AWarriorSurvivalGameMode) :
    (fillTargetPointArray g).TargetPointArray = 0 ↔
      g.TargetPointArray = 0 ∧ g.World.LevelTargetPoints = 0 := by
  unfold fillTargetPointArray
  by_cases h : g.TargetPointArray = 0
  · simp [h]
  · simp [h]

/-- Whenever `TrySpawnWaveEnemies` returns, the row of the current wave exists,
only the spawning part of the game mode has changed, the returned value is
non-negative and equals the growth of the wave counter, and a counter below
the quota on entry is within the quota on return. -/
theorem TrySpawnWaveEnemies_ok (g g1 : AWarriorSurvivalGameMode) (Spawned : Int)
    (hrun : TrySpawnWaveEnemies g = Except.ok (Spawned, g1)) :
    ∃ Row, GetCurrentWaveSpawnerTableRow g = Except.ok Row ∧
      SameExceptSpawning g g1 ∧ 0 ≤ Spawned ∧
      g1.TotalSpawnedEnemiesThisWaveCounter = g.TotalSpawnedEnemiesThisWaveCounter + Spawned ∧
      (g.TotalSpawnedEnemiesThisWaveCounter < Row.TotalEnemyToSpawnThisWave →
        g1.TotalSpawnedEnemiesThisWaveCounter ≤ Row.TotalEnemyToSpawnThisWave) := by
  obtain ⟨hff, hft, _⟩ := fillTargetPointArray_frame g
  unfold TrySpawnWaveEnemies at hrun
  simp only at hrun
  split at hrun
  · exact absurd hrun (by simp)
  · cases hrow : GetCurrentWaveSpawnerTableRow (fillTargetPointArray g) with
    | error e => rw [hrow] at hrun; exact absurd hrun (by simp)
    | ok Row =>
      rw [hrow] at hrun
      simp only at hrun
      cases hdefs : spawnDefinitions Row.EnemyWaveSpawnerDefinitions (fillTargetPointArray g) 0 with
      | error e => rw [hdefs] at hrun; exact absurd hrun (by simp)
      | ok res =>
        obtain ⟨b, g2, n2⟩ := res
        rw [hdefs] at hrun
        simp only [Except.ok.injEq, Prod.mk.injEq] at hrun
        obtain ⟨hn, hg⟩ := hrun
        subst hn; subst hg
        obtain ⟨hf, _, hcnt, hq⟩ := spawnDefinitions_ok Row _ _ 0 b g2 n2 hrow hdefs
        rw [hft] at hcnt hq
        refine ⟨Row, ?_, hff.trans hf, Int.natCast_nonneg n2, ?_, fun h => (hq h).1⟩
        · rw [← GetCurrentWaveSpawnerTableRow_congr hff]; exact hrow
        · simpa using hcnt

/-- Entered below the quota, `TrySpawnWaveEnemies` stays within it: if
`TotalSpawnedEnemiesThisWaveCounter` is below `TotalEnemyToSpawnThisWave` when
the call is entered, then it is at most `TotalEnemyToSpawnThisWave` when the
call returns, and the returned value is the growth of the counter; entered one
short of the quota it spawns at most one enemy. -/
theorem TrySpawnWaveEnemies_quota_bound (g g1 : AWarriorSurvivalGameMode) (Spawned : Int)
    (Row : FWarriorEnemyWaveSpawnerTableRow)
    (hrow : GetCurrentWaveSpawnerTableRow g = Except.ok Row)
    (hrun : TrySpawnWaveEnemies g = Except.ok (Spawned, g1))
    (hlt : g.TotalSpawnedEnemiesThisWaveCounter < Row.TotalEnemyToSpawnThisWave) :
    g1.TotalSpawnedEnemiesThisWaveCounter ≤ Row.TotalEnemyToSpawnThisWave ∧
    g1.TotalSpawnedEnemiesThisWaveCounter = g.TotalSpawnedEnemiesThisWaveCounter + Spawned ∧
    0 ≤ Spawned ∧
    (g.TotalSpawnedEnemiesThisWaveCounter + 1 = Row.TotalEnemyToSpawnThisWave →
      Spawned ≤ 1) := by
  obtain ⟨Row1, hrow1, _, hnn, hcnt, hq⟩ := TrySpawnWaveEnemies_ok g g1 Spawned hrun
  rw [hrow] at hrow1
  simp only [Except.ok.injEq] at hrow1
  subst hrow1
  have hle := hq hlt
  exact ⟨hle, hcnt, hnn, fun h => by omega⟩

/-- Worked example of the bound: entered at 1 of 2 with a spawner entry with
min 1 / max 3 and the draw 3, `TrySpawnWaveEnemies` spawns one enemy, returns 1
and leaves the wave counter within the quota of 2. -/
theorem TrySpawnWaveEnemies_quota_bound_example :
    ∃ g1, TrySpawnWaveEnemies
        { sampleGameMode 2 [2] [] with TotalSpawnedEnemiesThisWaveCounter := 1 }
        = Except.ok (1, g1) ∧
      g1.TotalSpawnedEnemiesThisWaveCounter ≤ 2 ∧
      g1.World.SpawnedEnemyClasses = [7] := by
  refine ⟨_, rfl, ?_, rfl⟩
  exact (TrySpawnWaveEnemies_quota_bound
    { sampleGameMode 2 [2] [] with TotalSpawnedEnemiesThisWaveCounter := 1 } _ 1 _
    rfl rfl (by decide)).1

/-- Claim C17: `TrySpawnWaveEnemies` halts with a fatal error if and only if no
target point exists (the array is empty and the level has none), or the data
table has no row named `Wave<CurrentWaveCount>`, or the loop reaches, without
having returned on the quota before, a spawner entry whose non-null class is
absent from `PreLoadedEnemyClassMap`; each of the three raises its own fatal
check, an entry with a null class is skipped, and in every other case the call
returns. -/
theorem C17_fatal_iff_configuration_error (g : AWarriorSurvivalGameMode) :
    (TrySpawnWaveEnemies g = Except.error SurvivalFatal.NoTargetPointsFound ↔
      g.TargetPointArray = 0 ∧ g.World.LevelTargetPoints = 0) ∧
    (TrySpawnWaveEnemies g = Except.error SurvivalFatal.CouldNotFindRow ↔
      ¬ (g.TargetPointArray = 0 ∧ g.World.LevelTargetPoints = 0) ∧
      FindRow g.EnemyWaveSpawnerDataTable (RowName.Wave g.CurrentWaveCount) = none) ∧
    (TrySpawnWaveEnemies g = Except.error SurvivalFatal.EnemyClassNotPreloaded ↔
      ¬ (g.TargetPointArray = 0 ∧ g.World.LevelTargetPoints = 0) ∧
      ∃ Row pre x post c g1 n1,
        FindRow g.EnemyWaveSpawnerDataTable (RowName.Wave g.CurrentWaveCount) = some Row ∧
        Row.EnemyWaveSpawnerDefinitions = pre ++ x :: post ∧
        x.SoftEnemyClassToSpawn = some c ∧ c ∉ g.PreLoadedEnemyClassMap ∧
        spawnDefinitions pre (fillTargetPointArray g) 0 = Except.ok (false, g1, n1)) ∧
    ((∃ e, TrySpawnWaveEnemies g = Except.error e) ↔
      (g.TargetPointArray = 0 ∧ g.World.LevelTargetPoints = 0) ∨
      FindRow g.EnemyWaveSpawnerDataTable (RowName.Wave g.CurrentWaveCount) = none ∨
      ∃ Row pre x post c g1 n1,
        FindRow g.EnemyWaveSpawnerDataTable (RowName.Wave g.CurrentWaveCount) = some Row ∧
        Row.EnemyWaveSpawnerDefinitions = pre ++ x :: post ∧
        x.SoftEnemyClassToSpawn = some c ∧ c ∉ g.PreLoadedEnemyClassMap ∧
        spawnDefinitions pre (fillTargetPointArray g) 0 = Except.ok (false, g1, n1)) ∧
    (∀ (d : FWarriorEnemyWaveSpawnerInfo) (ds : List FWarriorEnemyWaveSpawnerInfo)
        (g0 : AWarriorSurvivalGameMode) (n : Nat),
      d.SoftEnemyClassToSpawn = none →
        spawnDefinitions (d :: ds) g0 n = spawnDefinitions ds g0 n) ∧
    ((∀ e, TrySpawnWaveEnemies g ≠ Except.error e) →
      ∃ Spawned g1, TrySpawnWaveEnemies g = Except.ok (Spawned, g1)) := by
  obtain ⟨hff, _, _⟩ := fillTargetPointArray_frame g
  have hz := fillTargetPointArray_eq_zero g
  have hmap : (fillTargetPointArray g).PreLoadedEnemyClassMap = g.PreLoadedEnemyClassMap :=
    hff.preloaded
  have hroweq : GetCurrentWaveSpawnerTableRow (fillTargetPointArray g)
      = GetCurrentWaveSpawnerTableRow g := GetCurrentWaveSpawnerTableRow_congr hff
  have hlast : (∀ e, TrySpawnWaveEnemies g ≠ Except.error e) →
      ∃ Spawned g1, TrySpawnWaveEnemies g = Except.ok (Spawned, g1) := by
    intro hne
    cases hres : TrySpawnWaveEnemies g with
    | error e => exact absurd hres (hne e)
    | ok r => exact ⟨r.1, r.2, rfl⟩
  have hskip : ∀ (d : FWarriorEnemyWaveSpawnerInfo) (ds : List FWarriorEnemyWaveSpawnerInfo)
      (g0 : AWarriorSurvivalGameMode) (n : Nat),
      d.SoftEnemyClassToSpawn = none →
        spawnDefinitions (d :: ds) g0 n = spawnDefinitions ds g0 n :=
    fun d ds g0 n hd => spawnDefinitions_cons_none d ds g0 n hd
  by_cases hA : g.TargetPointArray = 0 ∧ g.World.LevelTargetPoints = 0
  · have hrun : TrySpawnWaveEnemies g = Except.error SurvivalFatal.NoTargetPointsFound := by
      simp only [TrySpawnWaveEnemies, hz.mpr hA, if_true]
    refine ⟨⟨fun _ => hA, fun _ => hrun⟩, ?_, ?_, ⟨fun _ => Or.inl hA, fun _ => ⟨_, hrun⟩⟩,
      hskip, hlast⟩
    · rw [hrun]; exact ⟨fun h => by simp at h, fun h => absurd hA h.1⟩
    · rw [hrun]; exact ⟨fun h => by simp at h, fun h => absurd hA h.1⟩
  · have hnz : ¬ (fillTargetPointArray g).TargetPointArray = 0 := fun h => hA (hz.mp h)
    cases hfind : FindRow g.EnemyWaveSpawnerDataTable (RowName.Wave g.CurrentWaveCount) with
    | none =>
      have hrow : GetCurrentWaveSpawnerTableRow (fillTargetPointArray g)
          = Except.error SurvivalFatal.CouldNotFindRow := by
        rw [hroweq]; simp only [GetCurrentWaveSpawnerTableRow, hfind]
      have hrun : TrySpawnWaveEnemies g = Except.error SurvivalFatal.CouldNotFindRow := by
        simp only [TrySpawnWaveEnemies, hnz, if_false, hrow]
      refine ⟨?_, ⟨fun _ => ⟨hA, rfl⟩, fun _ => hrun⟩, ?_,
        ⟨fun _ => Or.inr (Or.inl rfl), fun _ => ⟨_, hrun⟩⟩, hskip, hlast⟩
      · rw [hrun]; exact ⟨fun h => by simp at h, fun h => absurd h hA⟩
      · rw [hrun]
        refine ⟨fun h => by simp at h, ?_⟩
        rintro ⟨_, Row, pre, x, post, c, g1, n1, hr, _⟩
        simp at hr
    | some Row =>
      have hrow : GetCurrentWaveSpawnerTableRow (fillTargetPointArray g) = Except.ok Row := by
        rw [hroweq]; simp only [GetCurrentWaveSpawnerTableRow, hfind]
      obtain ⟨hiff, hkind⟩ :=
        spawnDefinitions_error_iff Row Row.EnemyWaveSpawnerDefinitions
          (fillTargetPointArray g) 0 hrow
      rw [hmap] at hiff
      have hC : (∃ Row1 pre x post c g1 n1, some Row = some Row1 ∧
            Row1.EnemyWaveSpawnerDefinitions = pre ++ x :: post ∧
            x.SoftEnemyClassToSpawn = some c ∧ c ∉ g.PreLoadedEnemyClassMap ∧
            spawnDefinitions pre (fillTargetPointArray g) 0 = Except.ok (false, g1, n1)) ↔
          ∃ e, spawnDefinitions Row.EnemyWaveSpawnerDefinitions (fillTargetPointArray g) 0
            = Except.error e := by
        rw [hiff]
        constructor
        · rintro ⟨Row1, pre, x, post, c, g1, n1, hr, h⟩
          simp only [Option.some.injEq] at hr
          subst hr
          exact ⟨pre, x, post, c, g1, n1, h⟩
        · rintro ⟨pre, x, post, c, g1, n1, h⟩
          exact ⟨Row, pre, x, post, c, g1, n1, rfl, h⟩
      cases hdefs : spawnDefinitions Row.EnemyWaveSpawnerDefinitions (fillTargetPointArray g) 0 with
      | error e =>
        have he := hkind e hdefs
        subst he
        have hrun : TrySpawnWaveEnemies g
            = Except.error SurvivalFatal.EnemyClassNotPreloaded := by
          simp only [TrySpawnWaveEnemies, hnz, if_false, hrow, hdefs]
        have hC' := hC.mpr ⟨_, hdefs⟩
        refine ⟨?_, ?_, ⟨fun _ => ⟨hA, hC'⟩, fun _ => hrun⟩,
          ⟨fun _ => Or.inr (Or.inr hC'), fun _ => ⟨_, hrun⟩⟩, hskip, hlast⟩
        · rw [hrun]; exact ⟨fun h => by simp at h, fun h => absurd h hA⟩
        · rw [hrun]; exact ⟨fun h => by simp at h, fun h => by simp at h⟩
      | ok res =>
        obtain ⟨b, g2, n2⟩ := res
        have hrun : TrySpawnWaveEnemies g = Except.ok ((n2 : Int), g2) := by
          simp only [TrySpawnWaveEnemies, hnz, if_false, hrow, hdefs]
        have hnC : ¬ ∃ Row1 pre x post c g1 n1, some Row = some Row1 ∧
            Row1.EnemyWaveSpawnerDefinitions = pre ++ x :: post ∧
            x.SoftEnemyClassToSpawn = some c ∧ c ∉ g.PreLoadedEnemyClassMap ∧
            spawnDefinitions pre (fillTargetPointArray g) 0 = Except.ok (false, g1, n1) := by
          rw [hC, hdefs]
          rintro ⟨e, he⟩
          simp at he
        rw [hrun]
        refine ⟨⟨fun h => by simp at h, fun h => absurd h hA⟩,
          ⟨fun h => by simp at h, fun h => by simp at h⟩,
          ⟨fun h => by simp at h, fun h => absurd h.2 hnC⟩,
          ⟨fun ⟨e, he⟩ => by simp at he, ?_⟩, hskip, fun _ => ⟨_, _, rfl⟩⟩
        rintro (h | h | h)
        · exact absurd h hA
        · simp at h
        · exact absurd h hnC

/-- A chain of listed changes followed by a chain that starts at its last
state is a chain. -/
theorem chain_append_getLastD (l1 l2 : List EWarriorSurvivalGameModeState) :
    ∀ a, List.Chain SequentialChange a l1 →
      List.Chain SequentialChange (l1.getLastD a) l2 →
      List.Chain SequentialChange a (l1 ++ l2) := by
  induction l1 with
  | nil => intro a _ h2; simpa using h2
  | cons x xs ih =>
    intro a h1 h2
    rw [List.chain_cons] at h1
    rw [List.cons_append, List.chain_cons]
    refine ⟨h1.1, ih x h1.2 ?_⟩
    cases xs with
    | nil => simpa using h2
    | cons y ys => simpa [List.getLastD] using h2

/-- The last element of an append whose second part is not empty. -/
theorem getLastD_append_cons (l1 : List EWarriorSurvivalGameModeState)
    (y : EWarriorSurvivalGameModeState) (ys : List EWarriorSurvivalGameModeState)
    (a b : EWarriorSurvivalGameModeState) :
    (l1 ++ y :: ys).getLastD a = (y :: ys).getLastD b := by
  rw [List.getLastD_eq_getLast?, List.getLastD_eq_getLast?, List.getLast?_append_cons,
    List.getLast?_eq_getLast _ (List.cons_ne_nil y ys)]
  rfl

/-- Nothing happened: the empty trace. -/
theorem StateTrace.nil (g g1 : AWarriorSurvivalGameMode)
    (hs : g1.CurrentSurvivalGameModeState = g.CurrentSurvivalGameModeState)
    (hb : g1.StateChangedBroadcasts = g.StateChangedBroadcasts) : StateTrace g g1 [] :=
  ⟨by simpa using hb, List.Chain.nil, by simpa using hs⟩

/-- Traces compose. -/
theorem StateTrace.append {g g1 g2 : AWarriorSurvivalGameMode}
    {n1 n2 : List EWarriorSurvivalGameModeState}
    (h1 : StateTrace g g1 n1) (h2 : StateTrace g1 g2 n2) : StateTrace g g2 (n1 ++ n2) := by
  obtain ⟨hb1, hc1, hs1⟩ := h1
  obtain ⟨hb2, hc2, hs2⟩ := h2
  refine ⟨by rw [hb2, hb1, List.append_assoc], ?_, ?_⟩
  · exact chain_append_getLastD n1 n2 _ hc1 (hs1 ▸ hc2)
  · rw [hs2, hs1]
    cases n2 with
    | nil => simp
    | cons y ys => exact (getLastD_append_cons n1 y ys _ _).symm

/-- The `WaitSpawnNewWave` block of `Tick` makes no state change or the single
change to `SpawningNewWave`. -/
theorem tickWaitSpawnNewWave_trace (g : AWarriorSurvivalGameMode) (DeltaTime : ℚ) :
    ∃ new, StateTrace g (tickWaitSpawnNewWave g DeltaTime) new ∧
      (new = [] ∨ new = [EWarriorSurvivalGameModeState.SpawningNewWave]) := by
  unfold tickWaitSpawnNewWave
  by_cases hs : g.CurrentSurvivalGameModeState = EWarriorSurvivalGameModeState.WaitSpawnNewWave
  · rw [if_pos hs]
    simp only
    split
    · refine ⟨[EWarriorSurvivalGameModeState.SpawningNewWave], ⟨rfl, ?_, rfl⟩, Or.inr rfl⟩
      exact List.Chain.cons (Or.inl ⟨hs, rfl⟩) List.Chain.nil
    · exact ⟨[], StateTrace.nil _ _ rfl rfl, Or.inl rfl⟩
  · rw [if_neg hs]
    exact ⟨[], StateTrace.nil _ _ rfl rfl, Or.inl rfl⟩

/-- The `SpawningNewWave` block of `Tick` makes no state change or the single
change to `InProgress`. -/
theorem tickSpawningNewWave_trace (g g1 : AWarriorSurvivalGameMode) (DeltaTime : ℚ)
    (hrun : tickSpawningNewWave g DeltaTime = Except.ok g1) :
    ∃ new, StateTrace g g1 new ∧
      (new = [] ∨ new = [EWarriorSurvivalGameModeState.InProgress]) := by
  unfold tickSpawningNewWave at hrun
  by_cases hs : g.CurrentSurvivalGameModeState = EWarriorSurvivalGameModeState.SpawningNewWave
  · rw [if_pos hs] at hrun
    simp only at hrun
    split at hrun
    · cases hsp : TrySpawnWaveEnemies
          { g with TimePassedSinceStart := g.TimePassedSinceStart + DeltaTime } with
      | error e => rw [hsp] at hrun; exact absurd hrun (by simp)
      | ok res =>
        obtain ⟨Spawned, g2⟩ := res
        rw [hsp] at hrun
        simp only [Except.ok.injEq] at hrun
        subst hrun
        obtain ⟨_, _, hf, _⟩ := TrySpawnWaveEnemies_ok _ _ _ hsp
        refine ⟨[EWarriorSurvivalGameModeState.InProgress], ⟨?_, ?_, rfl⟩, Or.inr rfl⟩
        · simp only [SetCurrentSurvivalGameModeState, hf.broadcasts]
        · exact List.Chain.cons (Or.inr (Or.inl ⟨hs, rfl⟩)) List.Chain.nil
    · simp only [Except.ok.injEq] at hrun
      subst hrun
      exact ⟨[], StateTrace.nil _ _ rfl rfl, Or.inl rfl⟩
  · rw [if_neg hs] at hrun
    simp only [Except.ok.injEq] at hrun
    subst hrun
    exact ⟨[], StateTrace.nil _ _ rfl rfl, Or.inl rfl⟩

/-- Whenever `PreloadNextWaveEnemies` returns, only the preloaded map and the
requested loads have changed. -/
theorem PreloadNextWaveEnemies_ok (g g1 : AWarriorSurvivalGameMode)
    (hrun : PreloadNextWaveEnemies g = Except.ok g1) :
    g1.CurrentSurvivalGameModeState = g.CurrentSurvivalGameModeState ∧
    g1.StateChangedBroadcasts = g.StateChangedBroadcasts ∧
    g1.CurrentWaveCount = g.CurrentWaveCount ∧
    g1.TotalWavesToSpawn = g.TotalWavesToSpawn ∧
    g1.CurrentSpawnedEnemiesCounter = g.CurrentSpawnedEnemiesCounter ∧
    g1.TotalSpawnedEnemiesThisWaveCounter = g.TotalSpawnedEnemiesThisWaveCounter ∧
    g1.TimePassedSinceStart = g.TimePassedSinceStart := by
  unfold PreloadNextWaveEnemies at hrun
  split at hrun
  · simp only [Except.ok.injEq] at hrun
    subst hrun
    exact ⟨rfl, rfl, rfl, rfl, rfl, rfl, rfl⟩
  · simp only at hrun
    split at hrun
    · exact absurd hrun (by simp)
    · simp only [Except.ok.injEq] at hrun
      subst hrun
      exact ⟨rfl, rfl, rfl, rfl, rfl, rfl, rfl⟩

/-- The `WaveCompleted` block of `Tick` makes no state change, or the single
change to `AllWavesDone` with the wave count above the number of waves, or the
single change to `WaitSpawnNewWave`. -/
theorem tickWaveCompleted_trace (g g1 : AWarriorSurvivalGameMode) (DeltaTime : ℚ)
    (hrun : tickWaveCompleted g DeltaTime = Except.ok g1) :
    ∃ new, StateTrace g g1 new ∧
      (new = [] ∨
       (new = [EWarriorSurvivalGameModeState.AllWavesDone] ∧
         g1.CurrentWaveCount > g1.TotalWavesToSpawn) ∨
       new = [EWarriorSurvivalGameModeState.WaitSpawnNewWave]) := by
  unfold tickWaveCompleted at hrun
  by_cases hs : g.CurrentSurvivalGameModeState = EWarriorSurvivalGameModeState.WaveCompleted
  · rw [if_pos hs] at hrun
    simp only at hrun
    split at hrun
    · split at hrun
      · rename_i hfin
        simp only [Except.ok.injEq] at hrun
        subst hrun
        refine ⟨[EWarriorSurvivalGameModeState.AllWavesDone], ⟨rfl, ?_, rfl⟩,
          Or.inr (Or.inl ⟨rfl, ?_⟩)⟩
        · exact List.Chain.cons (Or.inr (Or.inr (Or.inr (Or.inr ⟨hs, rfl⟩)))) List.Chain.nil
        · simpa [HasFinishedAllWaves, SetCurrentSurvivalGameModeState] using hfin
      · obtain ⟨hst, hbr, _⟩ := PreloadNextWaveEnemies_ok _ _ hrun
        refine ⟨[EWarriorSurvivalGameModeState.WaitSpawnNewWave], ⟨?_, ?_, ?_⟩,
          Or.inr (Or.inr rfl)⟩
        · rw [hbr]; rfl
        · exact List.Chain.cons (Or.inr (Or.inr (Or.inr (Or.inl ⟨hs, rfl⟩)))) List.Chain.nil
        · rw [hst]; rfl
    · simp only [Except.ok.injEq] at hrun
      subst hrun
      exact ⟨[], StateTrace.nil _ _ rfl rfl, Or.inl rfl⟩
  · rw [if_neg hs] at hrun
    simp only [Except.ok.injEq] at hrun
    subst hrun
    exact ⟨[], StateTrace.nil _ _ rfl rfl, Or.inl rfl⟩

/-- Every state change made by one `Tick` is a listed one: the trace of a
`Tick` that returns is a chain of listed changes, it never contains
`WaveCompleted`, and it contains `AllWavesDone` only with the wave count above
the number of waves. -/
theorem Tick_trace (g g1 : AWarriorSurvivalGameMode) (DeltaTime : ℚ)
    (hrun : Tick g DeltaTime = Except.ok g1) :
    ∃ new, StateTrace g g1 new ∧
      EWarriorSurvivalGameModeState.WaveCompleted ∉ new ∧
      (EWarriorSurvivalGameModeState.AllWavesDone ∈ new →
        g1.CurrentWaveCount > g1.TotalWavesToSpawn) := by
  unfold Tick at hrun
  obtain ⟨n1, ht1, hn1⟩ := tickWaitSpawnNewWave_trace g DeltaTime
  cases h2 : tickSpawningNewWave (tickWaitSpawnNewWave g DeltaTime) DeltaTime with
  | error e => rw [h2] at hrun; exact absurd hrun (by simp)
  | ok g2 =>
    rw [h2] at hrun
    simp only at hrun
    obtain ⟨n2, ht2, hn2⟩ := tickSpawningNewWave_trace _ g2 DeltaTime h2
    obtain ⟨n3, ht3, hn3⟩ := tickWaveCompleted_trace g2 g1 DeltaTime hrun
    refine ⟨n1 ++ n2 ++ n3, (ht1.append ht2).append ht3, ?_, ?_⟩
    · rcases hn1 with h | h <;> rcases hn2 with h' | h' <;>
        rcases hn3 with h'' | ⟨h'', _⟩ | h'' <;> subst h <;> subst h' <;> subst h'' <;> simp
    · intro hmem
      rcases hn3 with h'' | ⟨_, hgt⟩ | h''
      · subst h''
        rcases hn1 with h | h <;> rcases hn2 with h' | h' <;> subst h <;> subst h' <;>
          simp at hmem
      · exact hgt
      · subst h''
        rcases hn1 with h | h <;> rcases hn2 with h' | h' <;> subst h <;> subst h' <;>
          simp at hmem

/-- What `OnEnemyDestroyed` does to the state when it returns: either no state
change, or the single change to `WaveCompleted`, made with the gate passed and
both counters reset. -/
theorem OnEnemyDestroyed_ok (g g1 : AWarriorSurvivalGameMode)
    (hrun : OnEnemyDestroyed g = Except.ok g1) :
    (g1.CurrentSurvivalGameModeState = g.CurrentSurvivalGameModeState ∧
      g1.StateChangedBroadcasts = g.StateChangedBroadcasts) ∨
    (g1.CurrentSurvivalGameModeState = EWarriorSurvivalGameModeState.WaveCompleted ∧
      g1.StateChangedBroadcasts
        = g.StateChangedBroadcasts ++ [EWarriorSurvivalGameModeState.WaveCompleted] ∧
      WaveCompletionGate g ∧
      g1.TotalSpawnedEnemiesThisWaveCounter = 0 ∧ g1.CurrentSpawnedEnemiesCounter = 0) := by
  unfold OnEnemyDestroyed at hrun
  simp only at hrun
  cases hrow : GetCurrentWaveSpawnerTableRow
      { g with CurrentSpawnedEnemiesCounter := g.CurrentSpawnedEnemiesCounter - 1 } with
  | error e =>
    simp only [ShouldKeepSpawnEnemies, hrow] at hrun
    exact absurd hrun (by simp)
  | ok Row =>
    have hrow0 : GetCurrentWaveSpawnerTableRow g = Except.ok Row := hrow
    rw [ShouldKeepSpawnEnemies_of_row hrow] at hrun
    by_cases hkeep : g.TotalSpawnedEnemiesThisWaveCounter < Row.TotalEnemyToSpawnThisWave
    · simp only [hkeep, decide_True] at hrun
      cases hsp : TrySpawnWaveEnemies
          { g with CurrentSpawnedEnemiesCounter := g.CurrentSpawnedEnemiesCounter - 1 } with
      | error e => rw [hsp] at hrun; exact absurd hrun (by simp)
      | ok res =>
        obtain ⟨Spawned, g2⟩ := res
        rw [hsp] at hrun
        simp only [Except.ok.injEq] at hrun
        subst hrun
        obtain ⟨_, _, hf, _⟩ := TrySpawnWaveEnemies_ok _ _ _ hsp
        exact Or.inl ⟨hf.state, hf.broadcasts⟩
    · simp only [hkeep, decide_False] at hrun
      split at hrun
      · rename_i hle
        simp only [Except.ok.injEq] at hrun
        subst hrun
        exact Or.inr ⟨rfl, rfl, ⟨Row, hrow0, not_lt.mp hkeep, hle⟩, rfl, rfl⟩
      · simp only [Except.ok.injEq] at hrun
        subst hrun
        exact Or.inl ⟨rfl, rfl⟩

/-- Registering enemies changes only `CurrentSpawnedEnemiesCounter`. -/
theorem RegisterSpawnedEnemy_frame (l : List (Option Nat)) :
    ∀ g : AWarriorSurvivalGameMode,
      (RegisterSpawnedEnemy g l).CurrentSurvivalGameModeState = g.CurrentSurvivalGameModeState ∧
      (RegisterSpawnedEnemy g l).StateChangedBroadcasts = g.StateChangedBroadcasts ∧
      (RegisterSpawnedEnemy g l).TotalSpawnedEnemiesThisWaveCounter
        = g.TotalSpawnedEnemiesThisWaveCounter ∧
      (RegisterSpawnedEnemy g l).CurrentSpawnedEnemiesCounter
        = g.CurrentSpawnedEnemiesCounter + ((l.filter Option.isSome).length : Int) := by
  induction l with
  | nil => intro g; simp [RegisterSpawnedEnemy]
  | cons x xs ih =>
    intro g
    cases x with
    | none =>
      have h := ih g
      simpa [RegisterSpawnedEnemy] using h
    | some e =>
      have h := ih { g with CurrentSpawnedEnemiesCounter := g.CurrentSpawnedEnemiesCounter + 1 }
      simp only [RegisterSpawnedEnemy, List.foldl_cons] at h ⊢
      refine ⟨h.1, h.2.1, h.2.2.1, ?_⟩
      rw [h.2.2.2]
      simp only [List.filter_cons, Option.isSome_some, if_true, List.length_cons]
      push_cast
      ring

/-- The last element of a list, with a default, is the default or a member. -/
theorem getLastD_mem_or (l : List EWarriorSurvivalGameModeState)
    (a : EWarriorSurvivalGameModeState) : l.getLastD a = a ∨ l.getLastD a ∈ l := by
  cases l with
  | nil => exact Or.inl rfl
  | cons y ys =>
    right
    have h : (y :: ys).getLastD a = (y :: ys).getLast (List.cons_ne_nil y ys) := rfl
    rw [h]
    exact List.getLast_mem _

/-- Claim C11: whenever a call (`Tick`, `OnEnemyDestroyed`,
`RegisterSpawnedEnemy` or a load completion) returns having changed the state
to `WaveCompleted`, or having broadcast `WaveCompleted`, the call is
`OnEnemyDestroyed` and at that moment, before the counters are reset,
`TotalSpawnedEnemiesThisWaveCounter >= TotalEnemyToSpawnThisWave` of the row of
the current wave and the decremented `CurrentSpawnedEnemiesCounter <= 0`. -/
theorem C11_wave_completion_gating (g g1 : AWarriorSurvivalGameMode) (call : GameModeCall)
    (hrun : callGameMode g call = Except.ok g1) :
    (g1.CurrentSurvivalGameModeState = EWarriorSurvivalGameModeState.WaveCompleted →
      g.CurrentSurvivalGameModeState ≠ EWarriorSurvivalGameModeState.WaveCompleted →
      call = GameModeCall.OnEnemyDestroyed ∧ WaveCompletionGate g) ∧
    (∀ new, g1.StateChangedBroadcasts = g.StateChangedBroadcasts ++ new →
      EWarriorSurvivalGameModeState.WaveCompleted ∈ new →
      call = GameModeCall.OnEnemyDestroyed ∧ WaveCompletionGate g) := by
  have hsame : g1.CurrentSurvivalGameModeState = g.CurrentSurvivalGameModeState →
      g1.StateChangedBroadcasts = g.StateChangedBroadcasts →
      (g1.CurrentSurvivalGameModeState = EWarriorSurvivalGameModeState.WaveCompleted →
        g.CurrentSurvivalGameModeState ≠ EWarriorSurvivalGameModeState.WaveCompleted →
        call = GameModeCall.OnEnemyDestroyed ∧ WaveCompletionGate g) ∧
      (∀ new, g1.StateChangedBroadcasts = g.StateChangedBroadcasts ++ new →
        EWarriorSurvivalGameModeState.WaveCompleted ∈ new →
        call = GameModeCall.OnEnemyDestroyed ∧ WaveCompletionGate g) := by
    intro hs hb
    refine ⟨fun h1 h0 => absurd (hs ▸ h1) h0, fun new hnew hmem => ?_⟩
    rw [hb] at hnew
    have : new = [] := by simpa using hnew
    subst this
    simp at hmem
  cases call with
  | Tick DeltaTime =>
    obtain ⟨new0, ⟨hb, _, hs⟩, hnot, _⟩ := Tick_trace g g1 DeltaTime hrun
    refine ⟨fun h1 h0 => ?_, fun new hnew hmem => ?_⟩
    · rcases getLastD_mem_or new0 g.CurrentSurvivalGameModeState with h | h
      · rw [hs, h] at h1; exact absurd h1 h0
      · rw [← hs, h1] at h; exact absurd h hnot
    · rw [hb] at hnew
      have : new0 = new := List.append_cancel_left hnew
      subst this
      exact absurd hmem hnot
  | OnEnemyDestroyed =>
    rcases OnEnemyDestroyed_ok g g1 hrun with ⟨hs, hb⟩ | ⟨_, _, hgate, _⟩
    · have h := hsame hs hb
      exact ⟨fun h1 h0 => h.1 h1 h0, fun new hnew hmem => h.2 new hnew hmem⟩
    · exact ⟨fun _ _ => ⟨rfl, hgate⟩, fun _ _ _ => ⟨rfl, hgate⟩⟩
  | RegisterSpawnedEnemy l =>
    simp only [callGameMode, Except.ok.injEq] at hrun
    subst hrun
    obtain ⟨hs, hb, _⟩ := RegisterSpawnedEnemy_frame l g
    exact hsame hs hb
  | OnEnemyClassLoaded c r =>
    simp only [callGameMode, Except.ok.injEq] at hrun
    subst hrun
    apply hsame <;> (unfold OnEnemyClassLoaded; split <;> rfl)

/-- Witness of C11: in state `InProgress` with the quota met (2 of 2) and one
live enemy, `OnEnemyDestroyed` changes the state to `WaveCompleted`, and the
gate holds on the counters it was entered with. -/
theorem C11_wave_completion_gating_witness :
    ∃ g1, callGameMode
        { sampleGameMode 2 [] [] with
          CurrentSurvivalGameModeState := EWarriorSurvivalGameModeState.InProgress
          TotalSpawnedEnemiesThisWaveCounter := 2
          CurrentSpawnedEnemiesCounter := 1 } GameModeCall.OnEnemyDestroyed = Except.ok g1 ∧
      g1.CurrentSurvivalGameModeState = EWarriorSurvivalGameModeState.WaveCompleted ∧
      WaveCompletionGate
        { sampleGameMode 2 [] [] with
          CurrentSurvivalGameModeState := EWarriorSurvivalGameModeState.InProgress
          TotalSpawnedEnemiesThisWaveCounter := 2
          CurrentSpawnedEnemiesCounter := 1 } := by
  refine ⟨_, rfl, rfl, ?_⟩
  exact ((C11_wave_completion_gating
    { sampleGameMode 2 [] [] with
      CurrentSurvivalGameModeState := EWarriorSurvivalGameModeState.InProgress
      TotalSpawnedEnemiesThisWaveCounter := 2
      CurrentSpawnedEnemiesCounter := 1 } _ GameModeCall.OnEnemyDestroyed rfl).1 rfl
    (by decide)).2

/-- A run in which `OnEnemyDestroyed` is only called in state `InProgress`
makes listed state changes only. -/
theorem callsGameMode_trace (calls : List GameModeCall) :
    ∀ g g1 : AWarriorSurvivalGameMode, callsGameMode g calls = Except.ok g1 →
      DestroyedOnlyInProgress g calls → ∃ new, StateTrace g g1 new := by
  induction calls with
  | nil =>
    intro g g1 hrun _
    simp only [callsGameMode, Except.ok.injEq] at hrun
    subst hrun
    exact ⟨[], StateTrace.nil _ _ rfl rfl⟩
  | cons c cs ih =>
    intro g g1 hrun hguard
    cases hc : callGameMode g c with
    | error e => simp only [callsGameMode, hc] at hrun; exact absurd hrun (by simp)
    | ok g2 =>
      simp only [callsGameMode, hc] at hrun
      simp only [DestroyedOnlyInProgress, hc] at hguard
      obtain ⟨n2, ht2⟩ := ih g2 g1 hrun hguard.2
      suffices h : ∃ n1, StateTrace g g2 n1 by
        obtain ⟨n1, ht1⟩ := h
        exact ⟨n1 ++ n2, ht1.append ht2⟩
      cases c with
      | Tick d =>
        obtain ⟨n1, ht1, _⟩ := Tick_trace g g2 d hc
        exact ⟨n1, ht1⟩
      | RegisterSpawnedEnemy l =>
        simp only [callGameMode, Except.ok.injEq] at hc
        subst hc
        obtain ⟨hs, hb, _⟩ := RegisterSpawnedEnemy_frame l g
        exact ⟨[], StateTrace.nil _ _ hs hb⟩
      | OnEnemyClassLoaded sc r =>
        simp only [callGameMode, Except.ok.injEq] at hc
        subst hc
        refine ⟨[], StateTrace.nil _ _ ?_ ?_⟩ <;> (unfold OnEnemyClassLoaded; split <;> rfl)
      | OnEnemyDestroyed =>
        have hin : g.CurrentSurvivalGameModeState
            = EWarriorSurvivalGameModeState.InProgress := hguard.1
        rcases OnEnemyDestroyed_ok g g2 hc with ⟨hs, hb⟩ | ⟨hs, hb, _⟩
        · exact ⟨[], StateTrace.nil _ _ hs hb⟩
        · exact ⟨[EWarriorSurvivalGameModeState.WaveCompleted],
            ⟨hb, List.Chain.cons (Or.inr (Or.inr (Or.inl ⟨hin, rfl⟩))) List.Chain.nil, hs⟩⟩

/-- Claim C13: with the row of the current wave in the table,
`OnEnemyDestroyed` first decreases `CurrentSpawnedEnemiesCounter` by 1; then,
if the wave counter is below the quota, it runs `TrySpawnWaveEnemies` once on
the decremented game mode, adds the returned value to
`CurrentSpawnedEnemiesCounter` and leaves the state unchanged (and halts when
that call halts); otherwise, if the decremented counter is `<= 0`, it resets
both counters to 0 and sets the state to `WaveCompleted`; otherwise it changes
nothing but the decremented counter. -/
theorem C13_on_enemy_destroyed (g : AWarriorSurvivalGameMode)
    (Row : FWarriorEnemyWaveSpawnerTableRow)
    (hrow : GetCurrentWaveSpawnerTableRow g = Except.ok Row) :
    (g.TotalSpawnedEnemiesThisWaveCounter < Row.TotalEnemyToSpawnThisWave →
      (∀ Spawned g2,
        TrySpawnWaveEnemies
            { g with CurrentSpawnedEnemiesCounter := g.CurrentSpawnedEnemiesCounter - 1 }
          = Except.ok (Spawned, g2) →
        OnEnemyDestroyed g = Except.ok
            { g2 with CurrentSpawnedEnemiesCounter := g2.CurrentSpawnedEnemiesCounter + Spawned } ∧
          g2.CurrentSpawnedEnemiesCounter + Spawned
            = g.CurrentSpawnedEnemiesCounter - 1 + Spawned ∧
          g2.CurrentSurvivalGameModeState = g.CurrentSurvivalGameModeState ∧
          g2.StateChangedBroadcasts = g.StateChangedBroadcasts) ∧
      (∀ e,
        TrySpawnWaveEnemies
            { g with CurrentSpawnedEnemiesCounter := g.CurrentSpawnedEnemiesCounter - 1 }
          = Except.error e →
        OnEnemyDestroyed g = Except.error e)) ∧
    (¬ g.TotalSpawnedEnemiesThisWaveCounter < Row.TotalEnemyToSpawnThisWave →
      g.CurrentSpawnedEnemiesCounter - 1 ≤ 0 →
      OnEnemyDestroyed g = Except.ok
        { g with
          CurrentSpawnedEnemiesCounter := 0
          TotalSpawnedEnemiesThisWaveCounter := 0
          CurrentSurvivalGameModeState := EWarriorSurvivalGameModeState.WaveCompleted
          StateChangedBroadcasts :=
            g.StateChangedBroadcasts ++ [EWarriorSurvivalGameModeState.WaveCompleted] }) ∧
    (¬ g.TotalSpawnedEnemiesThisWaveCounter < Row.TotalEnemyToSpawnThisWave →
      ¬ g.CurrentSpawnedEnemiesCounter - 1 ≤ 0 →
      OnEnemyDestroyed g = Except.ok
        { g with CurrentSpawnedEnemiesCounter := g.CurrentSpawnedEnemiesCounter - 1 }) := by
  have hrow1 : GetCurrentWaveSpawnerTableRow
      { g with CurrentSpawnedEnemiesCounter := g.CurrentSpawnedEnemiesCounter - 1 }
      = Except.ok Row := hrow
  have hkeepeq := ShouldKeepSpawnEnemies_of_row hrow1
  refine ⟨fun hlt => ⟨fun Spawned g2 hsp => ?_, fun e hsp => ?_⟩, fun hge hle => ?_,
    fun hge hgt => ?_⟩
  · obtain ⟨_, _, hf, _⟩ := TrySpawnWaveEnemies_ok _ _ _ hsp
    refine ⟨?_, by rw [hf.current], hf.state, hf.broadcasts⟩
    simp only [OnEnemyDestroyed, hkeepeq, hlt, decide_True, hsp]
  · simp only [OnEnemyDestroyed, hkeepeq, hlt, decide_True, hsp]
  · simp only [OnEnemyDestroyed, hkeepeq, hge, decide_False, hle, if_true,
      SetCurrentSurvivalGameModeState]
  · simp only [OnEnemyDestroyed, hkeepeq, hge, decide_False, hgt, if_false]

/-- Witness of C13: in state `InProgress` at 1 of 2 with two live enemies and
the draw 3, `OnEnemyDestroyed` decrements the live count to 1, spawns one
enemy to reach the quota and ends with a live count of 2, the state still
`InProgress`. -/
theorem C13_on_enemy_destroyed_witness :
    ∃ g1, OnEnemyDestroyed
        { sampleGameMode 2 [2] [] with
          CurrentSurvivalGameModeState := EWarriorSurvivalGameModeState.InProgress
          TotalSpawnedEnemiesThisWaveCounter := 1
          CurrentSpawnedEnemiesCounter := 2 } = Except.ok g1 ∧
      g1.CurrentSpawnedEnemiesCounter = 2 ∧
      g1.TotalSpawnedEnemiesThisWaveCounter = 2 ∧
      g1.CurrentSurvivalGameModeState = EWarriorSurvivalGameModeState.InProgress := by
  have h := ((C13_on_enemy_destroyed
    { sampleGameMode 2 [2] [] with
      CurrentSurvivalGameModeState := EWarriorSurvivalGameModeState.InProgress
      TotalSpawnedEnemiesThisWaveCounter := 1
      CurrentSpawnedEnemiesCounter := 2 } _ rfl).1 (by decide)).1 1 _ rfl
  exact ⟨_, h.1, rfl, rfl, rfl⟩

/-- In state `WaveCompleted` the first two blocks of `Tick` do nothing. -/
theorem Tick_of_WaveCompleted (g : AWarriorSurvivalGameMode) (DeltaTime : ℚ)
    (hs : g.CurrentSurvivalGameModeState = EWarriorSurvivalGameModeState.WaveCompleted) :
    Tick g DeltaTime = tickWaveCompleted g DeltaTime := by
  have h1 : tickWaitSpawnNewWave g DeltaTime = g := by
    unfold tickWaitSpawnNewWave
    rw [if_neg (by rw [hs]; decide)]
  have h2 : tickSpawningNewWave g DeltaTime = Except.ok g := by
    unfold tickSpawningNewWave
    rw [if_neg (by rw [hs]; decide)]
  simp only [Tick, h1, h2]

/-- In state `WaveCompleted`, once the wait has elapsed and the incremented
wave count is above the number of waves, `Tick` resets the time, increments
the wave count and sets the state to `AllWavesDone`. -/
theorem Tick_WaveCompleted_done (g : AWarriorSurvivalGameMode) (DeltaTime : ℚ)
    (hs : g.CurrentSurvivalGameModeState = EWarriorSurvivalGameModeState.WaveCompleted)
    (hwait : g.TimePassedSinceStart + DeltaTime ≥ g.SpawnNewWaveWaitTime)
    (hgt : g.CurrentWaveCount + 1 > g.TotalWavesToSpawn) :
    Tick g DeltaTime = Except.ok (SetCurrentSurvivalGameModeState
      { g with TimePassedSinceStart := 0, CurrentWaveCount := g.CurrentWaveCount + 1 }
      EWarriorSurvivalGameModeState.AllWavesDone) := by
  rw [Tick_of_WaveCompleted g DeltaTime hs]
  unfold tickWaveCompleted
  rw [if_pos hs]
  simp only
  rw [if_pos hwait, if_pos (by simpa [HasFinishedAllWaves] using hgt)]

/-- In state `WaveCompleted`, once the wait has elapsed and waves are left,
`Tick` resets the time, increments the wave count, sets the state to
`WaitSpawnNewWave` and preloads the new wave. -/
theorem Tick_WaveCompleted_next (g : AWarriorSurvivalGameMode) (DeltaTime : ℚ)
    (hs : g.CurrentSurvivalGameModeState = EWarriorSurvivalGameModeState.WaveCompleted)
    (hwait : g.TimePassedSinceStart + DeltaTime ≥ g.SpawnNewWaveWaitTime)
    (hle : ¬ g.CurrentWaveCount + 1 > g.TotalWavesToSpawn) :
    Tick g DeltaTime = PreloadNextWaveEnemies (SetCurrentSurvivalGameModeState
      { g with TimePassedSinceStart := 0, CurrentWaveCount := g.CurrentWaveCount + 1 }
      EWarriorSurvivalGameModeState.WaitSpawnNewWave) := by
  rw [Tick_of_WaveCompleted g DeltaTime hs]
  unfold tickWaveCompleted
  rw [if_pos hs]
  simp only
  rw [if_pos hwait, if_neg (by simpa [HasFinishedAllWaves] using hle)]

/-- In state `WaveCompleted`, before the wait has elapsed, `Tick` only adds
the delta to the elapsed time. -/
theorem Tick_WaveCompleted_waiting (g : AWarriorSurvivalGameMode) (DeltaTime : ℚ)
    (hs : g.CurrentSurvivalGameModeState = EWarriorSurvivalGameModeState.WaveCompleted)
    (hwait : ¬ g.TimePassedSinceStart + DeltaTime ≥ g.SpawnNewWaveWaitTime) :
    Tick g DeltaTime = Except.ok
      { g with TimePassedSinceStart := g.TimePassedSinceStart + DeltaTime } := by
  rw [Tick_of_WaveCompleted g DeltaTime hs]
  unfold tickWaveCompleted
  rw [if_pos hs]
  simp only
  rw [if_neg hwait]

/-- With waves left and the row of the current wave in the table,
`PreloadNextWaveEnemies` empties the map and requests the non-null classes of
that row. -/
theorem PreloadNextWaveEnemies_of_row (g : AWarriorSurvivalGameMode)
    (Row : FWarriorEnemyWaveSpawnerTableRow)
    (hfin : ¬ g.CurrentWaveCount > g.TotalWavesToSpawn)
    (hfind : FindRow g.EnemyWaveSpawnerDataTable (RowName.Wave g.CurrentWaveCount) = some Row) :
    PreloadNextWaveEnemies g = Except.ok
      { g with
        PreLoadedEnemyClassMap := []
        World := { g.World with
          RequestedLoads := g.World.RequestedLoads ++
            Row.EnemyWaveSpawnerDefinitions.filterMap
              (fun SpawnerInfo => SpawnerInfo.SoftEnemyClassToSpawn) } } := by
  have h : HasFinishedAllWaves g = false := by simpa [HasFinishedAllWaves] using hfin
  simp only [PreloadNextWaveEnemies, h, Bool.false_eq_true, if_false,
    GetCurrentWaveSpawnerTableRow, hfind]

/-- Claim C14: when the wait in state `WaveCompleted` elapses, `Tick` increases
`CurrentWaveCount` by exactly 1; the new state is `AllWavesDone` if and only
if the new `CurrentWaveCount > TotalWavesToSpawn`, and otherwise (the row of
the new wave being in the table) `WaitSpawnNewWave`, with the preload of the
new wave started: the map emptied and the non-null classes of the new row
requested.  With `TotalWavesToSpawn = 3` and `CurrentWaveCount = 3` the result
is `CurrentWaveCount = 4` and state `AllWavesDone`. -/
theorem C14_wave_advance (g : AWarriorSurvivalGameMode) (DeltaTime : ℚ)
    (hs : g.CurrentSurvivalGameModeState = EWarriorSurvivalGameModeState.WaveCompleted)
    (hwait : g.TimePassedSinceStart + DeltaTime ≥ g.SpawnNewWaveWaitTime) :
    (g.CurrentWaveCount + 1 > g.TotalWavesToSpawn →
      ∃ g1, Tick g DeltaTime = Except.ok g1 ∧
        g1.CurrentWaveCount = g.CurrentWaveCount + 1 ∧
        g1.CurrentSurvivalGameModeState = EWarriorSurvivalGameModeState.AllWavesDone ∧
        g1.PreLoadedEnemyClassMap = g.PreLoadedEnemyClassMap ∧
        g1.World.RequestedLoads = g.World.RequestedLoads) ∧
    (¬ g.CurrentWaveCount + 1 > g.TotalWavesToSpawn →
      ∀ Row, FindRow g.EnemyWaveSpawnerDataTable (RowName.Wave (g.CurrentWaveCount + 1))
          = some Row →
      ∃ g1, Tick g DeltaTime = Except.ok g1 ∧
        g1.CurrentWaveCount = g.CurrentWaveCount + 1 ∧
        g1.CurrentSurvivalGameModeState = EWarriorSurvivalGameModeState.WaitSpawnNewWave ∧
        g1.PreLoadedEnemyClassMap = [] ∧
        g1.World.RequestedLoads = g.World.RequestedLoads ++
          Row.EnemyWaveSpawnerDefinitions.filterMap
            (fun SpawnerInfo => SpawnerInfo.SoftEnemyClassToSpawn)) ∧
    (∀ g1, Tick g DeltaTime = Except.ok g1 →
      g1.CurrentWaveCount = g.CurrentWaveCount + 1 ∧
      (g1.CurrentSurvivalGameModeState = EWarriorSurvivalGameModeState.AllWavesDone ↔
        g1.CurrentWaveCount > g1.TotalWavesToSpawn) ∧
      (¬ g1.CurrentWaveCount > g1.TotalWavesToSpawn →
        g1.CurrentSurvivalGameModeState = EWarriorSurvivalGameModeState.WaitSpawnNewWave)) ∧
    (g.TotalWavesToSpawn = 3 → g.CurrentWaveCount = 3 →
      ∃ g1, Tick g DeltaTime = Except.ok g1 ∧ g1.CurrentWaveCount = 4 ∧
        g1.CurrentSurvivalGameModeState = EWarriorSurvivalGameModeState.AllWavesDone) := by
  have hdone := Tick_WaveCompleted_done g DeltaTime hs hwait
  have hnext := Tick_WaveCompleted_next g DeltaTime hs hwait
  refine ⟨fun hgt => ⟨_, hdone hgt, rfl, rfl, rfl, rfl⟩, fun hle Row hfind => ?_,
    fun g1 hrun => ?_, fun h3 hc => ?_⟩
  · rw [hnext hle]
    exact ⟨_, PreloadNextWaveEnemies_of_row _ Row hle hfind, rfl, rfl, rfl, rfl⟩
  · by_cases hgt : g.CurrentWaveCount + 1 > g.TotalWavesToSpawn
    · rw [hdone hgt] at hrun
      simp only [Except.ok.injEq] at hrun
      subst hrun
      exact ⟨rfl, ⟨fun _ => hgt, fun _ => rfl⟩, fun h => absurd hgt h⟩
    · rw [hnext hgt] at hrun
      obtain ⟨hst, _, hcnt, htot, _⟩ := PreloadNextWaveEnemies_ok _ _ hrun
      have hcnt' : g1.CurrentWaveCount = g.CurrentWaveCount + 1 := hcnt
      have htot' : g1.TotalWavesToSpawn = g.TotalWavesToSpawn := htot
      have hst' : g1.CurrentSurvivalGameModeState
          = EWarriorSurvivalGameModeState.WaitSpawnNewWave := hst
      refine ⟨hcnt', ⟨fun h => ?_, fun h => ?_⟩, fun _ => hst'⟩
      · rw [hst'] at h; exact absurd h (by decide)
      · rw [hcnt', htot'] at h; exact absurd h hgt
  · have hgt : g.CurrentWaveCount + 1 > g.TotalWavesToSpawn := by rw [h3, hc]; decide
    exact ⟨_, hdone hgt, by show g.CurrentWaveCount + 1 = 4; rw [hc]; rfl, rfl⟩

/-- Witness of C14 at the worked example: three waves, wave 3 completed, the
wait of 5 elapsed by a tick of 6: the wave count becomes 4 and the state
`AllWavesDone`. -/
theorem C14_wave_advance_witness :
    ∃ g1, Tick
        { sampleGameMode 2 [] [] with
          CurrentSurvivalGameModeState := EWarriorSurvivalGameModeState.WaveCompleted
          TotalWavesToSpawn := 3
          CurrentWaveCount := 3 } 6 = Except.ok g1 ∧
      g1.CurrentWaveCount = 4 ∧
      g1.CurrentSurvivalGameModeState = EWarriorSurvivalGameModeState.AllWavesDone :=
  (C14_wave_advance
    { sampleGameMode 2 [] [] with
      CurrentSurvivalGameModeState := EWarriorSurvivalGameModeState.WaveCompleted
      TotalWavesToSpawn := 3
      CurrentWaveCount := 3 } 6 rfl
    (by norm_num [sampleGameMode, AWarriorSurvivalGameMode.defaults])).2.2.2 rfl rfl

/-- Evaluation for claim C15: the wait in state `WaveCompleted` is tested
against `SpawnNewWaveWaitTime`, `WaveCompletedWaitTime` is never read.  With
`SpawnNewWaveWaitTime = 5`, `WaveCompletedWaitTime = 10`, no time elapsed and a
tick of 6, `Tick` leaves `WaveCompleted` although `6 < 10`; with
`SpawnNewWaveWaitTime = 10`, `WaveCompletedWaitTime = 5` and the same tick it
stays in `WaveCompleted` although `6 >= 5`. -/
theorem C15_wave_completed_wait_time_unused :
    (∃ g1, Tick
        { sampleGameMode 2 [] [] with
          CurrentSurvivalGameModeState := EWarriorSurvivalGameModeState.WaveCompleted
          SpawnNewWaveWaitTime := 5
          WaveCompletedWaitTime := 10 } 6 = Except.ok g1 ∧
      g1.CurrentSurvivalGameModeState = EWarriorSurvivalGameModeState.AllWavesDone ∧
      g1.CurrentWaveCount = 2 ∧ (0 : ℚ) + 6 < 10) ∧
    (∃ g1, Tick
        { sampleGameMode 2 [] [] with
          CurrentSurvivalGameModeState := EWarriorSurvivalGameModeState.WaveCompleted
          SpawnNewWaveWaitTime := 10
          WaveCompletedWaitTime := 5 } 6 = Except.ok g1 ∧
      g1.CurrentSurvivalGameModeState = EWarriorSurvivalGameModeState.WaveCompleted ∧
      g1.CurrentWaveCount = 1 ∧ (0 : ℚ) + 6 ≥ 5) := by
  constructor
  · exact ⟨_, Tick_WaveCompleted_done _ 6 rfl
      (by norm_num [sampleGameMode, AWarriorSurvivalGameMode.defaults]) (by decide),
      rfl, rfl, by norm_num⟩
  · exact ⟨_, Tick_WaveCompleted_waiting _ 6 rfl
      (by norm_num [sampleGameMode, AWarriorSurvivalGameMode.defaults]),
      rfl, rfl, by norm_num⟩

/-- Claim C16 fails on the code: after `BeginPlay` on a one-wave table (quota
1) and the completion of the preload, an enemy is registered and destroyed
(the refill spawns one enemy while the state is still `WaitSpawnNewWave`), then
that enemy is destroyed: `OnEnemyDestroyed` sets `WaveCompleted` directly from
`WaitSpawnNewWave`, which is not a listed change. -/
theorem C16_sequential_counterexample :
    ∃ g0 g1,
      BeginPlay (some (sampleTable 1))
        { LevelTargetPoints := 1, RandomDraws := [], SpawnOutcomes := [],
          SpawnedEnemyClasses := [], RequestedLoads := [] } = Except.ok g0 ∧
      g0.CurrentSurvivalGameModeState = EWarriorSurvivalGameModeState.WaitSpawnNewWave ∧
      g0.CurrentWaveCount = 1 ∧
      callsGameMode g0
        [GameModeCall.OnEnemyClassLoaded 7 true, GameModeCall.RegisterSpawnedEnemy [some 1],
         GameModeCall.OnEnemyDestroyed, GameModeCall.OnEnemyDestroyed] = Except.ok g1 ∧
      g1.CurrentSurvivalGameModeState = EWarriorSurvivalGameModeState.WaveCompleted ∧
      g1.StateChangedBroadcasts
        = [EWarriorSurvivalGameModeState.WaitSpawnNewWave,
           EWarriorSurvivalGameModeState.WaveCompleted] ∧
      ¬ SequentialChange EWarriorSurvivalGameModeState.WaitSpawnNewWave
          EWarriorSurvivalGameModeState.WaveCompleted :=
  ⟨_, _, rfl, rfl, rfl, rfl, rfl, rfl, by decide⟩

/-- Claim C16 as amended: over every sequence of `Tick`, `OnEnemyDestroyed`,
`RegisterSpawnedEnemy` and load-completion calls that returns and in which
`OnEnemyDestroyed` is only called in state `InProgress`, every change of
state is one of the five listed changes; one `Tick` makes only listed changes
(possibly two in a row), `AllWavesDone` being set only with `CurrentWaveCount
> TotalWavesToSpawn`; and `OnEnemyDestroyed`, which tests no state, either
leaves the state as it is or sets `WaveCompleted` from whatever state it is
called in. -/
theorem C16_sequential_when_guarded (g g1 : AWarriorSurvivalGameMode)
    (calls : List GameModeCall)
    (hrun : callsGameMode g calls = Except.ok g1)
    (hguard : DestroyedOnlyInProgress g calls) :
    (∃ new, g1.StateChangedBroadcasts = g.StateChangedBroadcasts ++ new ∧
      List.Chain SequentialChange g.CurrentSurvivalGameModeState new ∧
      g1.CurrentSurvivalGameModeState = new.getLastD g.CurrentSurvivalGameModeState) ∧
    (∀ DeltaTime g2, Tick g DeltaTime = Except.ok g2 →
      ∃ new, g2.StateChangedBroadcasts = g.StateChangedBroadcasts ++ new ∧
        List.Chain SequentialChange g.CurrentSurvivalGameModeState new ∧
        g2.CurrentSurvivalGameModeState = new.getLastD g.CurrentSurvivalGameModeState ∧
        (EWarriorSurvivalGameModeState.AllWavesDone ∈ new →
          g2.CurrentWaveCount > g2.TotalWavesToSpawn)) ∧
    (∀ g2, OnEnemyDestroyed g = Except.ok g2 →
      (g2.CurrentSurvivalGameModeState = g.CurrentSurvivalGameModeState ∧
        g2.StateChangedBroadcasts = g.StateChangedBroadcasts) ∨
      (g2.CurrentSurvivalGameModeState = EWarriorSurvivalGameModeState.WaveCompleted ∧
        g2.StateChangedBroadcasts
          = g.StateChangedBroadcasts ++ [EWarriorSurvivalGameModeState.WaveCompleted])) := by
  refine ⟨callsGameMode_trace calls g g1 hrun hguard, fun DeltaTime g2 h => ?_, fun g2 h => ?_⟩
  · obtain ⟨new, ⟨hb, hc, hs⟩, _, hall⟩ := Tick_trace g g2 DeltaTime h
    exact ⟨new, hb, hc, hs, hall⟩
  · rcases OnEnemyDestroyed_ok g g2 h with h1 | ⟨hs, hb, _⟩
    · exact Or.inl h1
    · exact Or.inr ⟨hs, hb⟩

/-- Witness of the amended C16: in state `InProgress` with the quota met (1 of
1) and one live enemy, a second enemy is registered and both are destroyed;
the only state change is `InProgress -> WaveCompleted`. -/
theorem C16_sequential_when_guarded_witness :
    ∃ g1 new,
      callsGameMode
        { sampleGameMode 1 [] [] with
          CurrentSurvivalGameModeState := EWarriorSurvivalGameModeState.InProgress
          TotalSpawnedEnemiesThisWaveCounter := 1
          CurrentSpawnedEnemiesCounter := 1 }
        [GameModeCall.RegisterSpawnedEnemy [some 3], GameModeCall.OnEnemyDestroyed,
         GameModeCall.OnEnemyDestroyed] = Except.ok g1 ∧
      g1.StateChangedBroadcasts = [] ++ new ∧
      List.Chain SequentialChange EWarriorSurvivalGameModeState.InProgress new ∧
      g1.CurrentSurvivalGameModeState
        = new.getLastD EWarriorSurvivalGameModeState.InProgress ∧
      g1.CurrentSurvivalGameModeState = EWarriorSurvivalGameModeState.WaveCompleted := by
  obtain ⟨new, hb, hc, hs⟩ :=
    (C16_sequential_when_guarded
      { sampleGameMode 1 [] [] with
        CurrentSurvivalGameModeState := EWarriorSurvivalGameModeState.InProgress
        TotalSpawnedEnemiesThisWaveCounter := 1
        CurrentSpawnedEnemiesCounter := 1 } _
      [GameModeCall.RegisterSpawnedEnemy [some 3], GameModeCall.OnEnemyDestroyed,
       GameModeCall.OnEnemyDestroyed]
      rfl ⟨trivial, ⟨rfl, ⟨rfl, trivial⟩⟩⟩).1
  exact ⟨_, new, rfl, hb, hc, hs, rfl⟩

/-- Witness of C17: with one target point and row `Wave1` holding a null entry
followed by an entry of class 9 that was never preloaded, the loop skips the
null entry, reaches the second entry and halts on `FindChecked`. -/
theorem C17_fatal_iff_configuration_error_witness :
    TrySpawnWaveEnemies
        { AWarriorSurvivalGameMode.defaults
            [(RowName.Wave 1,
              { EnemyWaveSpawnerDefinitions :=
                  [{ SoftEnemyClassToSpawn := none, MinPerSpawnCount := 1,
                     MaxPerSpawnCount := 3 },
                   { SoftEnemyClassToSpawn := some 9, MinPerSpawnCount := 1,
                     MaxPerSpawnCount := 3 }],
                TotalEnemyToSpawnThisWave := 2 })]
            { LevelTargetPoints := 1, RandomDraws := [], SpawnOutcomes := [],
              SpawnedEnemyClasses := [], RequestedLoads := [] } with
          PreLoadedEnemyClassMap := [7] }
      = Except.error SurvivalFatal.EnemyClassNotPreloaded :=
  (C17_fatal_iff_configuration_error _).2.2.1.mpr
    ⟨(by decide), _, [FWarriorEnemyWaveSpawnerInfo.mk none 1 3], _, [], 9, _, _, rfl, rfl, rfl,
      (by decide), rfl⟩

/-! ## Theorems: effect application entry points -/

/-- With distinct keys, the magnitude found under a tag in the tail of the map
is absent when the head carries that tag. -/
theorem findSetByCaller_tail_none (t : GameplayTag) (v : ℚ) (rest : List (GameplayTag × ℚ))
    (hnd : (((t, v) :: rest).map Prod.fst).Nodup) : findSetByCaller rest t = none := by
  simp only [List.map_cons, List.nodup_cons] at hnd
  simp only [findSetByCaller, Option.map_eq_none', List.find?_eq_none]
  intro p hp
  simp only [decide_eq_true_eq]
  intro hpt
  exact hnd.1 (List.mem_map.mpr ⟨p, hp, hpt⟩)

/-- Looking a tag up in a map whose head carries another tag skips the head. -/
theorem findSetByCaller_cons_ne (t Tag : GameplayTag) (v : ℚ) (rest : List (GameplayTag × ℚ))
    (hne : t ≠ Tag) : findSetByCaller ((t, v) :: rest) Tag = findSetByCaller rest Tag := by
  simp [findSetByCaller, List.find?_cons, hne]

/-- Looking a tag up in a map whose head carries that tag finds the head. -/
theorem findSetByCaller_cons_self (t : GameplayTag) (v : ℚ) (rest : List (GameplayTag × ℚ)) :
    findSetByCaller ((t, v) :: rest) t = some v := by
  simp [findSetByCaller, List.find?_cons]

/-- The loop over a set-by-caller map with distinct keys, started from any
values of the locals, ends with each local holding the magnitude stored under
its tag (truncated for the two counts) when there is one, and its starting
value otherwise. -/
theorem foldl_readSetByCaller (mags : List (GameplayTag × ℚ)) :
    ∀ acc : SetByCallerLocals, (mags.map Prod.fst).Nodup →
      mags.foldl readSetByCaller acc =
        { BaseDamage :=
            (findSetByCaller mags GameplayTag.Shared_SetByCaller_BaseDamage).getD acc.BaseDamage
          UsedLightAttackComboCount :=
            ((findSetByCaller mags GameplayTag.Player_SetByCaller_AttackType_Light).map
              truncToInt32).getD acc.UsedLightAttackComboCount
          UsedHeavyAttackComboCount :=
            ((findSetByCaller mags GameplayTag.Player_SetByCaller_AttackType_Heavy).map
              truncToInt32).getD acc.UsedHeavyAttackComboCount } := by
  induction mags with
  | nil => intro acc _; rfl
  | cons p rest ih =>
    intro acc hnd
    obtain ⟨t, v⟩ := p
    have hrest : (rest.map Prod.fst).Nodup := by
      simp only [List.map_cons, List.nodup_cons] at hnd
      exact hnd.2
    have hnone := findSetByCaller_tail_none t v rest hnd
    rw [List.foldl_cons, ih _ hrest]
    by_cases hB : t = GameplayTag.Shared_SetByCaller_BaseDamage
    · subst hB
      rw [findSetByCaller_cons_self, hnone,
        findSetByCaller_cons_ne _ _ _ _ (by decide), findSetByCaller_cons_ne _ _ _ _ (by decide)]
      simp [readSetByCaller]
    · by_cases hL : t = GameplayTag.Player_SetByCaller_AttackType_Light
      · subst hL
        rw [findSetByCaller_cons_self, hnone,
          findSetByCaller_cons_ne _ _ _ _ (by decide),
          findSetByCaller_cons_ne _ _ _ _ (by decide)]
        simp [readSetByCaller]
      · by_cases hH : t = GameplayTag.Player_SetByCaller_AttackType_Heavy
        · subst hH
          rw [findSetByCaller_cons_self, hnone,
            findSetByCaller_cons_ne _ _ _ _ (by decide),
            findSetByCaller_cons_ne _ _ _ _ (by decide)]
          simp [readSetByCaller]
        · rw [findSetByCaller_cons_ne _ _ _ _ hB, findSetByCaller_cons_ne _ _ _ _ hL,
            findSetByCaller_cons_ne _ _ _ _ hH]
          simp [readSetByCaller, hB, hL, hH]

/-- The scan of a set-by-caller map with distinct keys reads exactly the three
magnitudes of the base-damage, Light and Heavy tags. -/
theorem scanSetByCaller_eq (mags : List (GameplayTag × ℚ))
    (hnd : (mags.map Prod.fst).Nodup) :
    scanSetByCaller mags =
      { BaseDamage := SetByCallerMagnitude mags GameplayTag.Shared_SetByCaller_BaseDamage
        UsedLightAttackComboCount :=
          truncToInt32
            (SetByCallerMagnitude mags GameplayTag.Player_SetByCaller_AttackType_Light)
        UsedHeavyAttackComboCount :=
          truncToInt32
            (SetByCallerMagnitude mags GameplayTag.Player_SetByCaller_AttackType_Heavy) } := by
  have h0 : truncToInt32 0 = 0 := by simp [truncToInt32]
  unfold scanSetByCaller
  rw [foldl_readSetByCaller mags _ hnd]
  simp only [SetByCallerMagnitude, SetByCallerLocals.init]
  congr 1
  · cases findSetByCaller mags GameplayTag.Player_SetByCaller_AttackType_Light <;> simp [h0]
  · cases findSetByCaller mags GameplayTag.Player_SetByCaller_AttackType_Heavy <;> simp [h0]

/-- With distinct keys, a magnitude is found under a tag exactly when the pair
is in the map. -/
theorem findSetByCaller_eq_some_iff (mags : List (GameplayTag × ℚ)) (Tag : GameplayTag) (v : ℚ) :
    (mags.map Prod.fst).Nodup → (findSetByCaller mags Tag = some v ↔ (Tag, v) ∈ mags) := by
  induction mags with
  | nil => intro _; simp [findSetByCaller]
  | cons p rest ih =>
    intro hnd
    obtain ⟨t, w⟩ := p
    have hrest : (rest.map Prod.fst).Nodup := by
      simp only [List.map_cons, List.nodup_cons] at hnd
      exact hnd.2
    by_cases ht : t = Tag
    · subst ht
      rw [findSetByCaller_cons_self]
      have hnot : ∀ u, (t, u) ∉ rest := by
        intro u hu
        simp only [List.map_cons, List.nodup_cons] at hnd
        exact hnd.1 (List.mem_map.mpr ⟨(t, u), hu, rfl⟩)
      constructor
      · intro h
        simp only [Option.some.injEq] at h
        subst h
        exact List.mem_cons_self _ _
      · intro h
        rcases List.mem_cons.mp h with h | h
        · simp only [Prod.mk.injEq] at h
          rw [h.2]
        · exact absurd h (hnot v)
    · rw [findSetByCaller_cons_ne _ _ _ _ ht, ih hrest]
      constructor
      · exact fun h => List.mem_cons_of_mem _ h
      · intro h
        rcases List.mem_cons.mp h with h | h
        · simp only [Prod.mk.injEq] at h
          exact absurd h.1.symm ht
        · exact h

/-- Reordering a set-by-caller map with distinct keys changes no magnitude. -/
theorem SetByCallerMagnitude_perm (mags1 mags2 : List (GameplayTag × ℚ)) (Tag : GameplayTag)
    (hperm : mags1.Perm mags2) (hnd : (mags1.map Prod.fst).Nodup) :
    SetByCallerMagnitude mags1 Tag = SetByCallerMagnitude mags2 Tag := by
  have hnd2 : (mags2.map Prod.fst).Nodup := (hperm.map Prod.fst).nodup_iff.mp hnd
  have h : findSetByCaller mags1 Tag = findSetByCaller mags2 Tag := by
    apply Option.ext
    intro v
    rw [Option.mem_def, Option.mem_def, findSetByCaller_eq_some_iff mags1 Tag v hnd,
      findSetByCaller_eq_some_iff mags2 Tag v hnd2]
    exact hperm.mem_iff
  simp only [SetByCallerMagnitude, h]

/-- The final damage of a set-by-caller map with distinct keys, in terms of
its three magnitudes only. -/
theorem FinalDamageDone_eq_magnitudes (a d : ℚ) (mags : List (GameplayTag × ℚ))
    (hnd : (mags.map Prod.fst).Nodup) :
    FinalDamageDone a d mags =
      scaleAndDivide a d (SetByCallerMagnitude mags GameplayTag.Shared_SetByCaller_BaseDamage)
        (truncToInt32
          (SetByCallerMagnitude mags GameplayTag.Player_SetByCaller_AttackType_Light))
        (truncToInt32
          (SetByCallerMagnitude mags GameplayTag.Player_SetByCaller_AttackType_Heavy)) := by
  rw [FinalDamageDone_eq, scanSetByCaller_eq mags hnd]

/-- Claim C19: two executions with the same attack power and defense power
whose set-by-caller maps (distinct keys) agree on the magnitudes of the
base-damage, Light and Heavy tags compute the same final damage and produce
the same output; in particular the output does not change when the map is
iterated in another order or holds one more tag of another kind, and the
modifiers an execution adds do not depend on the output it is handed, that is
on what was executed before. -/
theorem C19_damage_determinism (a d : ℚ) (mags1 mags2 : List (GameplayTag × ℚ))
    (out : List FGameplayModifierEvaluatedData)
    (hnd1 : (mags1.map Prod.fst).Nodup) (hnd2 : (mags2.map Prod.fst).Nodup)
    (hB : SetByCallerMagnitude mags1 GameplayTag.Shared_SetByCaller_BaseDamage
      = SetByCallerMagnitude mags2 GameplayTag.Shared_SetByCaller_BaseDamage)
    (hL : SetByCallerMagnitude mags1 GameplayTag.Player_SetByCaller_AttackType_Light
      = SetByCallerMagnitude mags2 GameplayTag.Player_SetByCaller_AttackType_Light)
    (hH : SetByCallerMagnitude mags1 GameplayTag.Player_SetByCaller_AttackType_Heavy
      = SetByCallerMagnitude mags2 GameplayTag.Player_SetByCaller_AttackType_Heavy) :
    FinalDamageDone a d mags1 = FinalDamageDone a d mags2 ∧
    Execute_Implementation a d mags1 out = Execute_Implementation a d mags2 out ∧
    (∀ mags3, mags1.Perm mags3 →
      Execute_Implementation a d mags3 out = Execute_Implementation a d mags1 out) ∧
    (∀ (id : Nat) (v : ℚ), GameplayTag.Other id ∉ mags1.map Prod.fst →
      Execute_Implementation a d ((GameplayTag.Other id, v) :: mags1) out
        = Execute_Implementation a d mags1 out) ∧
    Execute_Implementation a d mags1 out = out ++ Execute_Implementation a d mags1 [] := by
  have hfd : FinalDamageDone a d mags1 = FinalDamageDone a d mags2 := by
    rw [FinalDamageDone_eq_magnitudes a d mags1 hnd1,
      FinalDamageDone_eq_magnitudes a d mags2 hnd2, hB, hL, hH]
  refine ⟨hfd, ?_, ?_, ?_, ?_⟩
  · simp only [Execute_Implementation, hfd]
  · intro mags3 hperm
    have hnd3 : (mags3.map Prod.fst).Nodup := (hperm.map Prod.fst).nodup_iff.mp hnd1
    have h : FinalDamageDone a d mags3 = FinalDamageDone a d mags1 := by
      rw [FinalDamageDone_eq_magnitudes a d mags1 hnd1,
        FinalDamageDone_eq_magnitudes a d mags3 hnd3,
        SetByCallerMagnitude_perm mags1 mags3 _ hperm hnd1,
        SetByCallerMagnitude_perm mags1 mags3 _ hperm hnd1,
        SetByCallerMagnitude_perm mags1 mags3 _ hperm hnd1]
    simp only [Execute_Implementation, h]
  · intro id v hid
    have hnd3 : (((GameplayTag.Other id, v) :: mags1).map Prod.fst).Nodup := by
      simp only [List.map_cons, List.nodup_cons]
      exact ⟨hid, hnd1⟩
    have h : FinalDamageDone a d ((GameplayTag.Other id, v) :: mags1)
        = FinalDamageDone a d mags1 := by
      rw [FinalDamageDone_eq_magnitudes a d mags1 hnd1,
        FinalDamageDone_eq_magnitudes a d _ hnd3]
      simp only [SetByCallerMagnitude, findSetByCaller_cons_ne _ _ _ _
        (show GameplayTag.Other id ≠ GameplayTag.Shared_SetByCaller_BaseDamage by simp),
        findSetByCaller_cons_ne _ _ _ _
        (show GameplayTag.Other id ≠ GameplayTag.Player_SetByCaller_AttackType_Light by simp),
        findSetByCaller_cons_ne _ _ _ _
        (show GameplayTag.Other id ≠ GameplayTag.Player_SetByCaller_AttackType_Heavy by simp)]
    simp only [Execute_Implementation, h]
  · unfold Execute_Implementation
    simp only
    split <;> simp

/-- Witness of C19: the map of the first worked example and a reordered map
with one more tag give the same output, the `Override` of `DamageTaken` by
44. -/
theorem C19_damage_determinism_witness :
    Execute_Implementation 10 5
        [(GameplayTag.Shared_SetByCaller_BaseDamage, 20),
         (GameplayTag.Player_SetByCaller_AttackType_Light, 3)] []
      = Execute_Implementation 10 5
        [(GameplayTag.Other 1, 99), (GameplayTag.Player_SetByCaller_AttackType_Light, 3),
         (GameplayTag.Shared_SetByCaller_BaseDamage, 20)] [] :=
  (C19_damage_determinism 10 5
    [(GameplayTag.Shared_SetByCaller_BaseDamage, 20),
     (GameplayTag.Player_SetByCaller_AttackType_Light, 3)]
    [(GameplayTag.Other 1, 99), (GameplayTag.Player_SetByCaller_AttackType_Light, 3),
     (GameplayTag.Shared_SetByCaller_BaseDamage, 20)] []
    (by decide) (by decide)
    (by simp [SetByCallerMagnitude, findSetByCaller])
    (by simp [SetByCallerMagnitude, findSetByCaller])
    (by simp [SetByCallerMagnitude, findSetByCaller])).2.1

/-- A clamped value divided by a positive maximum lies in `[0, 1]`. -/
theorem Clamp_div_range (X Max : ℚ) (h : 0 < Max) :
    0 ≤ Clamp X 0 Max / Max ∧ Clamp X 0 Max / Max ≤ 1 :=
  ⟨div_nonneg (Clamp_nonneg X Max) (le_of_lt h),
   (div_le_one h).mpr (Clamp_le_max X Max (le_of_lt h))⟩

/-- Claim C20: the executed `CurrentHealth` modifier with raw value `raw`
returns with `currentHealth = clamp(raw, 0, maxHealth)` (a raw value already
in `[0, maxHealth]` is stored unchanged) and broadcasts exactly
`currentHealth / maxHealth`; and on each of the Health, Rage and DamageTaken
paths every health fraction broadcast lies in `[0, 1]` when `maxHealth > 0`,
every rage fraction in `[0, 1]` when `maxRage > 0`. -/
theorem C20_health_path_and_fraction_range (Avatar : Option IPawnUIInterface)
    (ui : IPawnUIInterface) (c : Combatant) (raw : ℚ)
    (hui : resolvePawnUI Avatar c.Attributes = some ui) (hcomp : ui.PawnUIComponent = true) :
    (∃ c1, executeModifier Avatar c (EAttribute.CurrentHealth, raw) = Except.ok c1 ∧
      c1.Attributes.CurrentHealth = Clamp raw 0 c.Attributes.MaxHealth ∧
      (0 ≤ raw → raw ≤ c.Attributes.MaxHealth → c1.Attributes.CurrentHealth = raw) ∧
      c1.Broadcasts = c.Broadcasts ++
        [UIBroadcast.OnCurrentHealthChanged
          (c1.Attributes.CurrentHealth / c1.Attributes.MaxHealth)]) ∧
    (∀ Attribute, IsVital Attribute →
      ∃ c1 new, executeModifier Avatar c (Attribute, raw) = Except.ok c1 ∧
        c1.Broadcasts = c.Broadcasts ++ new ∧
        ∀ b ∈ new,
          (∀ x, b = UIBroadcast.OnCurrentHealthChanged x → 0 < c.Attributes.MaxHealth →
            0 ≤ x ∧ x ≤ 1) ∧
          (∀ x, b = UIBroadcast.OnCurrentRageChanged x → 0 < c.Attributes.MaxRage →
            0 ≤ x ∧ x ≤ 1)) := by
  have hok : ∀ Attribute, executeModifier Avatar c (Attribute, raw) =
      Except.ok (attributeBranches ui Attribute
        { c with Attributes :=
            { c.Attributes.setValue Attribute raw with CachedPawnUIInterface := some ui } }) := by
    intro Attribute
    have hui1 : resolvePawnUI Avatar (c.Attributes.setValue Attribute raw) = some ui := by
      rw [resolvePawnUI_setValue]; exact hui
    exact PostGameplayEffectExecute_ok Avatar ui Attribute _ hui1 hcomp
  refine ⟨⟨_, hok EAttribute.CurrentHealth, ?_⟩, fun Attribute hvital => ?_⟩
  · simp only [attributeBranches, healthBranch, UWarriorAttributeSet.setValue, if_true,
      reduceCtorEq, if_false]
    refine ⟨trivial, fun h0 h1 => ?_, trivial⟩
    simp [Clamp, h0, h1]
  · rcases hvital with h | h | h <;> subst h
    · refine ⟨_, [UIBroadcast.OnCurrentHealthChanged
        (Clamp raw 0 c.Attributes.MaxHealth / c.Attributes.MaxHealth)],
        hok EAttribute.CurrentHealth, ?_, ?_⟩
      · simp [attributeBranches, healthBranch, UWarriorAttributeSet.setValue]
      · intro b hb
        rw [List.mem_singleton] at hb
        subst hb
        refine ⟨fun x hx hpos => ?_, fun x hx _ => by simp at hx⟩
        simp only [UIBroadcast.OnCurrentHealthChanged.injEq] at hx
        rw [← hx]
        exact Clamp_div_range _ _ hpos
    · refine ⟨_, if ui.HeroUIComponent then [UIBroadcast.OnCurrentRageChanged
        (Clamp raw 0 c.Attributes.MaxRage / c.Attributes.MaxRage)] else [],
        hok EAttribute.CurrentRage, ?_, ?_⟩
      · cases hh : ui.HeroUIComponent <;>
          simp [attributeBranches, rageBranch, UWarriorAttributeSet.setValue, hh]
      · intro b hb
        cases hh : ui.HeroUIComponent
        · rw [hh] at hb; simp at hb
        · rw [hh] at hb
          simp only [if_true, List.mem_singleton] at hb
          subst hb
          refine ⟨fun x hx _ => by simp at hx, fun x hx hpos => ?_⟩
          simp only [UIBroadcast.OnCurrentRageChanged.injEq] at hx
          rw [← hx]
          exact Clamp_div_range _ _ hpos
    · refine ⟨_, [UIBroadcast.OnCurrentHealthChanged
        (Clamp (c.Attributes.CurrentHealth - raw) 0 c.Attributes.MaxHealth
          / c.Attributes.MaxHealth)],
        hok EAttribute.DamageTaken, ?_, ?_⟩
      · simp [attributeBranches, damageBranch, UWarriorAttributeSet.setValue]
      · intro b hb
        rw [List.mem_singleton] at hb
        subst hb
        refine ⟨fun x hx hpos => ?_, fun x hx _ => by simp at hx⟩
        simp only [UIBroadcast.OnCurrentHealthChanged.injEq] at hx
        rw [← hx]
        exact Clamp_div_range _ _ hpos

/-- Witness of C20: a hero with `maxHealth = 100` gets the raw health value
150; the stored health is 100 and the fraction 1 is broadcast. -/
theorem C20_health_path_and_fraction_range_witness :
    ∃ c1, executeModifier (some AWarriorHeroCharacter.PawnUI)
        { Attributes := { UWarriorAttributeSet.ctor with MaxHealth := 100 },
          Tags := [], Broadcasts := [] } (EAttribute.CurrentHealth, 150) = Except.ok c1 ∧
      c1.Attributes.CurrentHealth = 100 ∧
      c1.Broadcasts = [UIBroadcast.OnCurrentHealthChanged 1] := by
  obtain ⟨c1, hrun, hval, _, hb⟩ :=
    (C20_health_path_and_fraction_range (some AWarriorHeroCharacter.PawnUI)
      AWarriorHeroCharacter.PawnUI
      { Attributes := { UWarriorAttributeSet.ctor with MaxHealth := 100 },
        Tags := [], Broadcasts := [] } 150 rfl rfl).1
  have hclamp : Clamp 150 0 (100 : ℚ) = 100 := by norm_num [Clamp]
  have hmax : c1.Attributes.MaxHealth = 100 := by
    have h := hrun
    simp only [executeModifier, PostGameplayEffectExecute, resolvePawnUI,
      UWarriorAttributeSet.setValue, UWarriorAttributeSet.ctor, AWarriorHeroCharacter.PawnUI,
      Bool.true_eq_false, if_false, Except.ok.injEq] at h
    rw [← h]
    simp [attributeBranches, healthBranch]
  have hcur : c1.Attributes.CurrentHealth = 100 := hval.trans hclamp
  refine ⟨c1, hrun, hcur, ?_⟩
  rw [hb, hcur, hmax]
  norm_num

/-! ## Theorems: frame of the attribute hook -/

/-- The executed modifier passes both fatal checks when the interface resolves
and has a pawn UI component; the result is that of the attribute branches on
the written value. -/
theorem executeModifier_ok (Avatar : Option IPawnUIInterface) (ui : IPawnUIInterface)
    (c : Combatant) (Attribute : EAttribute) (Value : ℚ)
    (hui : resolvePawnUI Avatar c.Attributes = some ui) (hcomp : ui.PawnUIComponent = true) :
    executeModifier Avatar c (Attribute, Value) =
      Except.ok (attributeBranches ui Attribute
        { c with Attributes :=
            { c.Attributes.setValue Attribute Value with CachedPawnUIInterface := some ui } }) := by
  have hui1 : resolvePawnUI Avatar (c.Attributes.setValue Attribute Value) = some ui := by
    rw [resolvePawnUI_setValue]; exact hui
  exact PostGameplayEffectExecute_ok Avatar ui Attribute _ hui1 hcomp

/-- Claim C24 fails on the code: a hero that carries the Dead tag with
`currentHealth = 0` and `maxHealth = 100` takes 10 damage and the hook
broadcasts the health fraction `0`; taking the damage value `-20` it sets
`currentHealth` to 20.  The DamageTaken branch does not look at the Dead tag
before it runs. -/
theorem C24_dead_combatant_counterexample :
    (∃ c1, executeModifier (some AWarriorHeroCharacter.PawnUI)
        { Attributes := { UWarriorAttributeSet.ctor with MaxHealth := 100, CurrentHealth := 0 },
          Tags := [GameplayTag.Shared_Status_Dead], Broadcasts := [] }
        (EAttribute.DamageTaken, 10) = Except.ok c1 ∧
      c1.Broadcasts = [UIBroadcast.OnCurrentHealthChanged 0]) ∧
    (∃ c1, executeModifier (some AWarriorHeroCharacter.PawnUI)
        { Attributes := { UWarriorAttributeSet.ctor with MaxHealth := 100, CurrentHealth := 0 },
          Tags := [GameplayTag.Shared_Status_Dead], Broadcasts := [] }
        (EAttribute.DamageTaken, -20) = Except.ok c1 ∧
      c1.Attributes.CurrentHealth = 20 ∧
      c1.Broadcasts = [UIBroadcast.OnCurrentHealthChanged (1 / 5)]) := by
  constructor
  · refine ⟨_, executeModifier_ok _ AWarriorHeroCharacter.PawnUI _ _ _ rfl rfl, ?_⟩
    simp [attributeBranches, damageBranch, UWarriorAttributeSet.setValue,
      UWarriorAttributeSet.ctor, Clamp]
  · refine ⟨_, executeModifier_ok _ AWarriorHeroCharacter.PawnUI _ _ _ rfl rfl, ?_, ?_⟩
    · simp [attributeBranches, damageBranch, UWarriorAttributeSet.setValue,
        UWarriorAttributeSet.ctor, Clamp]
      norm_num
    · simp [attributeBranches, damageBranch, UWarriorAttributeSet.setValue,
        UWarriorAttributeSet.ctor, Clamp]
      norm_num

/-- Claim C24 as amended: for a combatant that already carries the Dead tag,
the hook on `DamageTaken` still runs for every damage value `d`: it stores
`clamp(oldHealth - d, 0, maxHealth)` as `currentHealth` and broadcasts the
health fraction; only the tag container is unchanged.  When the combatant is
at `currentHealth = 0` and `d >= 0` (with `maxHealth >= 0`) the stored health
is again `0`. -/
theorem C24_dead_combatant_still_processed (Avatar : Option IPawnUIInterface)
    (ui : IPawnUIInterface) (c : Combatant) (d : ℚ)
    (hui : resolvePawnUI Avatar c.Attributes = some ui) (hcomp : ui.PawnUIComponent = true)
    (hdead : HasMatchingGameplayTag c.Tags GameplayTag.Shared_Status_Dead = true) :
    ∃ c1, executeModifier Avatar c (EAttribute.DamageTaken, d) = Except.ok c1 ∧
      c1.Attributes.CurrentHealth
        = Clamp (c.Attributes.CurrentHealth - d) 0 c.Attributes.MaxHealth ∧
      c1.Tags = c.Tags ∧
      c1.Broadcasts = c.Broadcasts ++
        [UIBroadcast.OnCurrentHealthChanged
          (c1.Attributes.CurrentHealth / c1.Attributes.MaxHealth)] ∧
      (c.Attributes.CurrentHealth = 0 → 0 ≤ d → 0 ≤ c.Attributes.MaxHealth →
        c1.Attributes.CurrentHealth = 0) := by
  refine ⟨_, executeModifier_ok Avatar ui c EAttribute.DamageTaken d hui hcomp, ?_⟩
  simp only [attributeBranches, damageBranch, UWarriorAttributeSet.setValue, if_true,
    reduceCtorEq, if_false]
  refine ⟨trivial, ?_, trivial, fun h0 hd hmax => ?_⟩
  · split
    · exact AddGameplayTagToActorIfNone_of_has _ _ hdead
    · rfl
  · rw [h0]
    simp only [Clamp]
    rw [max_eq_right]
    exact le_trans (min_le_left _ _) (by linarith)

/-- Witness of the amended C24: a dead enemy at health 0 of 100 takes 10
damage: the health is 0, the tags are unchanged and one fraction is
broadcast. -/
theorem C24_dead_combatant_still_processed_witness :
    ∃ c1, executeModifier (some AWarriorEnemyCharacter.PawnUI)
        { Attributes := { UWarriorAttributeSet.ctor with MaxHealth := 100, CurrentHealth := 0 },
          Tags := [GameplayTag.Shared_Status_Dead], Broadcasts := [] }
        (EAttribute.DamageTaken, 10) = Except.ok c1 ∧
      c1.Attributes.CurrentHealth = 0 ∧
      c1.Tags = [GameplayTag.Shared_Status_Dead] ∧
      c1.Broadcasts.length = 1 := by
  obtain ⟨c1, hrun, _, htags, hb, hzero⟩ :=
    C24_dead_combatant_still_processed (some AWarriorEnemyCharacter.PawnUI)
      AWarriorEnemyCharacter.PawnUI
      { Attributes := { UWarriorAttributeSet.ctor with MaxHealth := 100, CurrentHealth := 0 },
        Tags := [GameplayTag.Shared_Status_Dead], Broadcasts := [] } 10 rfl rfl (by decide)
  refine ⟨c1, hrun, hzero rfl (by norm_num) (by norm_num), htags, ?_⟩
  rw [hb]; rfl

/-- Claim C26: when the modified attribute is none of `CurrentHealth`,
`CurrentRage` and `DamageTaken`, the hook returns (pawn UI component present)
with every attribute value as it was written, the tag container and the
broadcasts unchanged; in particular a `MaxHealth` written below
`CurrentHealth` (or a `MaxRage` below `CurrentRage`) leaves the current value
above its maximum. -/
theorem C26_hook_frame (Avatar : Option IPawnUIInterface) (ui : IPawnUIInterface)
    (c : Combatant) (Attribute : EAttribute) (Value : ℚ)
    (hui : resolvePawnUI Avatar c.Attributes = some ui) (hcomp : ui.PawnUIComponent = true)
    (hother : ¬ IsVital Attribute) :
    (∃ c1, PostGameplayEffectExecute Avatar Attribute c = Except.ok c1 ∧
      c1.Attributes.CurrentHealth = c.Attributes.CurrentHealth ∧
      c1.Attributes.MaxHealth = c.Attributes.MaxHealth ∧
      c1.Attributes.CurrentRage = c.Attributes.CurrentRage ∧
      c1.Attributes.MaxRage = c.Attributes.MaxRage ∧
      c1.Attributes.AttackPower = c.Attributes.AttackPower ∧
      c1.Attributes.DefensePower = c.Attributes.DefensePower ∧
      c1.Attributes.DamageTaken = c.Attributes.DamageTaken ∧
      c1.Tags = c.Tags ∧ c1.Broadcasts = c.Broadcasts) ∧
    (∃ c1, executeModifier Avatar c (Attribute, Value) = Except.ok c1 ∧
      c1.Attributes = { c.Attributes.setValue Attribute Value with
        CachedPawnUIInterface := some ui } ∧
      c1.Tags = c.Tags ∧ c1.Broadcasts = c.Broadcasts ∧
      (Attribute = EAttribute.MaxHealth → Value < c.Attributes.CurrentHealth →
        c1.Attributes.CurrentHealth = c.Attributes.CurrentHealth ∧
        c1.Attributes.MaxHealth < c1.Attributes.CurrentHealth) ∧
      (Attribute = EAttribute.MaxRage → Value < c.Attributes.CurrentRage →
        c1.Attributes.CurrentRage = c.Attributes.CurrentRage ∧
        c1.Attributes.MaxRage < c1.Attributes.CurrentRage)) := by
  have hbranch : ∀ c0 : Combatant, attributeBranches ui Attribute c0 = c0 := by
    intro c0
    have h1 : Attribute ≠ EAttribute.CurrentHealth := fun h => hother (Or.inl h)
    have h2 : Attribute ≠ EAttribute.CurrentRage := fun h => hother (Or.inr (Or.inl h))
    have h3 : Attribute ≠ EAttribute.DamageTaken := fun h => hother (Or.inr (Or.inr h))
    simp only [attributeBranches, h1, h2, h3, if_false]
  constructor
  · refine ⟨_, PostGameplayEffectExecute_ok Avatar ui Attribute c hui hcomp, ?_⟩
    rw [hbranch]
    exact ⟨rfl, rfl, rfl, rfl, rfl, rfl, rfl, rfl, rfl⟩
  · refine ⟨_, executeModifier_ok Avatar ui c Attribute Value hui hcomp, ?_⟩
    rw [hbranch]
    refine ⟨rfl, rfl, rfl, fun ha hlt => ?_, fun ha hlt => ?_⟩
    · subst ha; exact ⟨rfl, hlt⟩
    · subst ha; exact ⟨rfl, hlt⟩

/-- Witness of C26: a hero at health 100 of 100 gets `MaxHealth` written to
50: the current health is still 100, above the new maximum, and nothing is
broadcast. -/
theorem C26_hook_frame_witness :
    ∃ c1, executeModifier (some AWarriorHeroCharacter.PawnUI)
        { Attributes := { UWarriorAttributeSet.ctor with MaxHealth := 100, CurrentHealth := 100 },
          Tags := [], Broadcasts := [] } (EAttribute.MaxHealth, 50) = Except.ok c1 ∧
      c1.Attributes.CurrentHealth = 100 ∧
      c1.Attributes.MaxHealth < c1.Attributes.CurrentHealth ∧
      c1.Broadcasts = [] := by
  obtain ⟨c1, hrun, _, _, hb, hmax, _⟩ :=
    (C26_hook_frame (some AWarriorHeroCharacter.PawnUI) AWarriorHeroCharacter.PawnUI
      { Attributes := { UWarriorAttributeSet.ctor with MaxHealth := 100, CurrentHealth := 100 },
        Tags := [], Broadcasts := [] } EAttribute.MaxHealth 50 rfl rfl (by decide)).2
  have h := hmax rfl (by norm_num)
  exact ⟨c1, hrun, h.1, h.2, hb⟩

/-- Reference count of a tag after `AddGameplayTagToActorIfNone` on another
tag: unchanged. -/
theorem count_Add_of_ne (Tags : TagContainer) (Tag Other : GameplayTag) (hne : Other ≠ Tag) :
    (AddGameplayTagToActorIfNone Tags Tag).count Other = Tags.count Other := by
  unfold AddGameplayTagToActorIfNone
  split
  · simp [AddLooseGameplayTag, List.count_cons_of_ne hne]
  · rfl

/-- Claim C27: the hook never removes the Dead tag and adds it on the
DamageTaken path only.  The executed modifier returns with a reference count
of Dead that is at least the one on entry, and equal to it when the attribute
is not `DamageTaken`; on `CurrentHealth` the whole tag container is unchanged
for every raw value, so a health clamped to 0 leaves a combatant without the
Dead tag without it, and a health raised above 0 leaves an existing Dead tag
in place. -/
theorem C27_dead_tag_only_on_damage (Avatar : Option IPawnUIInterface)
    (ui : IPawnUIInterface) (c : Combatant) (Attribute : EAttribute) (raw : ℚ)
    (hui : resolvePawnUI Avatar c.Attributes = some ui) (hcomp : ui.PawnUIComponent = true) :
    ∃ c1, executeModifier Avatar c (Attribute, raw) = Except.ok c1 ∧
      c.Tags.count GameplayTag.Shared_Status_Dead
        ≤ c1.Tags.count GameplayTag.Shared_Status_Dead ∧
      (Attribute ≠ EAttribute.DamageTaken →
        c1.Tags.count GameplayTag.Shared_Status_Dead
          = c.Tags.count GameplayTag.Shared_Status_Dead) ∧
      (Attribute = EAttribute.CurrentHealth →
        c1.Tags = c.Tags ∧
        c1.Attributes.CurrentHealth = Clamp raw 0 c.Attributes.MaxHealth ∧
        (HasMatchingGameplayTag c.Tags GameplayTag.Shared_Status_Dead = false →
          c1.Attributes.CurrentHealth = 0 →
          HasMatchingGameplayTag c1.Tags GameplayTag.Shared_Status_Dead = false) ∧
        (HasMatchingGameplayTag c.Tags GameplayTag.Shared_Status_Dead = true →
          0 < c1.Attributes.CurrentHealth →
          HasMatchingGameplayTag c1.Tags GameplayTag.Shared_Status_Dead = true)) := by
  refine ⟨_, executeModifier_ok Avatar ui c Attribute raw hui hcomp, ?_⟩
  have hFD : GameplayTag.Shared_Status_Dead ≠ GameplayTag.Player_Status_Rage_Full := by decide
  have hND : GameplayTag.Shared_Status_Dead ≠ GameplayTag.Player_Status_Rage_None := by decide
  cases Attribute
  case CurrentHealth =>
    simp only [attributeBranches, healthBranch, UWarriorAttributeSet.setValue, if_true,
      reduceCtorEq, if_false]
    exact ⟨le_refl _, fun _ => trivial, fun _ => ⟨trivial, trivial, fun h _ => h, fun h _ => h⟩⟩
  case CurrentRage =>
    have hcount : (attributeBranches ui EAttribute.CurrentRage
        { c with Attributes :=
            { c.Attributes.setValue EAttribute.CurrentRage raw with
              CachedPawnUIInterface := some ui } }).Tags.count GameplayTag.Shared_Status_Dead
        = c.Tags.count GameplayTag.Shared_Status_Dead := by
      simp only [attributeBranches, rageBranch, UWarriorAttributeSet.setValue, if_true,
        reduceCtorEq, if_false]
      split
      · exact count_Add_of_ne _ _ _ hFD
      · split
        · exact count_Add_of_ne _ _ _ hND
        · rw [count_Remove_of_ne _ _ _ hND, count_Remove_of_ne _ _ _ hFD]
    exact ⟨le_of_eq hcount.symm, fun _ => hcount, fun h => absurd h (by decide)⟩
  case DamageTaken =>
    refine ⟨?_, fun h => absurd rfl h, fun h => absurd h (by decide)⟩
    simp only [attributeBranches, damageBranch, UWarriorAttributeSet.setValue, if_true,
      reduceCtorEq, if_false]
    split
    · rw [count_AddGameplayTagToActorIfNone]; exact le_max_right _ _
    · exact le_refl _
  all_goals
    simp only [attributeBranches, reduceCtorEq, if_false]
    exact ⟨le_refl _, fun _ => trivial, fun h => absurd h (by decide)⟩

/-- Witness of C27: a hero without the Dead tag gets the raw health value -5;
the stored health is 0 and the Dead tag is still absent. -/
theorem C27_dead_tag_only_on_damage_witness :
    ∃ c1, executeModifier (some AWarriorHeroCharacter.PawnUI)
        { Attributes := { UWarriorAttributeSet.ctor with MaxHealth := 100, CurrentHealth := 30 },
          Tags := [], Broadcasts := [] } (EAttribute.CurrentHealth, -5) = Except.ok c1 ∧
      c1.Attributes.CurrentHealth = 0 ∧
      HasMatchingGameplayTag c1.Tags GameplayTag.Shared_Status_Dead = false := by
  obtain ⟨c1, hrun, _, _, hh⟩ :=
    C27_dead_tag_only_on_damage (some AWarriorHeroCharacter.PawnUI)
      AWarriorHeroCharacter.PawnUI
      { Attributes := { UWarriorAttributeSet.ctor with MaxHealth := 100, CurrentHealth := 30 },
        Tags := [], Broadcasts := [] } EAttribute.CurrentHealth (-5) rfl rfl
  obtain ⟨_, hval, habsent, _⟩ := hh rfl
  have hzero : c1.Attributes.CurrentHealth = 0 := by
    rw [hval]; norm_num [Clamp, UWarriorAttributeSet.ctor]
  exact ⟨c1, hrun, hzero, habsent rfl hzero⟩

/-! ## Theorems: hit-react direction and cooldown query -/

/-- Claim C29: for every signed angle `t`, the chain of conditions returns
`HitReact.Front` iff `-45 <= t <= 45`, `HitReact.Left` iff `-135 <= t < -45`,
`HitReact.Right` iff `45 < t <= 135` and `HitReact.Back` iff `t < -135` or
`t > 135`; the final fallback `return` is never reached, and with valid actors
`ComputeHitReactDirection` returns the tag of the chain at the signed angle
together with that angle. -/
theorem C29_hit_react_partition (t : ℚ) :
    hitReactReturn t ≠ HitReactReturn.Fallback ∧
    ((hitReactReturn t).tag = HitReactTag.Shared_Status_HitReact_Front ↔ -45 ≤ t ∧ t ≤ 45) ∧
    ((hitReactReturn t).tag = HitReactTag.Shared_Status_HitReact_Left ↔ -135 ≤ t ∧ t < -45) ∧
    ((hitReactReturn t).tag = HitReactTag.Shared_Status_HitReact_Right ↔ 45 < t ∧ t ≤ 135) ∧
    ((hitReactReturn t).tag = HitReactTag.Shared_Status_HitReact_Back ↔ t < -135 ∨ t > 135) ∧
    (∀ AngleDifference CrossResultZ : ℚ, signedAngle AngleDifference CrossResultZ = t →
      ComputeHitReactDirection true AngleDifference CrossResultZ
        = some ((hitReactReturn t).tag, t)) := by
  have hlast : ∀ AngleDifference CrossResultZ : ℚ,
      signedAngle AngleDifference CrossResultZ = t →
      ComputeHitReactDirection true AngleDifference CrossResultZ
        = some ((hitReactReturn t).tag, t) := by
    intro a z h
    simp only [ComputeHitReactDirection, if_true, h]
  by_cases h1 : t ≥ -45 ∧ t ≤ 45
  · have hr : hitReactReturn t = HitReactReturn.Front := by
      unfold hitReactReturn; rw [if_pos h1]
    rw [hr]
    refine ⟨(by decide), ⟨fun _ => h1, fun _ => rfl⟩, ⟨fun h => (by cases h), fun h => ?_⟩,
      ⟨fun h => (by cases h), fun h => ?_⟩, ⟨fun h => (by cases h), fun h => ?_⟩, hr ▸ hlast⟩
    · exact absurd h.2 (by linarith [h1.1])
    · exact absurd h.1 (by linarith [h1.2])
    · rcases h with h | h
      · exact absurd h (by linarith [h1.1])
      · exact absurd h (by linarith [h1.2])
  · by_cases h2 : t < 45 ∧ t ≥ -135
    · have hr : hitReactReturn t = HitReactReturn.Left := by
        unfold hitReactReturn; rw [if_neg h1, if_pos h2]
      have hlt : t < -45 := by
        by_contra hge
        exact h1 ⟨by linarith, by linarith [h2.1]⟩
      rw [hr]
      refine ⟨(by decide), ⟨fun h => (by cases h), fun h => absurd h h1⟩,
        ⟨fun _ => ⟨h2.2, hlt⟩, fun _ => rfl⟩,
        ⟨fun h => (by cases h), fun h => ?_⟩, ⟨fun h => (by cases h), fun h => ?_⟩, hr ▸ hlast⟩
      · exact absurd h.1 (by linarith)
      · rcases h with h | h
        · exact absurd h (by linarith [h2.2])
        · exact absurd h (by linarith)
    · by_cases h3 : t < -135 ∨ t > 135
      · have hr : hitReactReturn t = HitReactReturn.Back := by
          unfold hitReactReturn; rw [if_neg h1, if_neg h2, if_pos h3]
        rw [hr]
        refine ⟨(by decide), ⟨fun h => (by cases h), fun h => absurd h h1⟩,
          ⟨fun h => (by cases h), fun h => ?_⟩, ⟨fun h => (by cases h), fun h => ?_⟩,
          ⟨fun _ => h3, fun _ => rfl⟩, hr ▸ hlast⟩
        · rcases h3 with h3 | h3
          · exact absurd h.1 (by linarith)
          · exact absurd h.2 (by linarith)
        · rcases h3 with h3 | h3
          · exact absurd h.1 (by linarith)
          · exact absurd h.2 (by linarith)
      · have hge : -135 ≤ t := by
          by_contra h; exact h3 (Or.inl (by linarith))
        have hle : t ≤ 135 := by
          by_contra h; exact h3 (Or.inr (by linarith))
        have hgt : 45 < t := by
          by_contra h
          have h45 : t ≤ 45 := by linarith
          by_cases hm : -45 ≤ t
          · exact h1 ⟨hm, h45⟩
          · exact h2 ⟨by linarith, hge⟩
        have hr : hitReactReturn t = HitReactReturn.Right := by
          unfold hitReactReturn
          rw [if_neg h1, if_neg h2, if_neg h3, if_pos ⟨hgt, hle⟩]
        rw [hr]
        refine ⟨(by decide), ⟨fun h => (by cases h), fun h => absurd h h1⟩,
          ⟨fun h => (by cases h), fun h => ?_⟩, ⟨fun _ => ⟨hgt, hle⟩, fun _ => rfl⟩,
          ⟨fun h => (by cases h), fun h => absurd h h3⟩, hr ▸ hlast⟩
        exact absurd h.2 (by linarith)

/-- Witness of C29: the angle 90 of `DegAcos` with a negative cross product
(signed angle -90) gives `HitReact.Left`. -/
theorem C29_hit_react_partition_witness :
    ComputeHitReactDirection true 90 (-1)
      = some (HitReactTag.Shared_Status_HitReact_Left, -90) := by
  have hs : signedAngle 90 (-1) = -90 := by norm_num [signedAngle]
  have h := C29_hit_react_partition (-90)
  have htag : (hitReactReturn (-90)).tag = HitReactTag.Shared_Status_HitReact_Left :=
    h.2.2.1.mpr ⟨by norm_num, by norm_num⟩
  rw [h.2.2.2.2.2 90 (-1) hs, htag]

/-- Claim C30: with a valid cooldown tag, `GetAbilityRemainingCooldownByTag`
writes its out-parameters only when the query returns an active effect, taking
the remaining time and the duration of the first one and returning whether
that remaining time is positive; when no effect matches, `TotalCooldown` and
`RemainingCooldown` keep the values passed in and the returned boolean is
whether the caller's `RemainingCooldown` is positive, so it is `true` for a
positive stale value. -/
theorem C30_cooldown_out_parameters (TimeRemainingAndDuration : List (ℚ × ℚ))
    (TotalCooldown RemainingCooldown : ℚ) :
    (TimeRemainingAndDuration = [] →
      GetAbilityRemainingCooldownByTag true TimeRemainingAndDuration TotalCooldown
          RemainingCooldown
        = some (decide (RemainingCooldown > 0), TotalCooldown, RemainingCooldown)) ∧
    (∀ First Rest, TimeRemainingAndDuration = First :: Rest →
      GetAbilityRemainingCooldownByTag true TimeRemainingAndDuration TotalCooldown
          RemainingCooldown
        = some (decide (First.1 > 0), First.2, First.1)) ∧
    (TimeRemainingAndDuration = [] → 0 < RemainingCooldown →
      ∃ r, GetAbilityRemainingCooldownByTag true TimeRemainingAndDuration TotalCooldown
          RemainingCooldown = some r ∧ r.1 = true) := by
  refine ⟨fun h => ?_, fun First Rest h => ?_, fun h hpos => ?_⟩
  · subst h; rfl
  · subst h; rfl
  · subst h
    exact ⟨_, rfl, by simpa using hpos⟩

/-- Witness of C30: no active effect matches and the caller passes in the
stale values `TotalCooldown = 8` and `RemainingCooldown = 3`: both are kept
and the function returns `true`. -/
theorem C30_cooldown_out_parameters_witness :
    GetAbilityRemainingCooldownByTag true [] 8 3 = some (true, 8, 3) := by
  have h := (C30_cooldown_out_parameters [] 8 3).1 rfl
  rw [h]
  norm_num

/-! ## Theorems: rows of the transition table -/

/-- In a state other than `WaveCompleted` the last block of `Tick` does
nothing. -/
theorem tickWaveCompleted_of_ne (g : AWarriorSurvivalGameMode) (DeltaTime : ℚ)
    (hs : g.CurrentSurvivalGameModeState ≠ EWarriorSurvivalGameModeState.WaveCompleted) :
    tickWaveCompleted g DeltaTime = Except.ok g := by
  unfold tickWaveCompleted
  rw [if_neg hs]

/-- In a state other than `SpawningNewWave` the second block of `Tick` does
nothing. -/
theorem tickSpawningNewWave_of_ne (g : AWarriorSurvivalGameMode) (DeltaTime : ℚ)
    (hs : g.CurrentSurvivalGameModeState ≠ EWarriorSurvivalGameModeState.SpawningNewWave) :
    tickSpawningNewWave g DeltaTime = Except.ok g := by
  unfold tickSpawningNewWave
  rw [if_neg hs]

/-- In a state other than `WaitSpawnNewWave` the first block of `Tick` does
nothing. -/
theorem tickWaitSpawnNewWave_of_ne (g : AWarriorSurvivalGameMode) (DeltaTime : ℚ)
    (hs : g.CurrentSurvivalGameModeState ≠ EWarriorSurvivalGameModeState.WaitSpawnNewWave) :
    tickWaitSpawnNewWave g DeltaTime = g := by
  unfold tickWaitSpawnNewWave
  rw [if_neg hs]

/-- The second block of `Tick` in state `SpawningNewWave` before the delay has
elapsed: the delta is added to the elapsed time. -/
theorem tickSpawningNewWave_waiting (g : AWarriorSurvivalGameMode) (DeltaTime : ℚ)
    (hs : g.CurrentSurvivalGameModeState = EWarriorSurvivalGameModeState.SpawningNewWave)
    (hwait : ¬ g.TimePassedSinceStart + DeltaTime ≥ g.SpawnEnemiesDelayTime) :
    tickSpawningNewWave g DeltaTime = Except.ok
      { g with TimePassedSinceStart := g.TimePassedSinceStart + DeltaTime } := by
  unfold tickSpawningNewWave
  rw [if_pos hs]
  simp only
  rw [if_neg hwait]

/-- The second block of `Tick` in state `SpawningNewWave` once the delay has
elapsed: one `TrySpawnWaveEnemies` call, whose return value is added to the
live count, the elapsed time reset and the state set to `InProgress`. -/
theorem tickSpawningNewWave_elapsed (g : AWarriorSurvivalGameMode) (DeltaTime : ℚ)
    (hs : g.CurrentSurvivalGameModeState = EWarriorSurvivalGameModeState.SpawningNewWave)
    (hwait : g.TimePassedSinceStart + DeltaTime ≥ g.SpawnEnemiesDelayTime) :
    tickSpawningNewWave g DeltaTime =
      match TrySpawnWaveEnemies
          { g with TimePassedSinceStart := g.TimePassedSinceStart + DeltaTime } with
      | Except.error e => Except.error e
      | Except.ok (Spawned, g2) =>
        Except.ok (SetCurrentSurvivalGameModeState
          { g2 with
            CurrentSpawnedEnemiesCounter := g2.CurrentSpawnedEnemiesCounter + Spawned
            TimePassedSinceStart := 0 }
          EWarriorSurvivalGameModeState.InProgress) := by
  unfold tickSpawningNewWave
  rw [if_pos hs]
  simp only
  rw [if_pos hwait]

/-- Unfolding of `Tick` in state `SpawningNewWave`: only the second block
runs. -/
theorem Tick_of_SpawningNewWave (g : AWarriorSurvivalGameMode) (DeltaTime : ℚ)
    (hs : g.CurrentSurvivalGameModeState = EWarriorSurvivalGameModeState.SpawningNewWave) :
    Tick g DeltaTime =
      match tickSpawningNewWave g DeltaTime with
      | Except.error e => Except.error e
      | Except.ok g2 => tickWaveCompleted g2 DeltaTime := by
  have h1 : tickWaitSpawnNewWave g DeltaTime = g :=
    tickWaitSpawnNewWave_of_ne g DeltaTime (by rw [hs]; decide)
  simp only [Tick, h1]

/-- The game mode after the `WaitSpawnNewWave` block of `Tick` has fired: the
elapsed time reset and the state set to `SpawningNewWave`. -/
theorem tickWaitSpawnNewWave_elapsed (g : AWarriorSurvivalGameMode) (DeltaTime : ℚ)
    (hs : g.CurrentSurvivalGameModeState = EWarriorSurvivalGameModeState.WaitSpawnNewWave)
    (hwait : g.TimePassedSinceStart + DeltaTime ≥ g.SpawnNewWaveWaitTime) :
    tickWaitSpawnNewWave g DeltaTime =
      SetCurrentSurvivalGameModeState { g with TimePassedSinceStart := 0 }
        EWarriorSurvivalGameModeState.SpawningNewWave := by
  unfold tickWaitSpawnNewWave
  rw [if_pos hs]
  simp only
  rw [if_pos hwait]

/-- The game mode after the `WaitSpawnNewWave` block of `Tick` when the wait
has not elapsed: the delta is added to the elapsed time. -/
theorem tickWaitSpawnNewWave_waiting (g : AWarriorSurvivalGameMode) (DeltaTime : ℚ)
    (hs : g.CurrentSurvivalGameModeState = EWarriorSurvivalGameModeState.WaitSpawnNewWave)
    (hwait : ¬ g.TimePassedSinceStart + DeltaTime ≥ g.SpawnNewWaveWaitTime) :
    tickWaitSpawnNewWave g DeltaTime =
      { g with TimePassedSinceStart := g.TimePassedSinceStart + DeltaTime } := by
  unfold tickWaitSpawnNewWave
  rw [if_pos hs]
  simp only
  rw [if_neg hwait]

/-- In state `WaitSpawnNewWave`, once the wait has elapsed, `Tick` continues
with the `SpawningNewWave` block in the same call, on the reset elapsed
time. -/
theorem Tick_WaitSpawnNewWave_elapsed (g : AWarriorSurvivalGameMode) (DeltaTime : ℚ)
    (hs : g.CurrentSurvivalGameModeState = EWarriorSurvivalGameModeState.WaitSpawnNewWave)
    (hwait : g.TimePassedSinceStart + DeltaTime ≥ g.SpawnNewWaveWaitTime) :
    Tick g DeltaTime =
      Tick (SetCurrentSurvivalGameModeState { g with TimePassedSinceStart := 0 }
        EWarriorSurvivalGameModeState.SpawningNewWave) DeltaTime := by
  have hS : (SetCurrentSurvivalGameModeState { g with TimePassedSinceStart := 0 }
      EWarriorSurvivalGameModeState.SpawningNewWave).CurrentSurvivalGameModeState
      = EWarriorSurvivalGameModeState.SpawningNewWave := rfl
  rw [Tick_of_SpawningNewWave _ DeltaTime hS]
  simp only [Tick, tickWaitSpawnNewWave_elapsed g DeltaTime hs hwait]

/-- In state `SpawningNewWave`, before the delay has elapsed, `Tick` only adds
the delta to the elapsed time. -/
theorem Tick_SpawningNewWave_waiting (g : AWarriorSurvivalGameMode) (DeltaTime : ℚ)
    (hs : g.CurrentSurvivalGameModeState = EWarriorSurvivalGameModeState.SpawningNewWave)
    (hwait : ¬ g.TimePassedSinceStart + DeltaTime ≥ g.SpawnEnemiesDelayTime) :
    Tick g DeltaTime = Except.ok
      { g with TimePassedSinceStart := g.TimePassedSinceStart + DeltaTime } := by
  rw [Tick_of_SpawningNewWave g DeltaTime hs, tickSpawningNewWave_waiting g DeltaTime hs hwait]
  simp only
  exact tickWaveCompleted_of_ne _ DeltaTime (by
    show g.CurrentSurvivalGameModeState ≠ EWarriorSurvivalGameModeState.WaveCompleted
    rw [hs]; decide)

/-- In state `SpawningNewWave`, once the delay has elapsed and the spawn batch
has returned, `Tick` adds the returned value to the live count, resets the
elapsed time and sets the state to `InProgress`. -/
theorem Tick_SpawningNewWave_elapsed (g g2 : AWarriorSurvivalGameMode) (DeltaTime : ℚ)
    (Spawned : Int)
    (hs : g.CurrentSurvivalGameModeState = EWarriorSurvivalGameModeState.SpawningNewWave)
    (hwait : g.TimePassedSinceStart + DeltaTime ≥ g.SpawnEnemiesDelayTime)
    (hsp : TrySpawnWaveEnemies
        { g with TimePassedSinceStart := g.TimePassedSinceStart + DeltaTime }
      = Except.ok (Spawned, g2)) :
    Tick g DeltaTime = Except.ok (SetCurrentSurvivalGameModeState
      { g2 with
        CurrentSpawnedEnemiesCounter := g2.CurrentSpawnedEnemiesCounter + Spawned
        TimePassedSinceStart := 0 }
      EWarriorSurvivalGameModeState.InProgress) := by
  rw [Tick_of_SpawningNewWave g DeltaTime hs, tickSpawningNewWave_elapsed g DeltaTime hs hwait,
    hsp]
  simp only
  exact tickWaveCompleted_of_ne _ DeltaTime (by
    show EWarriorSurvivalGameModeState.InProgress ≠ EWarriorSurvivalGameModeState.WaveCompleted
    decide)

/-- In state `SpawningNewWave`, once the delay has elapsed, a spawn batch that
halts makes `Tick` halt. -/
theorem Tick_SpawningNewWave_fatal (g : AWarriorSurvivalGameMode) (DeltaTime : ℚ)
    (e : SurvivalFatal)
    (hs : g.CurrentSurvivalGameModeState = EWarriorSurvivalGameModeState.SpawningNewWave)
    (hwait : g.TimePassedSinceStart + DeltaTime ≥ g.SpawnEnemiesDelayTime)
    (hsp : TrySpawnWaveEnemies
        { g with TimePassedSinceStart := g.TimePassedSinceStart + DeltaTime }
      = Except.error e) :
    Tick g DeltaTime = Except.error e := by
  rw [Tick_of_SpawningNewWave g DeltaTime hs, tickSpawningNewWave_elapsed g DeltaTime hs hwait,
    hsp]

/-- In state `WaitSpawnNewWave`, before the wait has elapsed, `Tick` only adds
the delta to the elapsed time. -/
theorem Tick_WaitSpawnNewWave_waiting (g : AWarriorSurvivalGameMode) (DeltaTime : ℚ)
    (hs : g.CurrentSurvivalGameModeState = EWarriorSurvivalGameModeState.WaitSpawnNewWave)
    (hwait : ¬ g.TimePassedSinceStart + DeltaTime ≥ g.SpawnNewWaveWaitTime) :
    Tick g DeltaTime = Except.ok
      { g with TimePassedSinceStart := g.TimePassedSinceStart + DeltaTime } := by
  have hne2 : ({ g with TimePassedSinceStart := g.TimePassedSinceStart + DeltaTime } :
      AWarriorSurvivalGameMode).CurrentSurvivalGameModeState
      ≠ EWarriorSurvivalGameModeState.SpawningNewWave := by
    show g.CurrentSurvivalGameModeState ≠ _
    rw [hs]; decide
  have hne3 : ({ g with TimePassedSinceStart := g.TimePassedSinceStart + DeltaTime } :
      AWarriorSurvivalGameMode).CurrentSurvivalGameModeState
      ≠ EWarriorSurvivalGameModeState.WaveCompleted := by
    show g.CurrentSurvivalGameModeState ≠ _
    rw [hs]; decide
  simp only [Tick, tickWaitSpawnNewWave_waiting g DeltaTime hs hwait,
    tickSpawningNewWave_of_ne _ DeltaTime hne2]
  exact tickWaveCompleted_of_ne _ DeltaTime hne3

/-- In state `AllWavesDone` no block of `Tick` runs. -/
theorem Tick_of_AllWavesDone (g : AWarriorSurvivalGameMode) (DeltaTime : ℚ)
    (hs : g.CurrentSurvivalGameModeState = EWarriorSurvivalGameModeState.AllWavesDone) :
    Tick g DeltaTime = Except.ok g := by
  have h1 : tickWaitSpawnNewWave g DeltaTime = g :=
    tickWaitSpawnNewWave_of_ne g DeltaTime (by rw [hs]; decide)
  have h2 : tickSpawningNewWave g DeltaTime = Except.ok g :=
    tickSpawningNewWave_of_ne g DeltaTime (by rw [hs]; decide)
  simp only [Tick, h1, h2]
  exact tickWaveCompleted_of_ne g DeltaTime (by rw [hs]; decide)

/-- Claim C21, counterexample.  On the class defaults (wait 5, spawn delay
2.4) with the one-wave sample table, `Tick(5)` in state `WaitSpawnNewWave`
with elapsed time `0` has `elapsed + delta >= SpawnNewWaveWaitTime`, yet the
state after the call is `InProgress`, not `SpawningNewWave`: the
`SpawningNewWave` block of the same call ran on the reset elapsed time, spawned
one enemy and moved on. -/
theorem C21_wait_row_counterexample :
    (sampleGameMode 1 [] []).CurrentSurvivalGameModeState
      = EWarriorSurvivalGameModeState.WaitSpawnNewWave ∧
    (sampleGameMode 1 [] []).TimePassedSinceStart + 5
      ≥ (sampleGameMode 1 [] []).SpawnNewWaveWaitTime ∧
    ∃ g1, Tick (sampleGameMode 1 [] []) 5 = Except.ok g1 ∧
      g1.CurrentSurvivalGameModeState = EWarriorSurvivalGameModeState.InProgress ∧
      g1.CurrentSurvivalGameModeState ≠ EWarriorSurvivalGameModeState.SpawningNewWave ∧
      g1.CurrentSpawnedEnemiesCounter = 1 ∧
      g1.StateChangedBroadcasts = [EWarriorSurvivalGameModeState.SpawningNewWave,
        EWarriorSurvivalGameModeState.InProgress] := by
  have hw : (sampleGameMode 1 [] []).TimePassedSinceStart + 5
      ≥ (sampleGameMode 1 [] []).SpawnNewWaveWaitTime := by
    norm_num [sampleGameMode, AWarriorSurvivalGameMode.defaults]
  have hd : (SetCurrentSurvivalGameModeState
        { sampleGameMode 1 [] [] with TimePassedSinceStart := 0 }
        EWarriorSurvivalGameModeState.SpawningNewWave).TimePassedSinceStart + 5
      ≥ (SetCurrentSurvivalGameModeState
        { sampleGameMode 1 [] [] with TimePassedSinceStart := 0 }
        EWarriorSurvivalGameModeState.SpawningNewWave).SpawnEnemiesDelayTime := by
    norm_num [sampleGameMode, AWarriorSurvivalGameMode.defaults,
      SetCurrentSurvivalGameModeState]
  refine ⟨rfl, hw, ?_⟩
  rw [Tick_WaitSpawnNewWave_elapsed _ 5 rfl hw]
  obtain ⟨g2, hg2, hc, hb⟩ : ∃ g2, TrySpawnWaveEnemies
      { SetCurrentSurvivalGameModeState
          { sampleGameMode 1 [] [] with TimePassedSinceStart := 0 }
          EWarriorSurvivalGameModeState.SpawningNewWave with
        TimePassedSinceStart := (SetCurrentSurvivalGameModeState
          { sampleGameMode 1 [] [] with TimePassedSinceStart := 0 }
          EWarriorSurvivalGameModeState.SpawningNewWave).TimePassedSinceStart + 5 }
      = Except.ok (1, g2) ∧ g2.CurrentSpawnedEnemiesCounter = 0 ∧
        g2.StateChangedBroadcasts = [EWarriorSurvivalGameModeState.SpawningNewWave] :=
    ⟨_, rfl, rfl, rfl⟩
  rw [Tick_SpawningNewWave_elapsed _ g2 5 1 rfl hd hg2]
  refine ⟨_, rfl, rfl, ?_, ?_, ?_⟩
  · show EWarriorSurvivalGameModeState.InProgress
      ≠ EWarriorSurvivalGameModeState.SpawningNewWave
    decide
  · show g2.CurrentSpawnedEnemiesCounter + 1 = 1
    rw [hc]; rfl
  · show g2.StateChangedBroadcasts ++ [EWarriorSurvivalGameModeState.InProgress] = _
    rw [hb]; rfl

/-- Claim C21, as the code has it.  `Tick(delta)` in state `WaitSpawnNewWave`:
with `elapsed + delta < SpawnNewWaveWaitTime` the state stays and the elapsed
time grows by exactly `delta`; with `elapsed + delta >= SpawnNewWaveWaitTime`
the elapsed time is reset, `SpawningNewWave` is broadcast and the
`SpawningNewWave` block of the same call runs with the same `delta`: for
`delta < SpawnEnemiesDelayTime` the call ends in `SpawningNewWave` with
elapsed time `delta`; for `delta >= SpawnEnemiesDelayTime` it runs one spawn
batch and ends in `InProgress` (or halts when the batch halts). -/
theorem C21_wait_row_falls_through (g : AWarriorSurvivalGameMode) (DeltaTime : ℚ)
    (hs : g.CurrentSurvivalGameModeState = EWarriorSurvivalGameModeState.WaitSpawnNewWave) :
    (¬ g.TimePassedSinceStart + DeltaTime ≥ g.SpawnNewWaveWaitTime →
      Tick g DeltaTime = Except.ok
        { g with TimePassedSinceStart := g.TimePassedSinceStart + DeltaTime }) ∧
    (g.TimePassedSinceStart + DeltaTime ≥ g.SpawnNewWaveWaitTime →
      ¬ DeltaTime ≥ g.SpawnEnemiesDelayTime →
      ∃ g1, Tick g DeltaTime = Except.ok g1 ∧
        g1.CurrentSurvivalGameModeState = EWarriorSurvivalGameModeState.SpawningNewWave ∧
        g1.TimePassedSinceStart = DeltaTime ∧
        g1.StateChangedBroadcasts
          = g.StateChangedBroadcasts ++ [EWarriorSurvivalGameModeState.SpawningNewWave] ∧
        g1.CurrentSpawnedEnemiesCounter = g.CurrentSpawnedEnemiesCounter ∧
        g1.World = g.World) ∧
    (g.TimePassedSinceStart + DeltaTime ≥ g.SpawnNewWaveWaitTime →
      DeltaTime ≥ g.SpawnEnemiesDelayTime →
      (∀ Spawned g2,
        TrySpawnWaveEnemies
          { SetCurrentSurvivalGameModeState { g with TimePassedSinceStart := 0 }
              EWarriorSurvivalGameModeState.SpawningNewWave with
            TimePassedSinceStart := 0 + DeltaTime } = Except.ok (Spawned, g2) →
        ∃ g1, Tick g DeltaTime = Except.ok g1 ∧
          g1.CurrentSurvivalGameModeState = EWarriorSurvivalGameModeState.InProgress ∧
          g1.TimePassedSinceStart = 0 ∧
          g1.StateChangedBroadcasts
            = g.StateChangedBroadcasts ++ [EWarriorSurvivalGameModeState.SpawningNewWave,
                EWarriorSurvivalGameModeState.InProgress] ∧
          g1.CurrentSpawnedEnemiesCounter = g.CurrentSpawnedEnemiesCounter + Spawned) ∧
      (∀ e,
        TrySpawnWaveEnemies
          { SetCurrentSurvivalGameModeState { g with TimePassedSinceStart := 0 }
              EWarriorSurvivalGameModeState.SpawningNewWave with
            TimePassedSinceStart := 0 + DeltaTime } = Except.error e →
        Tick g DeltaTime = Except.error e)) := by
  have hS : (SetCurrentSurvivalGameModeState { g with TimePassedSinceStart := 0 }
      EWarriorSurvivalGameModeState.SpawningNewWave).CurrentSurvivalGameModeState
      = EWarriorSurvivalGameModeState.SpawningNewWave := rfl
  refine ⟨fun hw => Tick_WaitSpawnNewWave_waiting g DeltaTime hs hw, fun hw hd => ?_,
    fun hw hd => ⟨fun Spawned g2 hsp => ?_, fun e hsp => ?_⟩⟩
  · have hd2 : ¬ (SetCurrentSurvivalGameModeState { g with TimePassedSinceStart := 0 }
          EWarriorSurvivalGameModeState.SpawningNewWave).TimePassedSinceStart + DeltaTime
        ≥ (SetCurrentSurvivalGameModeState { g with TimePassedSinceStart := 0 }
          EWarriorSurvivalGameModeState.SpawningNewWave).SpawnEnemiesDelayTime := by
      show ¬ (0 : ℚ) + DeltaTime ≥ g.SpawnEnemiesDelayTime
      rw [zero_add]; exact hd
    rw [Tick_WaitSpawnNewWave_elapsed g DeltaTime hs hw,
      Tick_SpawningNewWave_waiting _ DeltaTime hS hd2]
    refine ⟨_, rfl, rfl, ?_, rfl, rfl, rfl⟩
    show (0 : ℚ) + DeltaTime = DeltaTime
    exact zero_add _
  · have hd2 : (SetCurrentSurvivalGameModeState { g with TimePassedSinceStart := 0 }
          EWarriorSurvivalGameModeState.SpawningNewWave).TimePassedSinceStart + DeltaTime
        ≥ (SetCurrentSurvivalGameModeState { g with TimePassedSinceStart := 0 }
          EWarriorSurvivalGameModeState.SpawningNewWave).SpawnEnemiesDelayTime := by
      show (0 : ℚ) + DeltaTime ≥ g.SpawnEnemiesDelayTime
      rw [zero_add]; exact hd
    obtain ⟨Row, _, hsame, _, _, _⟩ := TrySpawnWaveEnemies_ok _ g2 Spawned hsp
    rw [Tick_WaitSpawnNewWave_elapsed g DeltaTime hs hw,
      Tick_SpawningNewWave_elapsed _ g2 DeltaTime Spawned hS hd2 hsp]
    refine ⟨_, rfl, rfl, rfl, ?_, ?_⟩
    · show g2.StateChangedBroadcasts ++ [EWarriorSurvivalGameModeState.InProgress] = _
      rw [hsame.broadcasts]
      show (g.StateChangedBroadcasts ++ [EWarriorSurvivalGameModeState.SpawningNewWave])
        ++ [EWarriorSurvivalGameModeState.InProgress] = _
      simp
    · show g2.CurrentSpawnedEnemiesCounter + Spawned = _
      rw [hsame.current]
      rfl
  · have hd2 : (SetCurrentSurvivalGameModeState { g with TimePassedSinceStart := 0 }
          EWarriorSurvivalGameModeState.SpawningNewWave).TimePassedSinceStart + DeltaTime
        ≥ (SetCurrentSurvivalGameModeState { g with TimePassedSinceStart := 0 }
          EWarriorSurvivalGameModeState.SpawningNewWave).SpawnEnemiesDelayTime := by
      show (0 : ℚ) + DeltaTime ≥ g.SpawnEnemiesDelayTime
      rw [zero_add]; exact hd
    rw [Tick_WaitSpawnNewWave_elapsed g DeltaTime hs hw]
    exact Tick_SpawningNewWave_fatal _ DeltaTime e hS hd2 hsp

/-- Claim C21, worked example: the class defaults with the sample table, where
`Tick(5)` falls through both blocks and `Tick(1)` only adds `1` to the elapsed
time. -/
theorem C21_wait_row_falls_through_witness :
    (sampleGameMode 1 [] []).CurrentSurvivalGameModeState
      = EWarriorSurvivalGameModeState.WaitSpawnNewWave ∧
    Tick (sampleGameMode 1 [] []) 1 = Except.ok
      { sampleGameMode 1 [] [] with
        TimePassedSinceStart := (sampleGameMode 1 [] []).TimePassedSinceStart + 1 } :=
  ⟨rfl, (C21_wait_row_falls_through (sampleGameMode 1 [] []) 1 rfl).1
    (by norm_num [sampleGameMode, AWarriorSurvivalGameMode.defaults])⟩

/-- Claim C23.  `Tick` called in state `AllWavesDone` returns the game mode
unchanged for every delta (state, wave count, elapsed time, both enemy
counters and the world, hence nothing spawned), and so does every sequence of
`Tick` calls: the state stays `AllWavesDone`. -/
theorem C23_all_waves_done_terminal (g : AWarriorSurvivalGameMode)
    (hs : g.CurrentSurvivalGameModeState = EWarriorSurvivalGameModeState.AllWavesDone) :
    (∀ DeltaTime : ℚ, Tick g DeltaTime = Except.ok g) ∧
    (∀ DeltaTimes : List ℚ, ticksGameMode g DeltaTimes = Except.ok g) := by
  refine ⟨fun DeltaTime => Tick_of_AllWavesDone g DeltaTime hs, fun DeltaTimes => ?_⟩
  induction DeltaTimes with
  | nil => rfl
  | cons d ds ih =>
    unfold ticksGameMode at ih ⊢
    simp only [List.map_cons, callsGameMode, callGameMode, Tick_of_AllWavesDone g d hs]
    exact ih

/-- Claim C23, worked example: the sample game mode in state `AllWavesDone`
after three ticks of 10, 0 and 100 seconds. -/
theorem C23_all_waves_done_terminal_witness :
    ticksGameMode
      { sampleGameMode 1 [] [] with
        CurrentSurvivalGameModeState := EWarriorSurvivalGameModeState.AllWavesDone
        CurrentWaveCount := 2 } [10, 0, 100]
      = Except.ok
        { sampleGameMode 1 [] [] with
          CurrentSurvivalGameModeState := EWarriorSurvivalGameModeState.AllWavesDone
          CurrentWaveCount := 2 } :=
  (C23_all_waves_done_terminal
    { sampleGameMode 1 [] [] with
      CurrentSurvivalGameModeState := EWarriorSurvivalGameModeState.AllWavesDone
      CurrentWaveCount := 2 } rfl).2 [10, 0, 100]

/-! ## Theorems: preloading -/

/-- What a completed load leaves alone, and how the map of loaded classes
grows: classes already in the map stay, and a resolved class is in the map
afterwards. -/
theorem OnEnemyClassLoaded_frame (g : AWarriorSurvivalGameMode) (SoftClass : Nat)
    (Resolved : Bool) :
    (OnEnemyClassLoaded g SoftClass Resolved).EnemyWaveSpawnerDataTable
      = g.EnemyWaveSpawnerDataTable ∧
    (OnEnemyClassLoaded g SoftClass Resolved).CurrentWaveCount = g.CurrentWaveCount ∧
    (OnEnemyClassLoaded g SoftClass Resolved).CurrentSpawnedEnemiesCounter
      = g.CurrentSpawnedEnemiesCounter ∧
    (OnEnemyClassLoaded g SoftClass Resolved).StateChangedBroadcasts
      = g.StateChangedBroadcasts ∧
    (OnEnemyClassLoaded g SoftClass Resolved).World = g.World ∧
    (∀ c, c ∈ g.PreLoadedEnemyClassMap →
      c ∈ (OnEnemyClassLoaded g SoftClass Resolved).PreLoadedEnemyClassMap) ∧
    (Resolved = true →
      SoftClass ∈ (OnEnemyClassLoaded g SoftClass Resolved).PreLoadedEnemyClassMap) := by
  cases Resolved with
  | false =>
    exact ⟨rfl, rfl, rfl, rfl, rfl, fun c hc => hc, fun h => (by cases h)⟩
  | true =>
    refine ⟨rfl, rfl, rfl, rfl, rfl, fun c hc => ?_, fun _ => ?_⟩
    · show c ∈ (if SoftClass ∈ g.PreLoadedEnemyClassMap then g.PreLoadedEnemyClassMap
        else g.PreLoadedEnemyClassMap ++ [SoftClass])
      split
      · exact hc
      · exact List.mem_append_left _ hc
    · show SoftClass ∈ (if SoftClass ∈ g.PreLoadedEnemyClassMap then g.PreLoadedEnemyClassMap
        else g.PreLoadedEnemyClassMap ++ [SoftClass])
      split
      · assumption
      · simp

/-- A sequence of completed loads keeps the data table and the wave count, and
the map afterwards holds every class that was in it before or that completed
resolved. -/
theorem completeLoads_frame (Completed : List (Nat × Bool)) :
    ∀ g : AWarriorSurvivalGameMode,
      (completeLoads g Completed).EnemyWaveSpawnerDataTable = g.EnemyWaveSpawnerDataTable ∧
      (completeLoads g Completed).CurrentWaveCount = g.CurrentWaveCount ∧
      (∀ c, (c ∈ g.PreLoadedEnemyClassMap ∨ (c, true) ∈ Completed) →
        c ∈ (completeLoads g Completed).PreLoadedEnemyClassMap) := by
  induction Completed with
  | nil =>
    intro g
    refine ⟨rfl, rfl, fun c hc => ?_⟩
    rcases hc with hc | hc
    · exact hc
    · cases hc
  | cons p ps ih =>
    intro g
    obtain ⟨ht, hw, _, _, _, hkeep, hnew⟩ := OnEnemyClassLoaded_frame g p.1 p.2
    obtain ⟨iht, ihw, ihm⟩ := ih (OnEnemyClassLoaded g p.1 p.2)
    have hstep : completeLoads g (p :: ps) = completeLoads (OnEnemyClassLoaded g p.1 p.2) ps :=
      rfl
    rw [hstep]
    refine ⟨iht.trans ht, ihw.trans hw, fun c hc => ihm c ?_⟩
    rcases hc with hc | hc
    · exact Or.inl (hkeep c hc)
    · rcases List.mem_cons.mp hc with heq | hmem
      · left
        have h1 : p.1 = c := by rw [← heq]
        have h2 : p.2 = true := by rw [← heq]
        rw [← h1]
        exact hnew h2
      · exact Or.inr hmem

/-- A `TrySpawnWaveEnemies` call that stops at the missing-class check has
found the row of the current wave, and that row has a spawner entry whose
non-null class is not in the map of loaded classes. -/
theorem TrySpawnWaveEnemies_missing_class (g : AWarriorSurvivalGameMode)
    (hrun : TrySpawnWaveEnemies g = Except.error SurvivalFatal.EnemyClassNotPreloaded) :
    ∃ Row x c,
      FindRow g.EnemyWaveSpawnerDataTable (RowName.Wave g.CurrentWaveCount) = some Row ∧
      x ∈ Row.EnemyWaveSpawnerDefinitions ∧ x.SoftEnemyClassToSpawn = some c ∧
      c ∉ g.PreLoadedEnemyClassMap := by
  obtain ⟨hff, hft, hfw⟩ := fillTargetPointArray_frame g
  unfold TrySpawnWaveEnemies at hrun
  simp only at hrun
  split at hrun
  · exact absurd hrun (by simp)
  · cases hrow : GetCurrentWaveSpawnerTableRow (fillTargetPointArray g) with
    | error e =>
      rw [hrow] at hrun
      simp only [Except.error.injEq] at hrun
      subst hrun
      unfold GetCurrentWaveSpawnerTableRow at hrow
      split at hrow
      · exact absurd hrow (by simp)
      · exact absurd hrow (by simp)
    | ok Row =>
      rw [hrow] at hrun
      simp only at hrun
      cases hdefs : spawnDefinitions Row.EnemyWaveSpawnerDefinitions
          (fillTargetPointArray g) 0 with
      | ok res =>
        rw [hdefs] at hrun
        exact absurd hrun (by simp)
      | error e =>
        obtain ⟨pre, x, post, c, g1, n1, hsplit, hx, hc, _⟩ :=
          ((spawnDefinitions_error_iff Row Row.EnemyWaveSpawnerDefinitions
            (fillTargetPointArray g) 0 hrow).1).mp ⟨e, hdefs⟩
        have hrow0 : GetCurrentWaveSpawnerTableRow g = Except.ok Row := by
          rw [← hrow]
          exact (GetCurrentWaveSpawnerTableRow_congr hff).symm
        refine ⟨Row, x, c, ?_, ?_, hx, ?_⟩
        · unfold GetCurrentWaveSpawnerTableRow at hrow0
          split at hrow0
          · rename_i FoundRow hfind
            simp only [Except.ok.injEq] at hrow0
            rw [hfind, hrow0]
          · exact absurd hrow0 (by simp)
        · rw [hsplit]; simp
        · rw [← hff.preloaded]; exact hc

/-- Claim C25.  With waves left and the row of the current wave in the table,
`PreloadNextWaveEnemies` returns with an empty `PreLoadedEnemyClassMap` and
has requested, after the earlier requests, every non-null class of that row.
Once the loads have completed, each class of the row resolved, the map holds
every non-null `SoftEnemyClassToSpawn` of the row, and a `TrySpawnWaveEnemies`
call on any game mode with that map, the same table and the same
`CurrentWaveCount` does not stop at the missing-class check.  When all waves
are finished `PreloadNextWaveEnemies` returns the game mode unchanged. -/
theorem C25_preload_makes_spawning_safe (g : AWarriorSurvivalGameMode)
    (Row : FWarriorEnemyWaveSpawnerTableRow) (Completed : List (Nat × Bool)) :
    (¬ g.CurrentWaveCount > g.TotalWavesToSpawn →
      FindRow g.EnemyWaveSpawnerDataTable (RowName.Wave g.CurrentWaveCount) = some Row →
      (∀ c, c ∈ rowClasses Row → (c, true) ∈ Completed) →
      ∃ g1, PreloadNextWaveEnemies g = Except.ok g1 ∧
        g1.PreLoadedEnemyClassMap = [] ∧
        g1.World.RequestedLoads = g.World.RequestedLoads ++ rowClasses Row ∧
        (∀ x c, x ∈ Row.EnemyWaveSpawnerDefinitions → x.SoftEnemyClassToSpawn = some c →
          c ∈ (completeLoads g1 Completed).PreLoadedEnemyClassMap) ∧
        (completeLoads g1 Completed).CurrentWaveCount = g.CurrentWaveCount ∧
        (∀ g2 : AWarriorSurvivalGameMode,
          g2.EnemyWaveSpawnerDataTable = g.EnemyWaveSpawnerDataTable →
          g2.CurrentWaveCount = g.CurrentWaveCount →
          g2.PreLoadedEnemyClassMap = (completeLoads g1 Completed).PreLoadedEnemyClassMap →
          TrySpawnWaveEnemies g2 ≠ Except.error SurvivalFatal.EnemyClassNotPreloaded)) ∧
    (g.CurrentWaveCount > g.TotalWavesToSpawn → PreloadNextWaveEnemies g = Except.ok g) := by
  refine ⟨fun hfin hfind hall => ?_, fun hdone => ?_⟩
  · have hmem : ∀ x c, x ∈ Row.EnemyWaveSpawnerDefinitions → x.SoftEnemyClassToSpawn = some c →
        c ∈ (completeLoads
          { g with
            PreLoadedEnemyClassMap := []
            World := { g.World with
              RequestedLoads := g.World.RequestedLoads ++
                Row.EnemyWaveSpawnerDefinitions.filterMap
                  (fun SpawnerInfo => SpawnerInfo.SoftEnemyClassToSpawn) } }
          Completed).PreLoadedEnemyClassMap := by
      intro x c hx hc
      refine (completeLoads_frame Completed _).2.2 c (Or.inr (hall c ?_))
      unfold rowClasses
      exact List.mem_filterMap.mpr ⟨x, hx, hc⟩
    refine ⟨_, PreloadNextWaveEnemies_of_row g Row hfin hfind, rfl, rfl, hmem,
      (completeLoads_frame Completed _).2.1, fun g2 ht hw hm hrun => ?_⟩
    obtain ⟨Row2, x, c, hfind2, hx, hc, hnot⟩ := TrySpawnWaveEnemies_missing_class g2 hrun
    rw [ht, hw, hfind] at hfind2
    simp only [Option.some.injEq] at hfind2
    subst hfind2
    rw [hm] at hnot
    exact hnot (hmem x c hx hc)
  · have h : HasFinishedAllWaves g = true := by simpa [HasFinishedAllWaves] using hdone
    unfold PreloadNextWaveEnemies
    rw [if_pos h]

/-- Claim C25, worked example: the sample game mode with a stale map `[3]`;
the preload empties the map and requests class 7, the load of class 7
completes resolved, and the spawn batch that follows does not stop at the
missing-class check. -/
theorem C25_preload_makes_spawning_safe_witness :
    ∃ g1, PreloadNextWaveEnemies
        { sampleGameMode 1 [] [] with PreLoadedEnemyClassMap := [3] } = Except.ok g1 ∧
      g1.PreLoadedEnemyClassMap = [] ∧
      g1.World.RequestedLoads = [7] ∧
      (completeLoads g1 [(7, true)]).PreLoadedEnemyClassMap = [7] ∧
      TrySpawnWaveEnemies (completeLoads g1 [(7, true)])
        ≠ Except.error SurvivalFatal.EnemyClassNotPreloaded := by
  obtain ⟨g1, hrun, hmap, hreq, _, _, hsafe⟩ :=
    (C25_preload_makes_spawning_safe
      { sampleGameMode 1 [] [] with PreLoadedEnemyClassMap := [3] }
      { EnemyWaveSpawnerDefinitions :=
          [FWarriorEnemyWaveSpawnerInfo.mk (some 7) 1 3],
        TotalEnemyToSpawnThisWave := 1 }
      [(7, true)]).1 (by decide) rfl
      (fun c hc => (by
        simp only [rowClasses, List.filterMap_cons, List.filterMap_nil,
          List.mem_singleton] at hc
        subst hc
        exact List.mem_singleton.mpr rfl))
  have hrun2 := hrun
  rw [PreloadNextWaveEnemies_of_row
    { sampleGameMode 1 [] [] with PreLoadedEnemyClassMap := [3] }
    { EnemyWaveSpawnerDefinitions := [FWarriorEnemyWaveSpawnerInfo.mk (some 7) 1 3],
      TotalEnemyToSpawnThisWave := 1 } (by decide) rfl] at hrun2
  simp only [Except.ok.injEq] at hrun2
  refine ⟨g1, hrun, hmap, ?_, ?_, ?_⟩
  · rw [hreq]; rfl
  · rw [← hrun2]; rfl
  · rw [← hrun2]
    exact hsafe _ rfl rfl (by rw [← hrun2])

/-! ## Theorems: live-count accounting -/

/-- One spawn attempt adds to the list of spawned enemies exactly what it adds
to `EnemiesSpawnedThisTime`. -/
theorem spawnAttempt_log (cls : Nat) (g : AWarriorSurvivalGameMode) (n : Nat) :
    ((spawnAttempt cls g n).1.World.SpawnedEnemyClasses.length : Int) + (n : Int)
      = (g.World.SpawnedEnemyClasses.length : Int) + ((spawnAttempt cls g n).2 : Int) := by
  unfold spawnAttempt nextSpawnOutcome
  cases g.World.SpawnOutcomes with
  | nil =>
    simp only [if_true, List.length_append, List.length_singleton]
    push_cast; ring
  | cons b rest =>
    cases b
    · simp
    · simp only [if_true, List.length_append, List.length_singleton]
      push_cast; ring

/-- The inner loop adds to the list of spawned enemies exactly what it adds to
`EnemiesSpawnedThisTime`. -/
theorem spawnLoop_log (cls : Nat) (k : Nat) :
    ∀ (g : AWarriorSurvivalGameMode) (n : Nat) (b : Bool) (g1 : AWarriorSurvivalGameMode)
      (n1 : Nat),
      spawnLoop cls k g n = Except.ok (b, g1, n1) →
      (g1.World.SpawnedEnemyClasses.length : Int) + (n : Int)
        = (g.World.SpawnedEnemyClasses.length : Int) + (n1 : Int) := by
  induction k with
  | zero =>
    intro g n b g1 n1 hrun
    simp only [spawnLoop, Except.ok.injEq, Prod.mk.injEq] at hrun
    obtain ⟨_, hg, hn⟩ := hrun
    subst hg; subst hn
    rfl
  | succ k ih =>
    intro g n b g1 n1 hrun
    have hatt := spawnAttempt_log cls g n
    unfold spawnLoop at hrun
    cases hkeep : ShouldKeepSpawnEnemies (spawnAttempt cls g n).1 with
    | error e => rw [hkeep] at hrun; exact absurd hrun (by simp)
    | ok keep =>
      rw [hkeep] at hrun
      cases keep with
      | false =>
        simp only [Except.ok.injEq, Prod.mk.injEq] at hrun
        obtain ⟨_, hg, hn⟩ := hrun
        subst hg; subst hn
        exact hatt
      | true =>
        simp only at hrun
        have h := ih _ _ b g1 n1 hrun
        linarith

/-- The loop over the spawner definitions adds to the list of spawned enemies
exactly what it adds to `EnemiesSpawnedThisTime`. -/
theorem spawnDefinitions_log (defs : List FWarriorEnemyWaveSpawnerInfo) :
    ∀ (g : AWarriorSurvivalGameMode) (n : Nat) (b : Bool) (g1 : AWarriorSurvivalGameMode)
      (n1 : Nat),
      spawnDefinitions defs g n = Except.ok (b, g1, n1) →
      (g1.World.SpawnedEnemyClasses.length : Int) + (n : Int)
        = (g.World.SpawnedEnemyClasses.length : Int) + (n1 : Int) := by
  induction defs with
  | nil =>
    intro g n b g1 n1 hrun
    simp only [spawnDefinitions, Except.ok.injEq, Prod.mk.injEq] at hrun
    obtain ⟨_, hg, hn⟩ := hrun
    subst hg; subst hn
    rfl
  | cons x rest ih =>
    intro g n b g1 n1 hrun
    cases hx : x.SoftEnemyClassToSpawn with
    | none =>
      rw [spawnDefinitions_cons_none x rest g n hx] at hrun
      exact ih g n b g1 n1 hrun
    | some c =>
      have hdraw : (nextDraw g).2.World.SpawnedEnemyClasses = g.World.SpawnedEnemyClasses := by
        unfold nextDraw
        cases g.World.RandomDraws <;> rfl
      unfold spawnDefinitions at hrun
      simp only [hx] at hrun
      split at hrun
      · cases hloop : spawnLoop c
            (RandRange (nextDraw g).1 x.MinPerSpawnCount x.MaxPerSpawnCount).toNat
            (nextDraw g).2 n with
        | error e => rw [hloop] at hrun; exact absurd hrun (by simp)
        | ok res =>
          obtain ⟨b2, g2, n2⟩ := res
          have hl := spawnLoop_log c _ _ _ b2 g2 n2 hloop
          rw [hdraw] at hl
          rw [hloop] at hrun
          cases b2 with
          | true =>
            simp only [Except.ok.injEq, Prod.mk.injEq] at hrun
            obtain ⟨_, hg, hn⟩ := hrun
            subst hg; subst hn
            exact hl
          | false =>
            simp only at hrun
            have h := ih g2 n2 b g1 n1 hrun
            linarith
      · exact absurd hrun (by simp)

/-- The value `TrySpawnWaveEnemies` returns is the number of enemies it added
to the world. -/
theorem TrySpawnWaveEnemies_log (g g1 : AWarriorSurvivalGameMode) (Spawned : Int)
    (hrun : TrySpawnWaveEnemies g = Except.ok (Spawned, g1)) :
    spawnedBetween g g1 = Spawned := by
  obtain ⟨_, _, hfw⟩ := fillTargetPointArray_frame g
  unfold TrySpawnWaveEnemies at hrun
  simp only at hrun
  split at hrun
  · exact absurd hrun (by simp)
  · cases hrow : GetCurrentWaveSpawnerTableRow (fillTargetPointArray g) with
    | error e => rw [hrow] at hrun; exact absurd hrun (by simp)
    | ok Row =>
      rw [hrow] at hrun
      simp only at hrun
      cases hdefs : spawnDefinitions Row.EnemyWaveSpawnerDefinitions
          (fillTargetPointArray g) 0 with
      | error e => rw [hdefs] at hrun; exact absurd hrun (by simp)
      | ok res =>
        obtain ⟨b, g2, n2⟩ := res
        rw [hdefs] at hrun
        simp only [Except.ok.injEq, Prod.mk.injEq] at hrun
        obtain ⟨hn, hg⟩ := hrun
        subst hg; subst hn
        have h := spawnDefinitions_log _ _ 0 b g2 n2 hdefs
        rw [hfw] at h
        unfold spawnedBetween
        push_cast at h
        linarith

/-- The number of enemies spawned between a game mode and itself is `0`, and
the numbers over two consecutive stretches add up. -/
theorem spawnedBetween_add (g g1 g2 : AWarriorSurvivalGameMode) :
    spawnedBetween g g = 0 ∧
    spawnedBetween g g2 = spawnedBetween g g1 + spawnedBetween g1 g2 := by
  unfold spawnedBetween
  constructor
  · ring
  · ring

/-- The number of enemies spawned between two game modes with the same list of
spawned enemies is `0`. -/
theorem spawnedBetween_of_log (g g1 : AWarriorSurvivalGameMode)
    (h : g1.World.SpawnedEnemyClasses = g.World.SpawnedEnemyClasses) :
    spawnedBetween g g1 = 0 := by
  unfold spawnedBetween
  rw [h]; ring

/-- The first block of `Tick` touches neither the live count nor the world. -/
theorem tickWaitSpawnNewWave_accounting (g : AWarriorSurvivalGameMode) (DeltaTime : ℚ) :
    (tickWaitSpawnNewWave g DeltaTime).CurrentSpawnedEnemiesCounter
      = g.CurrentSpawnedEnemiesCounter ∧
    (tickWaitSpawnNewWave g DeltaTime).World = g.World := by
  unfold tickWaitSpawnNewWave
  split
  · simp only
    split
    · exact ⟨rfl, rfl⟩
    · exact ⟨rfl, rfl⟩
  · exact ⟨rfl, rfl⟩

/-- The second block of `Tick` adds to the live count the number of enemies it
spawned. -/
theorem tickSpawningNewWave_accounting (g g1 : AWarriorSurvivalGameMode) (DeltaTime : ℚ)
    (hrun : tickSpawningNewWave g DeltaTime = Except.ok g1) :
    g1.CurrentSpawnedEnemiesCounter
      = g.CurrentSpawnedEnemiesCounter + spawnedBetween g g1 := by
  unfold tickSpawningNewWave at hrun
  split at hrun
  · simp only at hrun
    split at hrun
    · cases hsp : TrySpawnWaveEnemies
          { g with TimePassedSinceStart := g.TimePassedSinceStart + DeltaTime } with
      | error e => rw [hsp] at hrun; exact absurd hrun (by simp)
      | ok res =>
        obtain ⟨Spawned, g2⟩ := res
        rw [hsp] at hrun
        simp only [Except.ok.injEq] at hrun
        subst hrun
        obtain ⟨Row, _, hsame, _, _, _⟩ := TrySpawnWaveEnemies_ok _ g2 Spawned hsp
        have hlog := TrySpawnWaveEnemies_log _ g2 Spawned hsp
        show g2.CurrentSpawnedEnemiesCounter + Spawned
          = g.CurrentSpawnedEnemiesCounter + spawnedBetween g _
        rw [hsame.current, ← hlog]
        rfl
    · simp only [Except.ok.injEq] at hrun
      subst hrun
      simp [spawnedBetween]
  · simp only [Except.ok.injEq] at hrun
    subst hrun
    rw [(spawnedBetween_add g g g).1, add_zero]

/-- The preload touches neither the live count nor the list of spawned
enemies. -/
theorem PreloadNextWaveEnemies_accounting (g g1 : AWarriorSurvivalGameMode)
    (hrun : PreloadNextWaveEnemies g = Except.ok g1) :
    g1.CurrentSpawnedEnemiesCounter = g.CurrentSpawnedEnemiesCounter ∧
    g1.World.SpawnedEnemyClasses = g.World.SpawnedEnemyClasses := by
  unfold PreloadNextWaveEnemies at hrun
  split at hrun
  · simp only [Except.ok.injEq] at hrun
    subst hrun
    exact ⟨rfl, rfl⟩
  · simp only at hrun
    split at hrun
    · exact absurd hrun (by simp)
    · simp only [Except.ok.injEq] at hrun
      subst hrun
      exact ⟨rfl, rfl⟩

/-- The third block of `Tick` touches neither the live count nor the list of
spawned enemies. -/
theorem tickWaveCompleted_accounting (g g1 : AWarriorSurvivalGameMode) (DeltaTime : ℚ)
    (hrun : tickWaveCompleted g DeltaTime = Except.ok g1) :
    g1.CurrentSpawnedEnemiesCounter = g.CurrentSpawnedEnemiesCounter ∧
    g1.World.SpawnedEnemyClasses = g.World.SpawnedEnemyClasses := by
  unfold tickWaveCompleted at hrun
  split at hrun
  · simp only at hrun
    split at hrun
    · split at hrun
      · simp only [Except.ok.injEq] at hrun
        subst hrun
        exact ⟨rfl, rfl⟩
      · have h := PreloadNextWaveEnemies_accounting _ g1 hrun
        exact h
    · simp only [Except.ok.injEq] at hrun
      subst hrun
      exact ⟨rfl, rfl⟩
  · simp only [Except.ok.injEq] at hrun
    subst hrun
    exact ⟨rfl, rfl⟩

/-- A `Tick` call never records a wave completion, and it adds to the live
count the number of enemies it spawned. -/
theorem Tick_accounting (g g1 : AWarriorSurvivalGameMode) (DeltaTime : ℚ)
    (hrun : Tick g DeltaTime = Except.ok g1) :
    completionsSoFar g1 = completionsSoFar g ∧
    g1.CurrentSpawnedEnemiesCounter
      = g.CurrentSpawnedEnemiesCounter + spawnedBetween g g1 := by
  constructor
  · obtain ⟨new, ⟨hb, _, _⟩, hnot, _⟩ := Tick_trace g g1 DeltaTime hrun
    unfold completionsSoFar
    rw [hb, List.count_append, List.count_eq_zero_of_not_mem hnot, add_zero]
  · obtain ⟨hc1, hw1⟩ := tickWaitSpawnNewWave_accounting g DeltaTime
    unfold Tick at hrun
    cases h2 : tickSpawningNewWave (tickWaitSpawnNewWave g DeltaTime) DeltaTime with
    | error e => rw [h2] at hrun; exact absurd hrun (by simp)
    | ok g2 =>
      rw [h2] at hrun
      simp only at hrun
      have ha2 := tickSpawningNewWave_accounting _ g2 DeltaTime h2
      obtain ⟨hc3, hw3⟩ := tickWaveCompleted_accounting g2 g1 DeltaTime hrun
      rw [hc3, ha2, hc1]
      unfold spawnedBetween
      rw [hw3, hw1]

/-- A call of `OnEnemyDestroyed` that returns never lowers the number of
recorded wave completions, and unless it records one (and resets the counters)
it lowers the live count by one and adds the number of enemies it spawned. -/
theorem OnEnemyDestroyed_accounting (g g1 : AWarriorSurvivalGameMode)
    (hrun : OnEnemyDestroyed g = Except.ok g1) :
    completionsSoFar g ≤ completionsSoFar g1 ∧
    (completionsSoFar g1 = completionsSoFar g →
      g1.CurrentSpawnedEnemiesCounter
        = g.CurrentSpawnedEnemiesCounter - 1 + spawnedBetween g g1) := by
  unfold OnEnemyDestroyed at hrun
  simp only at hrun
  cases hkeep : ShouldKeepSpawnEnemies
      { g with CurrentSpawnedEnemiesCounter := g.CurrentSpawnedEnemiesCounter - 1 } with
  | error e => rw [hkeep] at hrun; exact absurd hrun (by simp)
  | ok keep =>
    rw [hkeep] at hrun
    cases keep with
    | true =>
      simp only at hrun
      cases hsp : TrySpawnWaveEnemies
          { g with CurrentSpawnedEnemiesCounter := g.CurrentSpawnedEnemiesCounter - 1 } with
      | error e => rw [hsp] at hrun; exact absurd hrun (by simp)
      | ok res =>
        obtain ⟨Spawned, g2⟩ := res
        rw [hsp] at hrun
        simp only [Except.ok.injEq] at hrun
        subst hrun
        obtain ⟨Row, _, hsame, _, _, _⟩ := TrySpawnWaveEnemies_ok _ g2 Spawned hsp
        have hlog := TrySpawnWaveEnemies_log _ g2 Spawned hsp
        have hb : completionsSoFar
            { g2 with CurrentSpawnedEnemiesCounter := g2.CurrentSpawnedEnemiesCounter + Spawned }
            = completionsSoFar g := by
          unfold completionsSoFar
          show List.count _ g2.StateChangedBroadcasts = _
          rw [hsame.broadcasts]
        refine ⟨le_of_eq hb.symm, fun _ => ?_⟩
        show g2.CurrentSpawnedEnemiesCounter + Spawned
          = g.CurrentSpawnedEnemiesCounter - 1 + spawnedBetween g _
        rw [hsame.current, ← hlog]
        rfl
    | false =>
      simp only at hrun
      split at hrun
      · simp only [Except.ok.injEq] at hrun
        subst hrun
        have hb : completionsSoFar (SetCurrentSurvivalGameModeState
            { g with
              TotalSpawnedEnemiesThisWaveCounter := 0
              CurrentSpawnedEnemiesCounter := 0 }
            EWarriorSurvivalGameModeState.WaveCompleted) = completionsSoFar g + 1 := by
          unfold completionsSoFar SetCurrentSurvivalGameModeState
          simp
        refine ⟨?_, fun h => ?_⟩
        · rw [hb]; exact Nat.le_succ _
        · rw [hb] at h
          exact absurd h (Nat.succ_ne_self _)
      · simp only [Except.ok.injEq] at hrun
        subst hrun
        refine ⟨le_refl _, fun _ => ?_⟩
        simp [spawnedBetween]

/-- `RegisterSpawnedEnemy` leaves the world as it is. -/
theorem RegisterSpawnedEnemy_world (l : List (Option Nat)) :
    ∀ g : AWarriorSurvivalGameMode, (RegisterSpawnedEnemy g l).World = g.World := by
  induction l with
  | nil => intro g; rfl
  | cons x xs ih =>
    intro g
    cases x with
    | none => exact ih g
    | some v =>
      have h := ih { g with CurrentSpawnedEnemiesCounter := g.CurrentSpawnedEnemiesCounter + 1 }
      exact h

/-- One call on the game mode that returns never lowers the number of recorded
wave completions, and unless it records one the live count changes by the
enemies spawned plus the non-null enemies registered minus the enemies
destroyed in that call. -/
theorem callGameMode_accounting (g g1 : AWarriorSurvivalGameMode) (c : GameModeCall)
    (hrun : callGameMode g c = Except.ok g1) :
    completionsSoFar g ≤ completionsSoFar g1 ∧
    (completionsSoFar g1 = completionsSoFar g →
      g1.CurrentSpawnedEnemiesCounter
        = g.CurrentSpawnedEnemiesCounter + spawnedBetween g g1
          + registeredEnemies [c] - destroyedEnemies [c]) := by
  cases c with
  | Tick DeltaTime =>
    obtain ⟨hb, hc⟩ := Tick_accounting g g1 DeltaTime hrun
    refine ⟨le_of_eq hb.symm, fun _ => ?_⟩
    rw [hc]
    simp [registeredEnemies, destroyedEnemies]
  | OnEnemyDestroyed =>
    obtain ⟨hb, hc⟩ := OnEnemyDestroyed_accounting g g1 hrun
    refine ⟨hb, fun h => ?_⟩
    rw [hc h]
    simp only [registeredEnemies, destroyedEnemies]
    ring
  | RegisterSpawnedEnemy l =>
    simp only [callGameMode, Except.ok.injEq] at hrun
    subst hrun
    obtain ⟨_, hb, _, hc⟩ := RegisterSpawnedEnemy_frame l g
    have hw := RegisterSpawnedEnemy_world l g
    refine ⟨?_, fun _ => ?_⟩
    · unfold completionsSoFar; rw [hb]
    · rw [hc, spawnedBetween_of_log g _ (by rw [hw])]
      simp only [registeredEnemies, destroyedEnemies]
      ring
  | OnEnemyClassLoaded SoftClass Resolved =>
    simp only [callGameMode, Except.ok.injEq] at hrun
    subst hrun
    obtain ⟨_, _, hc, hb, hw, _, _⟩ := OnEnemyClassLoaded_frame g SoftClass Resolved
    refine ⟨?_, fun _ => ?_⟩
    · unfold completionsSoFar; rw [hb]
    · rw [hc, spawnedBetween_of_log g _ (by rw [hw])]
      simp [registeredEnemies, destroyedEnemies]

/-- The counts of registered and destroyed enemies of a sequence of calls are
those of its first call plus those of the rest. -/
theorem registered_destroyed_cons (c : GameModeCall) (cs : List GameModeCall) :
    registeredEnemies (c :: cs) = registeredEnemies [c] + registeredEnemies cs ∧
    destroyedEnemies (c :: cs) = destroyedEnemies [c] + destroyedEnemies cs := by
  cases c <;> simp [registeredEnemies, destroyedEnemies]

/-- A sequence of calls that returns never lowers the number of recorded wave
completions, and unless it records one the live count changes by the enemies
spawned plus the non-null enemies registered minus the enemies destroyed. -/
theorem callsGameMode_accounting (calls : List GameModeCall) :
    ∀ g g1 : AWarriorSurvivalGameMode, callsGameMode g calls = Except.ok g1 →
      completionsSoFar g ≤ completionsSoFar g1 ∧
      (completionsSoFar g1 = completionsSoFar g →
        g1.CurrentSpawnedEnemiesCounter
          = g.CurrentSpawnedEnemiesCounter + spawnedBetween g g1
            + registeredEnemies calls - destroyedEnemies calls) := by
  induction calls with
  | nil =>
    intro g g1 hrun
    simp only [callsGameMode, Except.ok.injEq] at hrun
    subst hrun
    refine ⟨le_refl _, fun _ => ?_⟩
    rw [(spawnedBetween_add g g g).1]
    simp [registeredEnemies, destroyedEnemies]
  | cons c cs ih =>
    intro g g1 hrun
    unfold callsGameMode at hrun
    cases h1 : callGameMode g c with
    | error e => rw [h1] at hrun; exact absurd hrun (by simp)
    | ok g2 =>
      rw [h1] at hrun
      simp only at hrun
      obtain ⟨hle1, hacc1⟩ := callGameMode_accounting g g2 c h1
      obtain ⟨hle2, hacc2⟩ := ih g2 g1 hrun
      refine ⟨le_trans hle1 hle2, fun h => ?_⟩
      have e1 : completionsSoFar g2 = completionsSoFar g := by omega
      have e2 : completionsSoFar g1 = completionsSoFar g2 := by omega
      obtain ⟨hr, hd⟩ := registered_destroyed_cons c cs
      rw [hacc2 e2, hacc1 e1, hr, hd, (spawnedBetween_add g g2 g1).2]
      ring

/-- Claim C28.  `TrySpawnWaveEnemies` returns exactly the amount by which it
raised `TotalSpawnedEnemiesThisWaveCounter`, which is the number of enemies it
added to the world (a failed `SpawnActor` adds to neither), and it leaves
`CurrentSpawnedEnemiesCounter` alone; `Tick` (in `SpawningNewWave`, delay
elapsed) and `OnEnemyDestroyed` (quota not met) add that returned value to
`CurrentSpawnedEnemiesCounter`.  Hence over any sequence of calls that returns
without recording a wave completion (the only place where the counters are
reset), `CurrentSpawnedEnemiesCounter` changes by the enemies spawned plus the
non-null enemies passed to `RegisterSpawnedEnemy` minus the number of
`OnEnemyDestroyed` calls. -/
theorem C28_live_count_accounting (g g1 : AWarriorSurvivalGameMode)
    (calls : List GameModeCall) :
    (∀ (h h2 : AWarriorSurvivalGameMode) (Spawned : Int),
      TrySpawnWaveEnemies h = Except.ok (Spawned, h2) →
      h2.TotalSpawnedEnemiesThisWaveCounter = h.TotalSpawnedEnemiesThisWaveCounter + Spawned ∧
      spawnedBetween h h2 = Spawned ∧
      h2.CurrentSpawnedEnemiesCounter = h.CurrentSpawnedEnemiesCounter) ∧
    (∀ (h h2 : AWarriorSurvivalGameMode) (DeltaTime : ℚ) (Spawned : Int),
      h.CurrentSurvivalGameModeState = EWarriorSurvivalGameModeState.SpawningNewWave →
      h.TimePassedSinceStart + DeltaTime ≥ h.SpawnEnemiesDelayTime →
      TrySpawnWaveEnemies { h with TimePassedSinceStart := h.TimePassedSinceStart + DeltaTime }
        = Except.ok (Spawned, h2) →
      ∃ h1, Tick h DeltaTime = Except.ok h1 ∧
        h1.CurrentSpawnedEnemiesCounter = h.CurrentSpawnedEnemiesCounter + Spawned) ∧
    (∀ (h h2 : AWarriorSurvivalGameMode) (Spawned : Int),
      ShouldKeepSpawnEnemies
        { h with CurrentSpawnedEnemiesCounter := h.CurrentSpawnedEnemiesCounter - 1 }
        = Except.ok true →
      TrySpawnWaveEnemies
        { h with CurrentSpawnedEnemiesCounter := h.CurrentSpawnedEnemiesCounter - 1 }
        = Except.ok (Spawned, h2) →
      ∃ h1, OnEnemyDestroyed h = Except.ok h1 ∧
        h1.CurrentSpawnedEnemiesCounter = h.CurrentSpawnedEnemiesCounter - 1 + Spawned) ∧
    (callsGameMode g calls = Except.ok g1 →
      completionsSoFar g1 = completionsSoFar g →
      g1.CurrentSpawnedEnemiesCounter
        = g.CurrentSpawnedEnemiesCounter + spawnedBetween g g1
          + registeredEnemies calls - destroyedEnemies calls) := by
  refine ⟨fun h h2 Spawned hsp => ?_, fun h h2 DeltaTime Spawned hs hw hsp => ?_,
    fun h h2 Spawned hkeep hsp => ?_, fun hrun hno => ?_⟩
  · obtain ⟨Row, _, hsame, _, htotal, _⟩ := TrySpawnWaveEnemies_ok h h2 Spawned hsp
    exact ⟨htotal, TrySpawnWaveEnemies_log h h2 Spawned hsp, hsame.current⟩
  · obtain ⟨Row, _, hsame, _, _, _⟩ := TrySpawnWaveEnemies_ok _ h2 Spawned hsp
    refine ⟨_, Tick_SpawningNewWave_elapsed h h2 DeltaTime Spawned hs hw hsp, ?_⟩
    show h2.CurrentSpawnedEnemiesCounter + Spawned = _
    rw [hsame.current]
  · obtain ⟨Row, _, hsame, _, _, _⟩ := TrySpawnWaveEnemies_ok _ h2 Spawned hsp
    refine ⟨{ h2 with CurrentSpawnedEnemiesCounter := h2.CurrentSpawnedEnemiesCounter + Spawned },
      ?_, ?_⟩
    · unfold OnEnemyDestroyed
      simp only [hkeep, hsp]
    · show h2.CurrentSpawnedEnemiesCounter + Spawned = _
      rw [hsame.current]
  · exact (callsGameMode_accounting calls g g1 hrun).2 hno

/-- Claim C28, worked example: the sample game mode with quota 3, next random
value 4 and a failed first `SpawnActor`.  Three enemies are registered, one of
them null, then one enemy is destroyed, which spawns a batch of two attempts of
which one succeeds: the live count ends at `0 + 1 + 2 - 1 = 2`. -/
theorem C28_live_count_accounting_witness :
    ∃ g1,
      callsGameMode (sampleGameMode 3 [4] [false, true])
        [GameModeCall.RegisterSpawnedEnemy [some 1, none, some 2],
          GameModeCall.OnEnemyDestroyed] = Except.ok g1 ∧
      spawnedBetween (sampleGameMode 3 [4] [false, true]) g1 = 1 ∧
      g1.CurrentSpawnedEnemiesCounter
        = (sampleGameMode 3 [4] [false, true]).CurrentSpawnedEnemiesCounter
          + spawnedBetween (sampleGameMode 3 [4] [false, true]) g1
          + registeredEnemies [GameModeCall.RegisterSpawnedEnemy [some 1, none, some 2],
              GameModeCall.OnEnemyDestroyed]
          - destroyedEnemies [GameModeCall.RegisterSpawnedEnemy [some 1, none, some 2],
              GameModeCall.OnEnemyDestroyed] ∧
      g1.CurrentSpawnedEnemiesCounter = 2 := by
  obtain ⟨g1, hrun, hno, hsp, hcur⟩ : ∃ g1,
      callsGameMode (sampleGameMode 3 [4] [false, true])
        [GameModeCall.RegisterSpawnedEnemy [some 1, none, some 2],
          GameModeCall.OnEnemyDestroyed] = Except.ok g1 ∧
      completionsSoFar g1 = completionsSoFar (sampleGameMode 3 [4] [false, true]) ∧
      spawnedBetween (sampleGameMode 3 [4] [false, true]) g1 = 1 ∧
      g1.CurrentSpawnedEnemiesCounter = 2 := ⟨_, rfl, rfl, rfl, rfl⟩
  exact ⟨g1, hrun, hsp,
    (C28_live_count_accounting (sampleGameMode 3 [4] [false, true]) g1
      [GameModeCall.RegisterSpawnedEnemy [some 1, none, some 2],
        GameModeCall.OnEnemyDestroyed]).2.2.2 hrun hno, hcur⟩
/-! ## Theorems: the spawning row and the quota -/

/-- Claim C22.  `Tick(delta)` in state `SpawningNewWave`: when
`elapsed + delta >= SpawnEnemiesDelayTime` it makes one `TrySpawnWaveEnemies`
call (on the game mode with the elapsed time advanced) and, when that call
returns `Spawned`, the state after `Tick` is `InProgress` (broadcast once),
the elapsed time is `0`, `CurrentSpawnedEnemiesCounter` and
`TotalSpawnedEnemiesThisWaveCounter` have both grown by `Spawned`, which is the
number of enemies added to the world, and the wave count is unchanged; `Tick`
halts when that call halts.  Otherwise the state stays `SpawningNewWave`,
nothing is broadcast, both counters and the world are untouched (no enemy
spawned) and the elapsed time grows by exactly `delta`. -/
theorem C22_spawning_row (g : AWarriorSurvivalGameMode) (DeltaTime : ℚ)
    (hs : g.CurrentSurvivalGameModeState = EWarriorSurvivalGameModeState.SpawningNewWave) :
    (g.TimePassedSinceStart + DeltaTime ≥ g.SpawnEnemiesDelayTime →
      (∀ Spawned g2,
        TrySpawnWaveEnemies
          { g with TimePassedSinceStart := g.TimePassedSinceStart + DeltaTime }
          = Except.ok (Spawned, g2) →
        ∃ g1, Tick g DeltaTime = Except.ok g1 ∧
          g1 = SetCurrentSurvivalGameModeState
            { g2 with
              CurrentSpawnedEnemiesCounter := g.CurrentSpawnedEnemiesCounter + Spawned
              TimePassedSinceStart := 0 }
            EWarriorSurvivalGameModeState.InProgress ∧
          g1.CurrentSurvivalGameModeState = EWarriorSurvivalGameModeState.InProgress ∧
          g1.StateChangedBroadcasts
            = g.StateChangedBroadcasts ++ [EWarriorSurvivalGameModeState.InProgress] ∧
          g1.TimePassedSinceStart = 0 ∧
          g1.CurrentSpawnedEnemiesCounter = g.CurrentSpawnedEnemiesCounter + Spawned ∧
          g1.TotalSpawnedEnemiesThisWaveCounter
            = g.TotalSpawnedEnemiesThisWaveCounter + Spawned ∧
          spawnedBetween g g1 = Spawned ∧
          g1.CurrentWaveCount = g.CurrentWaveCount) ∧
      (∀ e,
        TrySpawnWaveEnemies
          { g with TimePassedSinceStart := g.TimePassedSinceStart + DeltaTime }
          = Except.error e →
        Tick g DeltaTime = Except.error e)) ∧
    (¬ g.TimePassedSinceStart + DeltaTime ≥ g.SpawnEnemiesDelayTime →
      ∃ g1, Tick g DeltaTime = Except.ok g1 ∧
        g1 = { g with TimePassedSinceStart := g.TimePassedSinceStart + DeltaTime } ∧
        g1.CurrentSurvivalGameModeState = EWarriorSurvivalGameModeState.SpawningNewWave ∧
        g1.StateChangedBroadcasts = g.StateChangedBroadcasts ∧
        g1.TimePassedSinceStart = g.TimePassedSinceStart + DeltaTime ∧
        g1.CurrentSpawnedEnemiesCounter = g.CurrentSpawnedEnemiesCounter ∧
        g1.TotalSpawnedEnemiesThisWaveCounter = g.TotalSpawnedEnemiesThisWaveCounter ∧
        g1.World = g.World) := by
  refine ⟨fun hw => ⟨fun Spawned g2 hsp => ?_, fun e hsp => ?_⟩, fun hw => ?_⟩
  · obtain ⟨Row, _, hsame, _, htotal, _⟩ := TrySpawnWaveEnemies_ok _ g2 Spawned hsp
    have hlog := TrySpawnWaveEnemies_log _ g2 Spawned hsp
    refine ⟨_, Tick_SpawningNewWave_elapsed g g2 DeltaTime Spawned hs hw hsp, ?_, rfl, ?_, rfl,
      ?_, htotal, hlog, hsame.waveCount⟩
    · rw [hsame.current]
    · show g2.StateChangedBroadcasts ++ [EWarriorSurvivalGameModeState.InProgress] = _
      rw [hsame.broadcasts]
    · show g2.CurrentSpawnedEnemiesCounter + Spawned = _
      rw [hsame.current]
  · exact Tick_SpawningNewWave_fatal g DeltaTime e hs hw hsp
  · exact ⟨_, Tick_SpawningNewWave_waiting g DeltaTime hs hw, rfl, hs, rfl, rfl, rfl, rfl, rfl⟩

/-- Claim C22, worked example: the sample game mode in state `SpawningNewWave`
with quota 2, next random value 1 (two attempts) and a failed first
`SpawnActor`.  `Tick(3)` (delay 2.4) runs the batch, which spawns one enemy:
the state is `InProgress`, the elapsed time `0`, both counters `1`.  `Tick(1)`
only advances the elapsed time from `0` to `0 + 1`, the state staying
`SpawningNewWave`. -/
theorem C22_spawning_row_witness :
    (∃ g1,
      Tick { sampleGameMode 2 [1] [false, true] with
          CurrentSurvivalGameModeState := EWarriorSurvivalGameModeState.SpawningNewWave } 3
        = Except.ok g1 ∧
      g1.CurrentSurvivalGameModeState = EWarriorSurvivalGameModeState.InProgress ∧
      g1.StateChangedBroadcasts = [EWarriorSurvivalGameModeState.InProgress] ∧
      g1.TimePassedSinceStart = 0 ∧
      g1.CurrentSpawnedEnemiesCounter = 1 ∧
      g1.TotalSpawnedEnemiesThisWaveCounter = 1 ∧
      g1.World.SpawnedEnemyClasses = [7]) ∧
    (∃ g1,
      Tick { sampleGameMode 2 [1] [false, true] with
          CurrentSurvivalGameModeState := EWarriorSurvivalGameModeState.SpawningNewWave } 1
        = Except.ok g1 ∧
      g1.CurrentSurvivalGameModeState = EWarriorSurvivalGameModeState.SpawningNewWave ∧
      g1.TimePassedSinceStart = 0 + 1 ∧
      g1.World.SpawnedEnemyClasses = []) := by
  constructor
  · obtain ⟨g2, hsp, hlog⟩ : ∃ g2,
        TrySpawnWaveEnemies
          { ({ sampleGameMode 2 [1] [false, true] with
                CurrentSurvivalGameModeState := EWarriorSurvivalGameModeState.SpawningNewWave } :
              AWarriorSurvivalGameMode) with
            TimePassedSinceStart :=
              ({ sampleGameMode 2 [1] [false, true] with
                CurrentSurvivalGameModeState := EWarriorSurvivalGameModeState.SpawningNewWave } :
              AWarriorSurvivalGameMode).TimePassedSinceStart + 3 }
          = Except.ok (1, g2) ∧ g2.World.SpawnedEnemyClasses = [7] := ⟨_, rfl, rfl⟩
    obtain ⟨g1, hrun, heq, hstate, hb, htime, hcur, htot, _, _⟩ :=
      ((C22_spawning_row
        { sampleGameMode 2 [1] [false, true] with
          CurrentSurvivalGameModeState := EWarriorSurvivalGameModeState.SpawningNewWave }
        3 rfl).1
        (by norm_num [sampleGameMode, AWarriorSurvivalGameMode.defaults])).1 1 g2 hsp
    refine ⟨g1, hrun, hstate, hb, htime, ?_, ?_, ?_⟩
    · rw [hcur]; rfl
    · rw [htot]; rfl
    · rw [heq]; exact hlog
  · obtain ⟨g1, hrun, heq, hstate, _, htime, _, _, hworld⟩ :=
      (C22_spawning_row
        { sampleGameMode 2 [1] [false, true] with
          CurrentSurvivalGameModeState := EWarriorSurvivalGameModeState.SpawningNewWave }
        1 rfl).2
        (by norm_num [sampleGameMode, AWarriorSurvivalGameMode.defaults])
    refine ⟨g1, hrun, hstate, ?_, ?_⟩
    · rw [htime]; rfl
    · rw [hworld]; rfl

/-- Claim C12 fails on the code.  `TrySpawnWaveEnemies` tests the quota (through
`ShouldKeepSpawnEnemies`) only after each spawn attempt, never before the first
one.  Entered with the quota already reached (2 of 2), a spawner entry with
min 1 / max 3 whose class is preloaded and a spawn that succeeds, it spawns one
enemy, returns 1 and leaves the wave counter at 3.  The callers reach this:
after `BeginPlay` on a one-wave table with quota 1 and the completion of the
preload, an enemy is registered and destroyed; `OnEnemyDestroyed`, which calls
`TrySpawnWaveEnemies` behind `ShouldKeepSpawnEnemies`, refills the wave to 1 of
1 while the state is still `WaitSpawnNewWave`; `Tick(5)` then calls
`TrySpawnWaveEnemies` without that test, although `ShouldKeepSpawnEnemies` is
false, and the wave counter ends at 2 with a quota of 1. -/
theorem C12_quota_overshoot :
    (∃ g1, TrySpawnWaveEnemies
        { sampleGameMode 2 [0] [true] with TotalSpawnedEnemiesThisWaveCounter := 2 }
        = Except.ok (1, g1) ∧
      g1.TotalSpawnedEnemiesThisWaveCounter = 3 ∧
      g1.World.SpawnedEnemyClasses = [7]) ∧
    (∃ g0 gA g1 Row,
      BeginPlay (some (sampleTable 1))
        { LevelTargetPoints := 1, RandomDraws := [], SpawnOutcomes := [],
          SpawnedEnemyClasses := [], RequestedLoads := [] } = Except.ok g0 ∧
      callsGameMode g0
        [GameModeCall.OnEnemyClassLoaded 7 true, GameModeCall.RegisterSpawnedEnemy [some 1],
         GameModeCall.OnEnemyDestroyed] = Except.ok gA ∧
      gA.CurrentSurvivalGameModeState = EWarriorSurvivalGameModeState.WaitSpawnNewWave ∧
      GetCurrentWaveSpawnerTableRow gA = Except.ok Row ∧
      Row.TotalEnemyToSpawnThisWave = 1 ∧
      gA.TotalSpawnedEnemiesThisWaveCounter = 1 ∧
      ShouldKeepSpawnEnemies gA = Except.ok false ∧
      Tick gA 5 = Except.ok g1 ∧
      g1.CurrentSurvivalGameModeState = EWarriorSurvivalGameModeState.InProgress ∧
      GetCurrentWaveSpawnerTableRow g1 = Except.ok Row ∧
      g1.TotalSpawnedEnemiesThisWaveCounter = 2 ∧
      g1.World.SpawnedEnemyClasses = [7, 7]) := by
  refine ⟨⟨_, rfl, rfl, rfl⟩, ?_⟩
  obtain ⟨g0, gA, g2, Row, h0, hA, hstate, hrow, hquota, htotal, hkeep, htime, hwait, hdelay,
      hsp, hrow2, htotal2, hlog2⟩ :
      ∃ g0 gA g2 Row,
        BeginPlay (some (sampleTable 1))
          { LevelTargetPoints := 1, RandomDraws := [], SpawnOutcomes := [],
            SpawnedEnemyClasses := [], RequestedLoads := [] } = Except.ok g0 ∧
        callsGameMode g0
          [GameModeCall.OnEnemyClassLoaded 7 true, GameModeCall.RegisterSpawnedEnemy [some 1],
           GameModeCall.OnEnemyDestroyed] = Except.ok gA ∧
        gA.CurrentSurvivalGameModeState = EWarriorSurvivalGameModeState.WaitSpawnNewWave ∧
        GetCurrentWaveSpawnerTableRow gA = Except.ok Row ∧
        Row.TotalEnemyToSpawnThisWave = 1 ∧
        gA.TotalSpawnedEnemiesThisWaveCounter = 1 ∧
        ShouldKeepSpawnEnemies gA = Except.ok false ∧
        gA.TimePassedSinceStart = 0 ∧
        gA.SpawnNewWaveWaitTime = 5 ∧
        gA.SpawnEnemiesDelayTime = 2.4 ∧
        TrySpawnWaveEnemies
          { SetCurrentSurvivalGameModeState { gA with TimePassedSinceStart := 0 }
              EWarriorSurvivalGameModeState.SpawningNewWave with
            TimePassedSinceStart := (SetCurrentSurvivalGameModeState
              { gA with TimePassedSinceStart := 0 }
              EWarriorSurvivalGameModeState.SpawningNewWave).TimePassedSinceStart + 5 }
          = Except.ok (1, g2) ∧
        GetCurrentWaveSpawnerTableRow g2 = Except.ok Row ∧
        g2.TotalSpawnedEnemiesThisWaveCounter = 2 ∧
        g2.World.SpawnedEnemyClasses = [7, 7] :=
    ⟨_, _, _, _, rfl, rfl, rfl, rfl, rfl, rfl, rfl, rfl, rfl, rfl, rfl, rfl, rfl, rfl⟩
  have hw : gA.TimePassedSinceStart + 5 ≥ gA.SpawnNewWaveWaitTime := by
    rw [htime, hwait]; norm_num
  have hd : (SetCurrentSurvivalGameModeState { gA with TimePassedSinceStart := 0 }
        EWarriorSurvivalGameModeState.SpawningNewWave).TimePassedSinceStart + 5
      ≥ (SetCurrentSurvivalGameModeState { gA with TimePassedSinceStart := 0 }
        EWarriorSurvivalGameModeState.SpawningNewWave).SpawnEnemiesDelayTime := by
    show (0 : ℚ) + 5 ≥ gA.SpawnEnemiesDelayTime
    rw [hdelay]; norm_num
  refine ⟨g0, gA,
    SetCurrentSurvivalGameModeState
      { g2 with
        CurrentSpawnedEnemiesCounter := g2.CurrentSpawnedEnemiesCounter + 1
        TimePassedSinceStart := 0 }
      EWarriorSurvivalGameModeState.InProgress,
    Row, h0, hA, hstate, hrow, hquota, htotal, hkeep, ?_, ?_, ?_, ?_, ?_⟩
  · rw [Tick_WaitSpawnNewWave_elapsed gA 5 hstate hw]
    exact Tick_SpawningNewWave_elapsed _ g2 5 1 rfl hd hsp
  · rfl
  · exact hrow2
  · exact htotal2
  · exact hlog2
end Warrior
